import Mathlib

/-! SMSCB message FSM (`src/smscb_message_fsm.c`)

A shallow embedding of the master state machine of one SMSCB (cell broadcast)
message and of the message registry it is linked into.

* The code runs on libosmocore's generic FSM engine (`osmo_fsm_inst_state_chg`,
  `osmo_fsm_inst_dispatch`, `osmo_fsm_inst_broadcast_children`, the FSM timer).
  The engine is embedded here specialised to the `smscb_fsm` description.
* Calls that leave the file (`rest_it_op_*`, events dispatched to child
  FSMs) are recorded, in order, in a trace.
* `OSMO_ASSERT` failures abort the process; a handler that can abort returns
  an `Option`, `none` being the abort.
* `LOGP` lines have no effect on the state and are left out.
-/

namespace SmscbFsm

/-! ## Data model -/

/-- The enum of FSM states (`SMSCB_S_*`); the per-peer child FSMs use the same
constants for their own state. -/
inductive smscb_state
  | SMSCB_S_INIT
  | SMSCB_S_WAIT_WRITE_ACK
  | SMSCB_S_ACTIVE
  | SMSCB_S_WAIT_REPLACE_ACK
  | SMSCB_S_WAIT_STATUS_ACK
  | SMSCB_S_WAIT_DELETE_ACK
  | SMSCB_S_DELETED
  | SMSCB_S_EXPIRED
  deriving DecidableEq, Repr

/-- The enum of events of the message FSM (`SMSCB_MSG_E_*`). -/
inductive smscb_message_fsm_event
  | SMSCB_MSG_E_CHILD_DIED
  | SMSCB_MSG_E_CREATE
  | SMSCB_MSG_E_REPLACE
  | SMSCB_MSG_E_STATUS
  | SMSCB_MSG_E_DELETE
  | SMSCB_MSG_E_EXPIRE
  | SMSCB_MSG_E_WRITE_ACK
  | SMSCB_MSG_E_WRITE_NACK
  | SMSCB_MSG_E_REPLACE_ACK
  | SMSCB_MSG_E_REPLACE_NACK
  | SMSCB_MSG_E_DELETE_ACK
  | SMSCB_MSG_E_DELETE_NACK
  | SMSCB_MSG_E_STATUS_ACK
  | SMSCB_MSG_E_STATUS_NACK
  deriving DecidableEq, Repr

/-- The events the message FSM broadcasts to its children (`SMSCB_PEER_E_*`). -/
inductive smscb_peer_fsm_event
  | SMSCB_PEER_E_CREATE
  | SMSCB_PEER_E_REPLACE
  | SMSCB_PEER_E_STATUS
  | SMSCB_PEER_E_DELETE
  deriving DecidableEq, Repr

open smscb_state smscb_message_fsm_event smscb_peer_fsm_event

/-- The timer numbers `T_WAIT_WRITE_ACK` ... `T_ACTIVE_EXPIRY`. Their values are
declared in a header that is not part of the sources, so they are a parameter
of the embedding. -/
structure smscb_timer_numbers where
  T_WAIT_WRITE_ACK : Int
  T_WAIT_REPLACE_ACK : Int
  T_WAIT_STATUS_ACK : Int
  T_WAIT_DELETE_ACK : Int
  T_ACTIVE_EXPIRY : Int
  deriving DecidableEq, Repr

/-- The five timer numbers are pairwise different: they are the `case` labels
of one `switch` in `smscb_fsm_timer_cb`. -/
def smscb_timer_numbers.distinct (tn : smscb_timer_numbers) : Prop :=
  [tn.T_WAIT_WRITE_ACK, tn.T_WAIT_REPLACE_ACK, tn.T_WAIT_STATUS_ACK,
    tn.T_WAIT_DELETE_ACK, tn.T_ACTIVE_EXPIRY].Nodup

instance (tn : smscb_timer_numbers) : Decidable tn.distinct := by
  unfold smscb_timer_numbers.distinct; infer_instance

/-- A child FSM instance (`smscb_peer_fsm`) as far as the parent reads it:
its identity and its current state. -/
structure osmo_fsm_child where
  id : Nat
  state : smscb_state
  deriving DecidableEq, Repr

/-- The fields of `struct osmo_fsm_inst` the code uses. `timer` is `some d`
while the instance timer is pending, `d` being the `int` number of seconds it
was scheduled with: it is due `d` seconds after the call, at once when `d` is
not positive. -/
structure osmo_fsm_inst where
  state : smscb_state
  T : Int
  timer : Option Int
  children : List osmo_fsm_child
  deriving DecidableEq, Repr

/-- The fields of `struct cbc_message` the code uses; `it_op` is `none` for a
NULL pointer, `fi` is the FSM instance of the message. -/
structure cbc_message where
  message_id : Nat
  cbe_name : String
  warning_period_sec : Nat
  it_op : Option Nat
  peers : List Nat
  time_created : Nat
  time_expired : Nat
  fi : osmo_fsm_inst
  deriving DecidableEq, Repr

/-- The two global lists of `g_cbc`; a list holds the addresses of the messages
linked into it, head first. -/
structure cbc where
  messages : List Nat
  expired_messages : List Nat
  deriving DecidableEq, Repr

/-- A call that leaves this file. -/
inductive ext_call
  | set_http_result (op : Option Nat) (code : Nat) (body : String)
  | complete (op : Option Nat)
  | peer_dispatch (child : Nat) (event : smscb_peer_fsm_event) (data : Option Nat)
  deriving DecidableEq, Repr

/-- Everything a handler of one message can read or write: the global lists,
the message (at address `ptr`) with its FSM instance, the trace of outside
calls and the wall clock read by `time(NULL)`. -/
structure Sys where
  g_cbc : cbc
  ptr : Nat
  cbcmsg : cbc_message
  calls : List ext_call
  time_now : Nat
  deriving DecidableEq, Repr

/-! ## Helpers from outside the file -/

/-- Modelled from the spec: `rest_it_op_set_http_result` (rest_it_op.c is not
among the sources) is the handle's `set_result(code, text)`; the call is
recorded in the trace. -/
def rest_it_op_set_http_result (s : Sys) (op : Option Nat) (code : Nat) (body : String) : Sys :=
  { s with calls := s.calls ++ [ext_call.set_http_result op code body] }

/-- Modelled from the spec: `rest_it_op_complete` (rest_it_op.c is not among
the sources) is the handle's `complete()`; the call is recorded in the trace. -/
def rest_it_op_complete (s : Sys) (op : Option Nat) : Sys :=
  { s with calls := s.calls ++ [ext_call.complete op] }

/-- The list macro `llist_del(&cbcmsg->list)`: unlink the node from the list it is on. -/
def llist_del (g : cbc) (p : Nat) : cbc :=
  { messages := g.messages.filter (fun q => decide (q ≠ p)),
    expired_messages := g.expired_messages.filter (fun q => decide (q ≠ p)) }

/-- The timer call `osmo_timer_del(&fi->timer)`. -/
def osmo_timer_del (s : Sys) : Sys :=
  { s with cbcmsg := { s.cbcmsg with fi := { s.cbcmsg.fi with timer := none } } }

/-- The value an unsigned argument has once it is converted to a parameter of
type `int` (32 bits, two's complement): unchanged below 2^31, negative from
2^31 on. -/
def c_int (n : Nat) : Int :=
  if n % 2 ^ 32 < 2 ^ 31 then ((n % 2 ^ 32 : Nat) : Int) else ((n % 2 ^ 32 : Nat) : Int) - 2 ^ 32

/-- The timer call `osmo_timer_schedule(&fi->timer, secs, 0)`. The library's
parameter is `int seconds`; the callers pass unsigned values (the `uint32_t`
warning period, the timeout of a state change), which are converted. -/
def osmo_timer_schedule (s : Sys) (secs : Nat) : Sys :=
  { s with cbcmsg := { s.cbcmsg with fi := { s.cbcmsg.fi with timer := some (c_int secs) } } }

/-- Assignment `fi->T = T`. -/
def set_T (s : Sys) (T : Int) : Sys :=
  { s with cbcmsg := { s.cbcmsg with fi := { s.cbcmsg.fi with T := T } } }

/-- Assignment `cbcmsg->it_op = op`. -/
def set_it_op (s : Sys) (op : Option Nat) : Sys :=
  { s with cbcmsg := { s.cbcmsg with it_op := op } }

/-- The library call `osmo_fsm_inst_broadcast_children(fi, event, data)`: the
event is dispatched to every child on `fi->proc.children`, in list order. What
a child does with it is the child FSM's business. -/
def osmo_fsm_inst_broadcast_children (s : Sys) (event : smscb_peer_fsm_event)
    (data : Option Nat) : Sys :=
  { s with calls := s.calls ++
      s.cbcmsg.fi.children.map (fun child => ext_call.peer_dispatch child.id event data) }

/-! ## on-leave and on-enter hooks -/

/-- Source function `smscb_fsm_wait_write_ack_onleave`. -/
def smscb_fsm_wait_write_ack_onleave (s : Sys) (_new_state : smscb_state) : Sys :=
  set_it_op (rest_it_op_complete s s.cbcmsg.it_op) none

/-- Source function `smscb_fsm_wait_replace_ack_onleave`. -/
def smscb_fsm_wait_replace_ack_onleave (s : Sys) (_new_state : smscb_state) : Sys :=
  set_it_op (rest_it_op_complete s s.cbcmsg.it_op) none

/-- Source function `smscb_fsm_wait_status_ack_onleave`. -/
def smscb_fsm_wait_status_ack_onleave (s : Sys) (_new_state : smscb_state) : Sys :=
  set_it_op (rest_it_op_complete s s.cbcmsg.it_op) none

/-- Source function `smscb_fsm_wait_delete_ack_onleave`. -/
def smscb_fsm_wait_delete_ack_onleave (s : Sys) (_new_state : smscb_state) : Sys :=
  if s.cbcmsg.it_op.isSome then
    set_it_op (rest_it_op_complete s s.cbcmsg.it_op) none
  else s

/-- Source function `smscb_fsm_deleted_onenter`. -/
def smscb_fsm_deleted_onenter (s : Sys) (_old_state : smscb_state) : Sys :=
  let s1 := osmo_timer_del s
  let s2 := if s1.cbcmsg.it_op.isSome then
      set_it_op (rest_it_op_complete s1 s1.cbcmsg.it_op) none
    else s1
  let g1 := llist_del s2.g_cbc s2.ptr
  let g2 := { g1 with expired_messages := g1.expired_messages ++ [s2.ptr] }
  { s2 with g_cbc := g2, cbcmsg := { s2.cbcmsg with time_expired := s2.time_now } }

/-- Source function `smscb_fsm_expired_onenter`. -/
def smscb_fsm_expired_onenter (s : Sys) (_old_state : smscb_state) : Sys :=
  if s.cbcmsg.it_op.isSome then
    set_it_op (rest_it_op_complete s s.cbcmsg.it_op) none
  else s

/-- One entry of `smscb_fsm_states[]` without its `.action` (the actions call
`osmo_fsm_inst_state_chg`, which reads this table; they are tabulated in
`smscb_fsm_action` below). A mask is the list of the enum values whose bit is set. -/
structure osmo_fsm_state where
  name : Option String
  in_event_mask : List smscb_message_fsm_event
  out_state_mask : List smscb_state
  onleave : Option (Sys → smscb_state → Sys)
  onenter : Option (Sys → smscb_state → Sys)

/-- The table `smscb_fsm_states[]`. -/
def smscb_fsm_states : smscb_state → osmo_fsm_state
  | SMSCB_S_INIT =>
    { name := some "INIT",
      in_event_mask := [SMSCB_MSG_E_CREATE],
      out_state_mask := [SMSCB_S_WAIT_WRITE_ACK],
      onleave := none, onenter := none }
  | SMSCB_S_WAIT_WRITE_ACK =>
    { name := some "WAIT_WRITE_ACK",
      in_event_mask := [SMSCB_MSG_E_WRITE_ACK, SMSCB_MSG_E_WRITE_NACK],
      out_state_mask := [SMSCB_S_ACTIVE],
      onleave := some smscb_fsm_wait_write_ack_onleave, onenter := none }
  | SMSCB_S_ACTIVE =>
    { name := some "ACTIVE",
      in_event_mask := [SMSCB_MSG_E_REPLACE, SMSCB_MSG_E_STATUS, SMSCB_MSG_E_DELETE,
        SMSCB_MSG_E_EXPIRE],
      out_state_mask := [SMSCB_S_ACTIVE, SMSCB_S_WAIT_REPLACE_ACK, SMSCB_S_WAIT_STATUS_ACK,
        SMSCB_S_WAIT_DELETE_ACK, SMSCB_S_EXPIRED],
      onleave := none, onenter := none }
  | SMSCB_S_WAIT_REPLACE_ACK =>
    { name := some "WAIT_REPLACE_ACK",
      in_event_mask := [SMSCB_MSG_E_REPLACE_ACK, SMSCB_MSG_E_REPLACE_NACK],
      out_state_mask := [SMSCB_S_ACTIVE],
      onleave := some smscb_fsm_wait_replace_ack_onleave, onenter := none }
  | SMSCB_S_WAIT_STATUS_ACK =>
    { name := some "WAIT_STATUS_ACK",
      in_event_mask := [SMSCB_MSG_E_STATUS_ACK, SMSCB_MSG_E_STATUS_NACK],
      out_state_mask := [SMSCB_S_ACTIVE],
      onleave := some smscb_fsm_wait_status_ack_onleave, onenter := none }
  | SMSCB_S_WAIT_DELETE_ACK =>
    { name := some "WAIT_DELETE_ACK",
      in_event_mask := [SMSCB_MSG_E_DELETE_ACK, SMSCB_MSG_E_DELETE_NACK],
      out_state_mask := [SMSCB_S_DELETED],
      onleave := some smscb_fsm_wait_delete_ack_onleave, onenter := none }
  | SMSCB_S_DELETED =>
    { name := some "DELETED",
      in_event_mask := [],
      out_state_mask := [],
      onleave := none, onenter := some smscb_fsm_deleted_onenter }
  | SMSCB_S_EXPIRED =>
    { name := none,
      in_event_mask := [],
      out_state_mask := [],
      onleave := none, onenter := some smscb_fsm_expired_onenter }

/-- The mask `smscb_fsm.allstate_event_mask`. -/
def allstate_event_mask : List smscb_message_fsm_event := [SMSCB_MSG_E_CHILD_DIED]

/-! ## The FSM engine: state change -/

/-- Assignment `fi->state = st`. -/
def set_state (s : Sys) (st : smscb_state) : Sys :=
  { s with cbcmsg := { s.cbcmsg with fi := { s.cbcmsg.fi with state := st } } }

/-- The library call `osmo_fsm_inst_state_chg(fi, new_state, timeout_secs, T)`.
A state that is not in the current state's `out_state_mask` is refused with
`-EPERM` and nothing changes. Otherwise: the timer is deleted, the old state's
`onleave` runs, the state is set, `fi->T` is set and the timer armed when
`timeout_secs` is not zero, and the new state's `onenter` runs last. -/
def osmo_fsm_inst_state_chg (s : Sys) (new_state : smscb_state) (timeout_secs : Nat)
    (T : Int) : Int × Sys :=
  let old_state := s.cbcmsg.fi.state
  let st := smscb_fsm_states old_state
  if new_state ∈ st.out_state_mask then
    let s1 := osmo_timer_del s
    let s2 := match st.onleave with
      | some onleave => onleave s1 new_state
      | none => s1
    let s3 := set_T (set_state s2 new_state) T
    let s4 := if timeout_secs ≠ 0 then osmo_timer_schedule s3 timeout_secs else s3
    match (smscb_fsm_states new_state).onenter with
    | some onenter => (0, onenter s4 old_state)
    | none => (0, s4)
  else (-1, s)

/-! ## State actions -/

/-- Source function `smscb_fsm_init`. -/
def smscb_fsm_init (tn : smscb_timer_numbers) (s : Sys) (event : smscb_message_fsm_event)
    (data : Option Nat) : Option Sys :=
  match event with
  | SMSCB_MSG_E_CREATE =>
    if s.cbcmsg.it_op.isSome then none
    else
      let s1 := set_it_op s data
      let s2 := (osmo_fsm_inst_state_chg s1 SMSCB_S_WAIT_WRITE_ACK 15 tn.T_WAIT_WRITE_ACK).2
      some (osmo_fsm_inst_broadcast_children s2 SMSCB_PEER_E_CREATE none)
  | _ => none

/-- Source function `smscb_fsm_wait_write_ack`. -/
def smscb_fsm_wait_write_ack (tn : smscb_timer_numbers) (s : Sys)
    (event : smscb_message_fsm_event) (_data : Option Nat) : Option Sys :=
  match event with
  | SMSCB_MSG_E_WRITE_ACK | SMSCB_MSG_E_WRITE_NACK =>
    if s.cbcmsg.fi.children.any (fun peer_fi => decide (peer_fi.state ≠ SMSCB_S_ACTIVE)) then
      some s
    else
      let s1 := rest_it_op_set_http_result s s.cbcmsg.it_op 201 "Created"
      let s2 := (osmo_fsm_inst_state_chg s1 SMSCB_S_ACTIVE 0 0).2
      if s2.cbcmsg.warning_period_sec ≠ 0xffffffff then
        some (set_T (osmo_timer_schedule s2 s2.cbcmsg.warning_period_sec) tn.T_ACTIVE_EXPIRY)
      else some s2
  | _ => none

/-- Source function `smscb_fsm_active`. -/
def smscb_fsm_active (tn : smscb_timer_numbers) (s : Sys) (event : smscb_message_fsm_event)
    (data : Option Nat) : Option Sys :=
  match event with
  | SMSCB_MSG_E_REPLACE =>
    if s.cbcmsg.it_op.isSome then none
    else
      let s1 := set_it_op s data
      let s2 := (osmo_fsm_inst_state_chg s1 SMSCB_S_WAIT_REPLACE_ACK 15 tn.T_WAIT_REPLACE_ACK).2
      some (osmo_fsm_inst_broadcast_children s2 SMSCB_PEER_E_REPLACE data)
  | SMSCB_MSG_E_STATUS =>
    if s.cbcmsg.it_op.isSome then none
    else
      let s1 := set_it_op s data
      let s2 := (osmo_fsm_inst_state_chg s1 SMSCB_S_WAIT_STATUS_ACK 15 tn.T_WAIT_STATUS_ACK).2
      some (osmo_fsm_inst_broadcast_children s2 SMSCB_PEER_E_STATUS data)
  | SMSCB_MSG_E_DELETE =>
    if s.cbcmsg.it_op.isSome then none
    else
      let s1 := set_it_op s data
      let s2 := (osmo_fsm_inst_state_chg s1 SMSCB_S_WAIT_DELETE_ACK 15 tn.T_WAIT_DELETE_ACK).2
      some (osmo_fsm_inst_broadcast_children s2 SMSCB_PEER_E_DELETE data)
  | SMSCB_MSG_E_EXPIRE =>
    let g1 := llist_del s.g_cbc s.ptr
    let s1 := { s with g_cbc := { g1 with expired_messages := g1.expired_messages ++ [s.ptr] } }
    some (osmo_fsm_inst_state_chg s1 SMSCB_S_EXPIRED 0 0).2
  | _ => none

/-- Source function `smscb_fsm_wait_replace_ack`. -/
def smscb_fsm_wait_replace_ack (tn : smscb_timer_numbers) (s : Sys)
    (event : smscb_message_fsm_event) (_data : Option Nat) : Option Sys :=
  match event with
  | SMSCB_MSG_E_REPLACE_ACK | SMSCB_MSG_E_REPLACE_NACK =>
    if s.cbcmsg.fi.children.any
        (fun peer_fi => decide (peer_fi.state = SMSCB_S_WAIT_REPLACE_ACK)) then
      some s
    else
      let s1 := rest_it_op_set_http_result s s.cbcmsg.it_op 200 "OK"
      let s2 := (osmo_fsm_inst_state_chg s1 SMSCB_S_ACTIVE 0 0).2
      if s2.cbcmsg.warning_period_sec ≠ 0xffffffff then
        some (set_T (osmo_timer_schedule s2 s2.cbcmsg.warning_period_sec) tn.T_ACTIVE_EXPIRY)
      else some s2
  | _ => none

/-- Source function `smscb_fsm_wait_status_ack`. -/
def smscb_fsm_wait_status_ack (tn : smscb_timer_numbers) (s : Sys)
    (event : smscb_message_fsm_event) (_data : Option Nat) : Option Sys :=
  match event with
  | SMSCB_MSG_E_STATUS_ACK | SMSCB_MSG_E_STATUS_NACK =>
    if s.cbcmsg.fi.children.any
        (fun peer_fi => decide (peer_fi.state = SMSCB_S_WAIT_STATUS_ACK)) then
      some s
    else
      let s1 := rest_it_op_set_http_result s s.cbcmsg.it_op 200 "OK"
      let s2 := (osmo_fsm_inst_state_chg s1 SMSCB_S_ACTIVE 0 0).2
      if s2.cbcmsg.warning_period_sec ≠ 0xffffffff then
        some (set_T (osmo_timer_schedule s2 s2.cbcmsg.warning_period_sec) tn.T_ACTIVE_EXPIRY)
      else some s2
  | _ => none

/-- Source function `smscb_fsm_wait_delete_ack`. -/
def smscb_fsm_wait_delete_ack (s : Sys) (event : smscb_message_fsm_event)
    (_data : Option Nat) : Option Sys :=
  match event with
  | SMSCB_MSG_E_DELETE_ACK | SMSCB_MSG_E_DELETE_NACK =>
    if s.cbcmsg.fi.children.any (fun peer_fi => decide (peer_fi.state ≠ SMSCB_S_DELETED)) then
      some s
    else
      let s1 := rest_it_op_set_http_result s s.cbcmsg.it_op 200 "OK"
      some (osmo_fsm_inst_state_chg s1 SMSCB_S_DELETED 0 0).2
  | _ => none

/-- Source function `smscb_fsm_allstate`. -/
def smscb_fsm_allstate (s : Sys) (event : smscb_message_fsm_event) (_data : Option Nat) :
    Option Sys :=
  match event with
  | SMSCB_MSG_E_CHILD_DIED => some s
  | _ => none

/-- The `.action` column of `smscb_fsm_states[]`; DELETED and EXPIRED have none. -/
def smscb_fsm_action (tn : smscb_timer_numbers) :
    smscb_state → Option (Sys → smscb_message_fsm_event → Option Nat → Option Sys)
  | SMSCB_S_INIT => some (smscb_fsm_init tn)
  | SMSCB_S_WAIT_WRITE_ACK => some (smscb_fsm_wait_write_ack tn)
  | SMSCB_S_ACTIVE => some (smscb_fsm_active tn)
  | SMSCB_S_WAIT_REPLACE_ACK => some (smscb_fsm_wait_replace_ack tn)
  | SMSCB_S_WAIT_STATUS_ACK => some (smscb_fsm_wait_status_ack tn)
  | SMSCB_S_WAIT_DELETE_ACK => some smscb_fsm_wait_delete_ack
  | SMSCB_S_DELETED => none
  | SMSCB_S_EXPIRED => none

/-! ## The FSM engine: dispatch and timer -/

/-- The library call `osmo_fsm_inst_dispatch(fi, event, data)`: an event of the
all-state mask goes to the all-state action; any other event that is not in
the current state's `in_event_mask` is refused with `-1` and nothing changes;
otherwise the state's action (if it has one) runs. The result is the return
code and the new state, or `none` when an assertion aborted the process. -/
def osmo_fsm_inst_dispatch (tn : smscb_timer_numbers) (s : Sys)
    (event : smscb_message_fsm_event) (data : Option Nat) : Option (Int × Sys) :=
  if event ∈ allstate_event_mask then
    (smscb_fsm_allstate s event data).map (fun s1 => (0, s1))
  else if event ∈ (smscb_fsm_states s.cbcmsg.fi.state).in_event_mask then
    match smscb_fsm_action tn s.cbcmsg.fi.state with
    | some action => (action s event data).map (fun s1 => (0, s1))
    | none => some (0, s)
  else some (-1, s)

/-- Source function `smscb_fsm_timer_cb` (its return value is always 0). -/
def smscb_fsm_timer_cb (tn : smscb_timer_numbers) (s : Sys) : Option Sys :=
  if s.cbcmsg.fi.T = tn.T_WAIT_WRITE_ACK then
    some (osmo_fsm_inst_state_chg s SMSCB_S_ACTIVE 0 0).2
  else if s.cbcmsg.fi.T = tn.T_WAIT_REPLACE_ACK then
    some (osmo_fsm_inst_state_chg s SMSCB_S_ACTIVE 0 0).2
  else if s.cbcmsg.fi.T = tn.T_WAIT_STATUS_ACK then
    some (osmo_fsm_inst_state_chg s SMSCB_S_ACTIVE 0 0).2
  else if s.cbcmsg.fi.T = tn.T_WAIT_DELETE_ACK then
    some (osmo_fsm_inst_state_chg s SMSCB_S_DELETED 0 0).2
  else if s.cbcmsg.fi.T = tn.T_ACTIVE_EXPIRY then
    (osmo_fsm_inst_dispatch tn s SMSCB_MSG_E_EXPIRE none).map (fun r => r.2)
  else none

/-- Expiry of the instance timer (the library's `fsm_tmr_cb`): the timer is no
longer pending when `smscb_fsm_timer_cb` runs; the callback returns 0, so the
FSM instance is not terminated. -/
def fsm_tmr_cb (tn : smscb_timer_numbers) (s : Sys) : Option Sys :=
  smscb_fsm_timer_cb tn (osmo_timer_del s)

/-- Source function `smscb_fsm_cleanup`: the assertion that the list of peers
is empty, then the message is unlinked from the list it is on. -/
def smscb_fsm_cleanup (s : Sys) : Option Sys :=
  if s.cbcmsg.peers.isEmpty then some { s with g_cbc := llist_del s.g_cbc s.ptr }
  else none

/-! ## The registry and the objects that exist -/

/-- The process state: the global lists, the message objects (slot `p` of
`heap` holds the message allocated at address `p`, `none` once it is freed),
the trace of outside calls and the wall clock. -/
structure World where
  g_cbc : cbc
  heap : List (Option cbc_message)
  calls : List ext_call
  time_now : Nat
  deriving DecidableEq, Repr

/-- The message object at address `p`, if one exists. -/
def World.msg (w : World) (p : Nat) : Option cbc_message :=
  match w.heap[p]? with
  | some (some m) => some m
  | _ => none

/-- The view of the process a handler of the message at `p` works on. -/
def World.sys (w : World) (p : Nat) : Option Sys :=
  (w.msg p).map (fun m =>
    { g_cbc := w.g_cbc, ptr := p, cbcmsg := m, calls := w.calls, time_now := w.time_now })

/-- Write back what a handler left behind. -/
def World.put (w : World) (s : Sys) : World :=
  { g_cbc := s.g_cbc, heap := w.heap.set s.ptr (some s.cbcmsg), calls := s.calls,
    time_now := s.time_now }

/-- The process at start-up: both lists empty, no message exists. -/
def World.boot : World :=
  { g_cbc := { messages := [], expired_messages := [] }, heap := [], calls := [], time_now := 0 }

/-- Modelled from the spec: `cbc_message_by_id` (cbc_data.c is not among the
sources) is find-by-id over the live registry: the first message linked on
`g_cbc->messages` that has the identifier, NULL when there is none. -/
def cbc_message_by_id (w : World) (message_id : Nat) : Option Nat :=
  w.g_cbc.messages.find? (fun p =>
    match w.msg p with
    | some m => decide (m.message_id = message_id)
    | none => false)

/-- Source function `cbc_message_alloc`. `fi_mem` and `smscb_mem` say whether
`osmo_fsm_inst_alloc` and `talloc` return memory. The result is the returned
pointer (`none` for NULL) and the new process state. When `talloc` fails the
code terminates the fresh instance, whose clean-up reads through the NULL
`fi->priv`: that is an abort. A fresh instance is in state 0 (INIT), its timer
not pending, without children; the new object gets the next unused address. -/
def cbc_message_alloc (w : World) (orig_msg : cbc_message) (fi_mem smscb_mem : Bool) :
    Option (Option Nat × World) :=
  if (cbc_message_by_id w orig_msg.message_id).isSome then some (none, w)
  else if fi_mem = false then some (none, w)
  else if smscb_mem = false then none
  else
    let p := w.heap.length
    let fi : osmo_fsm_inst := { state := SMSCB_S_INIT, T := 0, timer := none, children := [] }
    let smscb : cbc_message :=
      { orig_msg with peers := [], fi := fi, it_op := none, time_created := w.time_now }
    some (some p,
      { w with heap := w.heap ++ [some smscb],
               g_cbc := { w.g_cbc with messages := w.g_cbc.messages ++ [p] } })

/-- Source function `cbc_message_free`: `osmo_fsm_inst_term` runs
`smscb_fsm_cleanup` and then frees the instance together with the message.
(Before the clean-up the library terminates the child FSMs, whose own
clean-up is outside this file; `peers` is the list as `smscb_fsm_cleanup`
finds it.) -/
def cbc_message_free (w : World) (p : Nat) : Option World :=
  match w.sys p with
  | none => none
  | some s =>
    (smscb_fsm_cleanup s).map (fun s1 =>
      { g_cbc := s1.g_cbc, heap := w.heap.set p none, calls := s1.calls,
        time_now := s1.time_now })

/-- What can happen to the process, one step at a time. -/
inductive Action
  | alloc (orig_msg : cbc_message) (fi_mem smscb_mem : Bool)
  | dispatch (p : Nat) (event : smscb_message_fsm_event) (data : Option Nat)
  | timer_expiry (p : Nat)
  | free (p : Nat)
  | peers_change (p : Nat) (children : List osmo_fsm_child) (peers : List Nat)
  | clock (t : Nat)
  deriving DecidableEq, Repr

/-- One step of the process. `none`: the step aborts the process or cannot
happen (no message at `p`, timer of `p` not pending). `peers_change` is the
environment: child FSMs come, go and change state on their own, and `clock`
is the passing of time. -/
def World.step (tn : smscb_timer_numbers) (w : World) : Action → Option World
  | Action.alloc orig_msg fi_mem smscb_mem =>
    (cbc_message_alloc w orig_msg fi_mem smscb_mem).map (fun r => r.2)
  | Action.dispatch p event data =>
    match w.sys p with
    | none => none
    | some s => (osmo_fsm_inst_dispatch tn s event data).map (fun r => w.put r.2)
  | Action.timer_expiry p =>
    match w.sys p with
    | none => none
    | some s =>
      if s.cbcmsg.fi.timer.isSome then (fsm_tmr_cb tn s).map (fun s1 => w.put s1) else none
  | Action.free p => cbc_message_free w p
  | Action.peers_change p children peers =>
    match w.sys p with
    | none => none
    | some s =>
      some (w.put { s with cbcmsg :=
        { s.cbcmsg with peers := peers, fi := { s.cbcmsg.fi with children := children } } })
  | Action.clock t => some { w with time_now := t }

/-- Run a sequence of steps from `w`. -/
def World.run (tn : smscb_timer_numbers) (w : World) : List Action → Option World
  | [] => some w
  | a :: rest =>
    match w.step tn a with
    | none => none
    | some w1 => World.run tn w1 rest

/-! ## Vocabulary of the properties -/

/-- The four states that wait for the children. -/
def is_wait_state : smscb_state → Bool
  | SMSCB_S_WAIT_WRITE_ACK => true
  | SMSCB_S_WAIT_REPLACE_ACK => true
  | SMSCB_S_WAIT_STATUS_ACK => true
  | SMSCB_S_WAIT_DELETE_ACK => true
  | _ => false

/-- The two states whose messages are on the expired list. -/
def is_terminated_state : smscb_state → Bool
  | SMSCB_S_DELETED => true
  | SMSCB_S_EXPIRED => true
  | _ => false

/-- The timer number a wait state is entered with. -/
def wait_timer (tn : smscb_timer_numbers) : smscb_state → Int
  | SMSCB_S_WAIT_WRITE_ACK => tn.T_WAIT_WRITE_ACK
  | SMSCB_S_WAIT_REPLACE_ACK => tn.T_WAIT_REPLACE_ACK
  | SMSCB_S_WAIT_STATUS_ACK => tn.T_WAIT_STATUS_ACK
  | SMSCB_S_WAIT_DELETE_ACK => tn.T_WAIT_DELETE_ACK
  | _ => 0

/-- The state a wait state is left for. -/
def wait_target : smscb_state → smscb_state
  | SMSCB_S_WAIT_DELETE_ACK => SMSCB_S_DELETED
  | _ => SMSCB_S_ACTIVE

/-- The handles `complete()` was called on, in call order. -/
def completions (calls : List ext_call) : List (Option Nat) :=
  calls.filterMap (fun c =>
    match c with
    | ext_call.complete op => some op
    | _ => none)

/-- The results set on handles, in call order. -/
def results (calls : List ext_call) : List (Option Nat × Nat × String) :=
  calls.filterMap (fun c =>
    match c with
    | ext_call.set_http_result op code body => some (op, code, body)
    | _ => none)

/-- A list move of the message at `p` to the tail of the expired list. -/
def moved_to_expired (g : cbc) (p : Nat) : cbc :=
  { messages := g.messages.filter (fun q => decide (q ≠ p)),
    expired_messages := g.expired_messages.filter (fun q => decide (q ≠ p)) ++ [p] }

/-- What the write, replace and status handlers do once their scan of the
children has not returned: set the result, change to ACTIVE, and start the
active expiry timer unless the warning period is 0xffffffff. -/
def barrier_to_active (tn : smscb_timer_numbers) (s : Sys) (code : Nat) (body : String) : Sys :=
  let s1 := rest_it_op_set_http_result s s.cbcmsg.it_op code body
  let s2 := (osmo_fsm_inst_state_chg s1 SMSCB_S_ACTIVE 0 0).2
  if s2.cbcmsg.warning_period_sec ≠ 0xffffffff then
    set_T (osmo_timer_schedule s2 s2.cbcmsg.warning_period_sec) tn.T_ACTIVE_EXPIRY
  else s2

/-- The scan a wait state makes over the children when an ACK or NACK comes
in: `true` when the handler returns without changing state. -/
def barrier_defers (s : Sys) : Bool :=
  match s.cbcmsg.fi.state with
  | SMSCB_S_WAIT_WRITE_ACK =>
    s.cbcmsg.fi.children.any (fun peer_fi => decide (peer_fi.state ≠ SMSCB_S_ACTIVE))
  | SMSCB_S_WAIT_REPLACE_ACK =>
    s.cbcmsg.fi.children.any (fun peer_fi => decide (peer_fi.state = SMSCB_S_WAIT_REPLACE_ACK))
  | SMSCB_S_WAIT_STATUS_ACK =>
    s.cbcmsg.fi.children.any (fun peer_fi => decide (peer_fi.state = SMSCB_S_WAIT_STATUS_ACK))
  | SMSCB_S_WAIT_DELETE_ACK =>
    s.cbcmsg.fi.children.any (fun peer_fi => decide (peer_fi.state ≠ SMSCB_S_DELETED))
  | _ => false

/-- The same process view with another list of children. -/
def with_children (s : Sys) (children : List osmo_fsm_child) : Sys :=
  { s with cbcmsg := { s.cbcmsg with fi := { s.cbcmsg.fi with children := children } } }

/-- The result the ACK branch of a wait state sets on the handle. -/
def ack_result : smscb_state → Nat × String
  | SMSCB_S_WAIT_WRITE_ACK => (201, "Created")
  | _ => (200, "OK")

/-- The process view without the trace of outside calls and without the timer
(`fi->timer` and `fi->T`). -/
def erase_calls_timer (s : Sys) : Sys :=
  { s with
    calls := [],
    cbcmsg := { s.cbcmsg with fi := { s.cbcmsg.fi with T := 0, timer := none } } }

/-- What a request leaves behind when it is accepted: `s1` is in the wait
state `st` with the handle `data` attached, the timer pending for 15 s under
the number `T`, the peer event sent once to each child of `s`, in list order
(with `peer_data`), after everything that was in the trace before, and both
global lists as they were. -/
def enters_wait (s s1 : Sys) (st : smscb_state) (T : Int) (data : Option Nat)
    (peer_event : smscb_peer_fsm_event) (peer_data : Option Nat) : Prop :=
  s1.cbcmsg.fi.state = st ∧
  s1.cbcmsg.it_op = data ∧
  s1.cbcmsg.fi.timer = some 15 ∧
  s1.cbcmsg.fi.T = T ∧
  s1.calls = s.calls ++ s.cbcmsg.fi.children.map
    (fun child => ext_call.peer_dispatch child.id peer_event peer_data) ∧
  s1.g_cbc = s.g_cbc

/-- What one run of a handler of the message at `s.ptr` does to the rest of
the process: the address and the identifier stay; a handle is attached
afterwards only in a wait state (if that was so before); and either both lists
stay and the message does not change between terminated and not terminated, or
a message that was not terminated becomes so and is moved to the tail of the
expired list. -/
def step_ok (s s1 : Sys) : Prop :=
  s1.ptr = s.ptr ∧
  s1.cbcmsg.message_id = s.cbcmsg.message_id ∧
  ((s.cbcmsg.it_op.isSome = true → is_wait_state s.cbcmsg.fi.state = true) →
    (s1.cbcmsg.it_op.isSome = true → is_wait_state s1.cbcmsg.fi.state = true)) ∧
  ((s1.g_cbc = s.g_cbc ∧
      is_terminated_state s1.cbcmsg.fi.state = is_terminated_state s.cbcmsg.fi.state) ∨
    (s1.g_cbc = moved_to_expired s.g_cbc s.ptr ∧
      is_terminated_state s1.cbcmsg.fi.state = true ∧
      is_terminated_state s.cbcmsg.fi.state = false))

/-- Invariant: a handle is attached only to a message in a wait state. -/
def World.handle_inv (w : World) : Prop :=
  ∀ p m, w.msg p = some m → m.it_op.isSome = true → is_wait_state m.fi.state = true

/-- Invariant: the two lists hold addresses of existing messages only; every
existing message is linked exactly once, and on the expired list exactly when
its state is DELETED or EXPIRED. -/
def World.registry_inv (w : World) : Prop :=
  (∀ q ∈ w.g_cbc.messages ++ w.g_cbc.expired_messages, (w.msg q).isSome = true) ∧
  (∀ p m, w.msg p = some m →
    (w.g_cbc.messages ++ w.g_cbc.expired_messages).count p = 1 ∧
    (p ∈ w.g_cbc.expired_messages ↔ is_terminated_state m.fi.state = true))

/-- Invariant: the messages on the live list have pairwise different identifiers. -/
def World.unique_ids (w : World) : Prop :=
  w.g_cbc.messages.Pairwise (fun p q =>
    ∀ mp mq, w.msg p = some mp → w.msg q = some mq → mp.message_id ≠ mq.message_id)

/-- The three invariants together. -/
def World.inv (w : World) : Prop :=
  w.handle_inv ∧ w.registry_inv ∧ w.unique_ids

/-- The edges of the transition graph of the lifecycle state. -/
def smscb_edge : smscb_state → smscb_state → Bool
  | SMSCB_S_INIT, SMSCB_S_WAIT_WRITE_ACK => true
  | SMSCB_S_WAIT_WRITE_ACK, SMSCB_S_ACTIVE => true
  | SMSCB_S_ACTIVE, SMSCB_S_WAIT_REPLACE_ACK => true
  | SMSCB_S_ACTIVE, SMSCB_S_WAIT_STATUS_ACK => true
  | SMSCB_S_ACTIVE, SMSCB_S_WAIT_DELETE_ACK => true
  | SMSCB_S_ACTIVE, SMSCB_S_EXPIRED => true
  | SMSCB_S_WAIT_REPLACE_ACK, SMSCB_S_ACTIVE => true
  | SMSCB_S_WAIT_STATUS_ACK, SMSCB_S_ACTIVE => true
  | SMSCB_S_WAIT_DELETE_ACK, SMSCB_S_DELETED => true
  | _, _ => false

/-- The timer number in `fi->T` is the one that belongs to the state: the
number of the wait state, or the active expiry number in ACTIVE. -/
def timer_matches (tn : smscb_timer_numbers) (fi : osmo_fsm_inst) : Prop :=
  (is_wait_state fi.state = true ∧ fi.T = wait_timer tn fi.state) ∨
  (fi.state = SMSCB_S_ACTIVE ∧ fi.T = tn.T_ACTIVE_EXPIRY)

/-- What entering DELETED leaves behind, `s` being the process just before
and `s1` just after: no timer pending, no handle attached, the message
unlinked from the lists and linked at the tail of the expired list (the other
entries of both lists as they were, in their order), the expiry time set to
the current time. -/
def deleted_effects (s s1 : Sys) : Prop :=
  s1.cbcmsg.fi.timer = none ∧
  s1.cbcmsg.it_op = none ∧
  s1.g_cbc.messages = s.g_cbc.messages.filter (fun q => decide (q ≠ s.ptr)) ∧
  s1.g_cbc.expired_messages =
    s.g_cbc.expired_messages.filter (fun q => decide (q ≠ s.ptr)) ++ [s.ptr] ∧
  s1.cbcmsg.time_expired = s.time_now

/-- The four administrative requests, which carry a handle. -/
def is_request : smscb_message_fsm_event → Bool
  | SMSCB_MSG_E_CREATE => true
  | SMSCB_MSG_E_REPLACE => true
  | SMSCB_MSG_E_STATUS => true
  | SMSCB_MSG_E_DELETE => true
  | _ => false

/-- The state the action of the current state asks `osmo_fsm_inst_state_chg`
for when `event` comes in; `none` when it asks for no change of state (the
scan of the children returns early, or the event is not one of the state). -/
def requested_state (s : Sys) (event : smscb_message_fsm_event) : Option smscb_state :=
  match s.cbcmsg.fi.state, event with
  | SMSCB_S_INIT, SMSCB_MSG_E_CREATE => some SMSCB_S_WAIT_WRITE_ACK
  | SMSCB_S_WAIT_WRITE_ACK, SMSCB_MSG_E_WRITE_ACK =>
    if barrier_defers s then none else some SMSCB_S_ACTIVE
  | SMSCB_S_WAIT_WRITE_ACK, SMSCB_MSG_E_WRITE_NACK =>
    if barrier_defers s then none else some SMSCB_S_ACTIVE
  | SMSCB_S_ACTIVE, SMSCB_MSG_E_REPLACE => some SMSCB_S_WAIT_REPLACE_ACK
  | SMSCB_S_ACTIVE, SMSCB_MSG_E_STATUS => some SMSCB_S_WAIT_STATUS_ACK
  | SMSCB_S_ACTIVE, SMSCB_MSG_E_DELETE => some SMSCB_S_WAIT_DELETE_ACK
  | SMSCB_S_ACTIVE, SMSCB_MSG_E_EXPIRE => some SMSCB_S_EXPIRED
  | SMSCB_S_WAIT_REPLACE_ACK, SMSCB_MSG_E_REPLACE_ACK =>
    if barrier_defers s then none else some SMSCB_S_ACTIVE
  | SMSCB_S_WAIT_REPLACE_ACK, SMSCB_MSG_E_REPLACE_NACK =>
    if barrier_defers s then none else some SMSCB_S_ACTIVE
  | SMSCB_S_WAIT_STATUS_ACK, SMSCB_MSG_E_STATUS_ACK =>
    if barrier_defers s then none else some SMSCB_S_ACTIVE
  | SMSCB_S_WAIT_STATUS_ACK, SMSCB_MSG_E_STATUS_NACK =>
    if barrier_defers s then none else some SMSCB_S_ACTIVE
  | SMSCB_S_WAIT_DELETE_ACK, SMSCB_MSG_E_DELETE_ACK =>
    if barrier_defers s then none else some SMSCB_S_DELETED
  | SMSCB_S_WAIT_DELETE_ACK, SMSCB_MSG_E_DELETE_NACK =>
    if barrier_defers s then none else some SMSCB_S_DELETED
  | _, _ => none

/-- Invariant: a pending timer carries the timer number of the state. -/
def World.timer_inv (tn : smscb_timer_numbers) (w : World) : Prop :=
  ∀ p m, w.msg p = some m → m.fi.timer.isSome = true → timer_matches tn m.fi

/-! ## Sample inputs -/

/-- A choice of timer numbers. -/
def sample_tn : smscb_timer_numbers :=
  { T_WAIT_WRITE_ACK := 1, T_WAIT_REPLACE_ACK := 2, T_WAIT_STATUS_ACK := 3,
    T_WAIT_DELETE_ACK := 4, T_ACTIVE_EXPIRY := 5 }

/-- Message 42 (warning period 30 s) at address 0, alone on the live list. -/
def sample_sys (state : smscb_state) (T : Int) (timer : Option Int) (it_op : Option Nat)
    (children : List osmo_fsm_child) : Sys :=
  { g_cbc := { messages := [0], expired_messages := [] },
    ptr := 0,
    cbcmsg :=
      { message_id := 42, cbe_name := "cbe", warning_period_sec := 30, it_op := it_op,
        peers := children.map (fun c => c.id), time_created := 0, time_expired := 0,
        fi := { state := state, T := T, timer := timer, children := children } },
    calls := [],
    time_now := 100 }

/-- A process with message 42 at address 0 on the live list, in state `state`. -/
def sample_world (state : smscb_state) : World :=
  { g_cbc := { messages := [0], expired_messages := [] },
    heap := [some (sample_sys state 0 none none []).cbcmsg],
    calls := [],
    time_now := 100 }

/-- A message as a caller hands it to `cbc_message_alloc`. -/
def sample_orig (message_id : Nat) : cbc_message :=
  { (sample_sys SMSCB_S_ACTIVE 9 (some 3) (some 8) [⟨1, SMSCB_S_ACTIVE⟩]).cbcmsg with
    message_id := message_id }

/-- Message 42 is created, its CREATE request (handle 7) is dispatched, the
15 s timer expires, the message expires; then 42 is created again. -/
def sample_acts : List Action :=
  [Action.alloc (sample_orig 42) true true,
   Action.dispatch 0 SMSCB_MSG_E_CREATE (some 7),
   Action.timer_expiry 0,
   Action.dispatch 0 SMSCB_MSG_E_EXPIRE none,
   Action.alloc (sample_orig 42) true true]

/-- The process after the first `n` steps of `sample_acts`. -/
def sample_after (n : Nat) : World :=
  (World.run sample_tn World.boot (sample_acts.take n)).getD World.boot

/-- The same process view, the message having another warning period. -/
def with_warning_period (s : Sys) (secs : Nat) : Sys :=
  { s with cbcmsg := { s.cbcmsg with warning_period_sec := secs } }

/-! ## Evaluation lemmas -/

theorem c_int_of_lt (n : Nat) (h : n < 2 ^ 31) : c_int n = (n : Int) := by
  have h1 : n % 2 ^ 32 = n := Nat.mod_eq_of_lt (by omega)
  unfold c_int
  rw [h1, if_pos h]

theorem c_int_of_ge (n : Nat) (h1 : 2 ^ 31 ≤ n) (h2 : n < 2 ^ 32) :
    c_int n = (n : Int) - 2 ^ 32 := by
  have h3 : n % 2 ^ 32 = n := Nat.mod_eq_of_lt h2
  unfold c_int
  rw [h3, if_neg (by omega)]

theorem c_int_fifteen : c_int 15 = 15 := c_int_of_lt 15 (by norm_num)

theorem dispatch_wait_write_ack (tn : smscb_timer_numbers) (s : Sys)
    (event : smscb_message_fsm_event) (data : Option Nat)
    (hstate : s.cbcmsg.fi.state = SMSCB_S_WAIT_WRITE_ACK)
    (hev : event = SMSCB_MSG_E_WRITE_ACK ∨ event = SMSCB_MSG_E_WRITE_NACK) :
    osmo_fsm_inst_dispatch tn s event data =
      some (0, if s.cbcmsg.fi.children.any (fun peer_fi => decide (peer_fi.state ≠ SMSCB_S_ACTIVE))
        then s else barrier_to_active tn s 201 "Created") := by
  rcases hev with rfl | rfl <;>
  · unfold osmo_fsm_inst_dispatch
    rw [hstate, if_neg (by decide), if_pos (by decide)]
    show Option.map _ (smscb_fsm_wait_write_ack tn s _ data) = _
    simp only [smscb_fsm_wait_write_ack, barrier_to_active]
    split
    · rfl
    · split <;> simp [*]

theorem dispatch_wait_replace_ack (tn : smscb_timer_numbers) (s : Sys)
    (event : smscb_message_fsm_event) (data : Option Nat)
    (hstate : s.cbcmsg.fi.state = SMSCB_S_WAIT_REPLACE_ACK)
    (hev : event = SMSCB_MSG_E_REPLACE_ACK ∨ event = SMSCB_MSG_E_REPLACE_NACK) :
    osmo_fsm_inst_dispatch tn s event data =
      some (0, if s.cbcmsg.fi.children.any
          (fun peer_fi => decide (peer_fi.state = SMSCB_S_WAIT_REPLACE_ACK))
        then s else barrier_to_active tn s 200 "OK") := by
  rcases hev with rfl | rfl <;>
  · unfold osmo_fsm_inst_dispatch
    rw [hstate, if_neg (by decide), if_pos (by decide)]
    show Option.map _ (smscb_fsm_wait_replace_ack tn s _ data) = _
    simp only [smscb_fsm_wait_replace_ack, barrier_to_active]
    split
    · rfl
    · split <;> simp [*]

theorem dispatch_wait_status_ack (tn : smscb_timer_numbers) (s : Sys)
    (event : smscb_message_fsm_event) (data : Option Nat)
    (hstate : s.cbcmsg.fi.state = SMSCB_S_WAIT_STATUS_ACK)
    (hev : event = SMSCB_MSG_E_STATUS_ACK ∨ event = SMSCB_MSG_E_STATUS_NACK) :
    osmo_fsm_inst_dispatch tn s event data =
      some (0, if s.cbcmsg.fi.children.any
          (fun peer_fi => decide (peer_fi.state = SMSCB_S_WAIT_STATUS_ACK))
        then s else barrier_to_active tn s 200 "OK") := by
  rcases hev with rfl | rfl <;>
  · unfold osmo_fsm_inst_dispatch
    rw [hstate, if_neg (by decide), if_pos (by decide)]
    show Option.map _ (smscb_fsm_wait_status_ack tn s _ data) = _
    simp only [smscb_fsm_wait_status_ack, barrier_to_active]
    split
    · rfl
    · split <;> simp [*]

theorem dispatch_wait_delete_ack (tn : smscb_timer_numbers) (s : Sys)
    (event : smscb_message_fsm_event) (data : Option Nat)
    (hstate : s.cbcmsg.fi.state = SMSCB_S_WAIT_DELETE_ACK)
    (hev : event = SMSCB_MSG_E_DELETE_ACK ∨ event = SMSCB_MSG_E_DELETE_NACK) :
    osmo_fsm_inst_dispatch tn s event data =
      some (0, if s.cbcmsg.fi.children.any (fun peer_fi => decide (peer_fi.state ≠ SMSCB_S_DELETED))
        then s
        else (osmo_fsm_inst_state_chg (rest_it_op_set_http_result s s.cbcmsg.it_op 200 "OK")
          SMSCB_S_DELETED 0 0).2) := by
  rcases hev with rfl | rfl <;>
  · unfold osmo_fsm_inst_dispatch
    rw [hstate, if_neg (by decide), if_pos (by decide)]
    show Option.map _ (smscb_fsm_wait_delete_ack s _ data) = _
    simp only [smscb_fsm_wait_delete_ack]
    split <;> rfl

/-- The state change to ACTIVE out of the write, replace or status wait state. -/
theorem state_chg_wait_active (s : Sys)
    (hstate : s.cbcmsg.fi.state = SMSCB_S_WAIT_WRITE_ACK ∨
      s.cbcmsg.fi.state = SMSCB_S_WAIT_REPLACE_ACK ∨ s.cbcmsg.fi.state = SMSCB_S_WAIT_STATUS_ACK) :
    osmo_fsm_inst_state_chg s SMSCB_S_ACTIVE 0 0 =
      (0, { s with
        calls := s.calls ++ [ext_call.complete s.cbcmsg.it_op],
        cbcmsg := { s.cbcmsg with
          it_op := none,
          fi := { s.cbcmsg.fi with state := SMSCB_S_ACTIVE, T := 0, timer := none } } }) := by
  rcases hstate with h | h | h <;>
  simp [osmo_fsm_inst_state_chg, h, smscb_fsm_states, osmo_timer_del,
    smscb_fsm_wait_write_ack_onleave, smscb_fsm_wait_replace_ack_onleave,
    smscb_fsm_wait_status_ack_onleave, set_it_op, rest_it_op_complete, set_state, set_T]

/-- The state change to DELETED out of the delete wait state. -/
theorem state_chg_wait_deleted (s : Sys)
    (hstate : s.cbcmsg.fi.state = SMSCB_S_WAIT_DELETE_ACK) :
    osmo_fsm_inst_state_chg s SMSCB_S_DELETED 0 0 =
      (0, { s with
        g_cbc := moved_to_expired s.g_cbc s.ptr,
        calls := if s.cbcmsg.it_op.isSome then s.calls ++ [ext_call.complete s.cbcmsg.it_op]
          else s.calls,
        cbcmsg := { s.cbcmsg with
          it_op := none,
          time_expired := s.time_now,
          fi := { s.cbcmsg.fi with state := SMSCB_S_DELETED, T := 0, timer := none } } }) := by
  cases hop : s.cbcmsg.it_op <;>
  simp [osmo_fsm_inst_state_chg, hstate, hop, smscb_fsm_states, osmo_timer_del,
    smscb_fsm_wait_delete_ack_onleave, smscb_fsm_deleted_onenter, set_it_op,
    rest_it_op_complete, set_state, set_T, llist_del, moved_to_expired]

theorem barrier_to_active_eq (tn : smscb_timer_numbers) (s : Sys) (code : Nat) (body : String)
    (hstate : s.cbcmsg.fi.state = SMSCB_S_WAIT_WRITE_ACK ∨
      s.cbcmsg.fi.state = SMSCB_S_WAIT_REPLACE_ACK ∨ s.cbcmsg.fi.state = SMSCB_S_WAIT_STATUS_ACK) :
    barrier_to_active tn s code body =
      { s with
        calls := s.calls ++ [ext_call.set_http_result s.cbcmsg.it_op code body,
          ext_call.complete s.cbcmsg.it_op],
        cbcmsg := { s.cbcmsg with
          it_op := none,
          fi := { s.cbcmsg.fi with
            state := SMSCB_S_ACTIVE,
            T := if s.cbcmsg.warning_period_sec ≠ 0xffffffff then tn.T_ACTIVE_EXPIRY else 0,
            timer := if s.cbcmsg.warning_period_sec ≠ 0xffffffff
              then some (c_int s.cbcmsg.warning_period_sec) else none } } } := by
  simp only [barrier_to_active]
  rw [state_chg_wait_active _ (by simpa [rest_it_op_set_http_result] using hstate)]
  simp only [rest_it_op_set_http_result, set_T, osmo_timer_schedule]
  split <;> simp

theorem dispatch_other (tn : smscb_timer_numbers) (s : Sys)
    (event : smscb_message_fsm_event) (data : Option Nat)
    (hne : event ∉ (smscb_fsm_states s.cbcmsg.fi.state).in_event_mask) :
    osmo_fsm_inst_dispatch tn s event data =
      some (if event = SMSCB_MSG_E_CHILD_DIED then 0 else -1, s) := by
  unfold osmo_fsm_inst_dispatch
  by_cases hd : event = SMSCB_MSG_E_CHILD_DIED
  · subst hd
    rw [if_pos (by decide)]
    rfl
  · rw [if_neg (by simpa [allstate_event_mask] using hd), if_neg hne, if_neg hd]

theorem state_chg_refused (s : Sys) (new_state : smscb_state) (timeout_secs : Nat) (T : Int)
    (hne : new_state ∉ (smscb_fsm_states s.cbcmsg.fi.state).out_state_mask) :
    osmo_fsm_inst_state_chg s new_state timeout_secs T = (-1, s) := by
  unfold osmo_fsm_inst_state_chg
  simp only []
  rw [if_neg hne]

theorem completions_append (l1 l2 : List ext_call) :
    completions (l1 ++ l2) = completions l1 ++ completions l2 := by
  simp [completions, List.filterMap_append]

/-- Any accepted or refused event in a wait state with handle `h`: the state is
kept, or the handle is completed once and detached. -/
theorem wait_dispatch_shape (tn : smscb_timer_numbers) (s : Sys) (h : Nat)
    (event : smscb_message_fsm_event) (data : Option Nat) (r : Int × Sys)
    (hw : is_wait_state s.cbcmsg.fi.state = true) (hop : s.cbcmsg.it_op = some h)
    (hr : osmo_fsm_inst_dispatch tn s event data = some r) :
    r.2 = s ∨
      (r.2.cbcmsg.fi.state = wait_target s.cbcmsg.fi.state ∧
        completions r.2.calls = completions s.calls ++ [some h] ∧ r.2.cbcmsg.it_op = none) := by
  cases hst : s.cbcmsg.fi.state <;> rw [hst] at hw <;> simp [is_wait_state] at hw
  · by_cases hev : event = SMSCB_MSG_E_WRITE_ACK ∨ event = SMSCB_MSG_E_WRITE_NACK
    · rw [dispatch_wait_write_ack tn s event data hst hev] at hr
      injection hr with hr
      subst hr
      split
      · exact Or.inl rfl
      · right
        simp [barrier_to_active_eq tn s 201 "Created" (Or.inl hst), hop, completions_append,
          completions, wait_target]
    · rw [dispatch_other tn s event data (by rw [hst]; simpa [smscb_fsm_states] using hev)] at hr
      injection hr with hr
      subst hr
      exact Or.inl rfl
  · by_cases hev : event = SMSCB_MSG_E_REPLACE_ACK ∨ event = SMSCB_MSG_E_REPLACE_NACK
    · rw [dispatch_wait_replace_ack tn s event data hst hev] at hr
      injection hr with hr
      subst hr
      split
      · exact Or.inl rfl
      · right
        simp [barrier_to_active_eq tn s 200 "OK" (Or.inr (Or.inl hst)), hop, completions_append,
          completions, wait_target]
    · rw [dispatch_other tn s event data (by rw [hst]; simpa [smscb_fsm_states] using hev)] at hr
      injection hr with hr
      subst hr
      exact Or.inl rfl
  · by_cases hev : event = SMSCB_MSG_E_STATUS_ACK ∨ event = SMSCB_MSG_E_STATUS_NACK
    · rw [dispatch_wait_status_ack tn s event data hst hev] at hr
      injection hr with hr
      subst hr
      split
      · exact Or.inl rfl
      · right
        simp [barrier_to_active_eq tn s 200 "OK" (Or.inr (Or.inr hst)), hop, completions_append,
          completions, wait_target]
    · rw [dispatch_other tn s event data (by rw [hst]; simpa [smscb_fsm_states] using hev)] at hr
      injection hr with hr
      subst hr
      exact Or.inl rfl
  · by_cases hev : event = SMSCB_MSG_E_DELETE_ACK ∨ event = SMSCB_MSG_E_DELETE_NACK
    · rw [dispatch_wait_delete_ack tn s event data hst hev] at hr
      injection hr with hr
      subst hr
      split
      · exact Or.inl rfl
      · right
        rw [state_chg_wait_deleted _ (by simpa [rest_it_op_set_http_result] using hst)]
        simp [rest_it_op_set_http_result, hop, completions_append, completions, wait_target]
    · rw [dispatch_other tn s event data (by rw [hst]; simpa [smscb_fsm_states] using hev)] at hr
      injection hr with hr
      subst hr
      exact Or.inl rfl


theorem wait_state_chg_shape (s : Sys) (h : Nat) (target : smscb_state)
    (hw : is_wait_state s.cbcmsg.fi.state = true) (hop : s.cbcmsg.it_op = some h)
    (ht : target = SMSCB_S_ACTIVE ∨ target = SMSCB_S_DELETED) :
    (osmo_fsm_inst_state_chg s target 0 0).2 = s ∨
      ((osmo_fsm_inst_state_chg s target 0 0).2.cbcmsg.fi.state = wait_target s.cbcmsg.fi.state ∧
        completions (osmo_fsm_inst_state_chg s target 0 0).2.calls
          = completions s.calls ++ [some h] ∧
        (osmo_fsm_inst_state_chg s target 0 0).2.cbcmsg.it_op = none) := by
  cases hst : s.cbcmsg.fi.state <;> rw [hst] at hw <;> simp [is_wait_state] at hw <;>
    rcases ht with rfl | rfl
  · right
    simp [state_chg_wait_active s (Or.inl hst), hop, completions_append, completions, wait_target]
  · left
    rw [state_chg_refused s _ _ _ (by rw [hst]; decide)]
  · right
    simp [state_chg_wait_active s (Or.inr (Or.inl hst)), hop, completions_append, completions,
      wait_target]
  · left
    rw [state_chg_refused s _ _ _ (by rw [hst]; decide)]
  · right
    simp [state_chg_wait_active s (Or.inr (Or.inr hst)), hop, completions_append, completions,
      wait_target]
  · left
    rw [state_chg_refused s _ _ _ (by rw [hst]; decide)]
  · left
    rw [state_chg_refused s _ _ _ (by rw [hst]; decide)]
  · right
    simp [state_chg_wait_deleted s hst, hop, completions_append, completions, wait_target]

/-- Expiry of the timer in a wait state with handle `h`: only the timer is
gone, or the handle is completed once and detached. -/
theorem wait_timer_shape (tn : smscb_timer_numbers) (s s1 : Sys) (h : Nat)
    (hw : is_wait_state s.cbcmsg.fi.state = true) (hop : s.cbcmsg.it_op = some h)
    (hr : fsm_tmr_cb tn s = some s1) :
    s1 = osmo_timer_del s ∨
      (s1.cbcmsg.fi.state = wait_target s.cbcmsg.fi.state ∧
        completions s1.calls = completions s.calls ++ [some h] ∧ s1.cbcmsg.it_op = none) := by
  have hw0 : is_wait_state (osmo_timer_del s).cbcmsg.fi.state = true := hw
  have hop0 : (osmo_timer_del s).cbcmsg.it_op = some h := hop
  have key := fun target ht => wait_state_chg_shape (osmo_timer_del s) h target hw0 hop0 ht
  unfold fsm_tmr_cb smscb_fsm_timer_cb at hr
  split_ifs at hr
  · injection hr with hr; subst hr; exact key _ (Or.inl rfl)
  · injection hr with hr; subst hr; exact key _ (Or.inl rfl)
  · injection hr with hr; subst hr; exact key _ (Or.inl rfl)
  · injection hr with hr; subst hr; exact key _ (Or.inr rfl)
  · cases hd : osmo_fsm_inst_dispatch tn (osmo_timer_del s) SMSCB_MSG_E_EXPIRE none with
    | none => rw [hd] at hr; cases hr
    | some r =>
      rw [hd] at hr
      injection hr with hr
      subst hr
      exact wait_dispatch_shape tn (osmo_timer_del s) h _ _ r hw0 hop0 hd


theorem fsm_tmr_cb_wait (tn : smscb_timer_numbers) (hd : tn.distinct) (s : Sys)
    (hw : is_wait_state s.cbcmsg.fi.state = true)
    (hT : s.cbcmsg.fi.T = wait_timer tn s.cbcmsg.fi.state) :
    fsm_tmr_cb tn s =
      some (osmo_fsm_inst_state_chg (osmo_timer_del s) (wait_target s.cbcmsg.fi.state) 0 0).2 := by
  have hT0 : (osmo_timer_del s).cbcmsg.fi.T = wait_timer tn s.cbcmsg.fi.state := hT
  simp only [smscb_timer_numbers.distinct, List.nodup_cons, List.mem_cons, List.mem_singleton,
    not_or, List.not_mem_nil, not_false_eq_true, List.nodup_nil, and_true] at hd
  obtain ⟨⟨h12, h13, h14, h15⟩, ⟨h23, h24, h25⟩, ⟨h34, h35⟩, h45⟩ := hd
  unfold fsm_tmr_cb smscb_fsm_timer_cb
  rw [hT0]
  cases hst : s.cbcmsg.fi.state <;> rw [hst] at hw <;> simp [is_wait_state] at hw <;>
    simp [wait_timer, wait_target, Ne.symm h12, Ne.symm h13, Ne.symm h14, Ne.symm h23,
      Ne.symm h24, Ne.symm h34]

theorem fsm_tmr_cb_active_expiry (tn : smscb_timer_numbers) (hd : tn.distinct) (s : Sys)
    (hT : s.cbcmsg.fi.T = tn.T_ACTIVE_EXPIRY) :
    fsm_tmr_cb tn s =
      (osmo_fsm_inst_dispatch tn (osmo_timer_del s) SMSCB_MSG_E_EXPIRE none).map (fun r => r.2) := by
  have hT0 : (osmo_timer_del s).cbcmsg.fi.T = tn.T_ACTIVE_EXPIRY := hT
  simp only [smscb_timer_numbers.distinct, List.nodup_cons, List.mem_cons, List.mem_singleton,
    not_or, List.not_mem_nil, not_false_eq_true, List.nodup_nil, and_true] at hd
  obtain ⟨⟨h12, h13, h14, h15⟩, ⟨h23, h24, h25⟩, ⟨h34, h35⟩, h45⟩ := hd
  unfold fsm_tmr_cb smscb_fsm_timer_cb
  rw [hT0]
  simp [Ne.symm h15, Ne.symm h25, Ne.symm h35, Ne.symm h45]

/-- EXPIRE in state ACTIVE, with any data. -/
theorem dispatch_active_expire (tn : smscb_timer_numbers) (s : Sys) (data : Option Nat)
    (hstate : s.cbcmsg.fi.state = SMSCB_S_ACTIVE) :
    osmo_fsm_inst_dispatch tn s SMSCB_MSG_E_EXPIRE data =
      some (0, { s with
        g_cbc := moved_to_expired s.g_cbc s.ptr,
        calls := if s.cbcmsg.it_op.isSome then s.calls ++ [ext_call.complete s.cbcmsg.it_op]
          else s.calls,
        cbcmsg := { s.cbcmsg with
          it_op := none,
          fi := { s.cbcmsg.fi with state := SMSCB_S_EXPIRED, T := 0, timer := none } } }) := by
  unfold osmo_fsm_inst_dispatch
  rw [hstate, if_neg (by decide), if_pos (by decide)]
  cases hop : s.cbcmsg.it_op <;>
  simp [smscb_fsm_action, smscb_fsm_active, osmo_fsm_inst_state_chg, hstate, hop, smscb_fsm_states,
    osmo_timer_del, smscb_fsm_expired_onenter, set_it_op, rest_it_op_complete, set_state, set_T,
    llist_del, moved_to_expired]


/-! ## The barriers -/

/-- C1 (write barrier). In WAIT_WRITE_ACK with a handle attached, WRITE_ACK or
WRITE_NACK is accepted; the message moves to ACTIVE exactly when every child is
in state ACTIVE; when it moves the handle gets set_result(201, "Created") and
then complete(), and is detached; when some child is not ACTIVE nothing at all
changes. -/
theorem write_barrier (tn : smscb_timer_numbers) (s : Sys) (h : Nat)
    (event : smscb_message_fsm_event) (data : Option Nat)
    (hstate : s.cbcmsg.fi.state = SMSCB_S_WAIT_WRITE_ACK)
    (hop : s.cbcmsg.it_op = some h)
    (hev : event = SMSCB_MSG_E_WRITE_ACK ∨ event = SMSCB_MSG_E_WRITE_NACK) :
    ∃ s1, osmo_fsm_inst_dispatch tn s event data = some (0, s1) ∧
      (s1.cbcmsg.fi.state = SMSCB_S_ACTIVE ↔
        ∀ c ∈ s.cbcmsg.fi.children, c.state = SMSCB_S_ACTIVE) ∧
      ((∀ c ∈ s.cbcmsg.fi.children, c.state = SMSCB_S_ACTIVE) →
        s1.cbcmsg.it_op = none ∧
        s1.calls = s.calls ++ [ext_call.set_http_result (some h) 201 "Created",
          ext_call.complete (some h)]) ∧
      ((∃ c ∈ s.cbcmsg.fi.children, c.state ≠ SMSCB_S_ACTIVE) → s1 = s) := by
  refine ⟨_, dispatch_wait_write_ack tn s event data hstate hev, ?_⟩
  by_cases hb : s.cbcmsg.fi.children.any (fun peer_fi => decide (peer_fi.state ≠ SMSCB_S_ACTIVE))
      = true
  · have hex : ∃ c ∈ s.cbcmsg.fi.children, c.state ≠ SMSCB_S_ACTIVE := by
      simpa using hb
    have hnall : ¬ ∀ c ∈ s.cbcmsg.fi.children, c.state = SMSCB_S_ACTIVE := by
      rintro hall
      obtain ⟨c, hc, hne⟩ := hex
      exact hne (hall c hc)
    rw [if_pos hb]
    refine ⟨?_, fun hall => absurd hall hnall, fun _ => rfl⟩
    rw [hstate]
    exact ⟨fun hcontra => absurd hcontra (by decide), fun hall => absurd hall hnall⟩
  · have hall : ∀ c ∈ s.cbcmsg.fi.children, c.state = SMSCB_S_ACTIVE := by
      simpa using hb
    rw [if_neg hb, barrier_to_active_eq tn s 201 "Created" (Or.inl hstate), hop]
    refine ⟨⟨fun _ => hall, fun _ => rfl⟩, fun _ => ⟨rfl, rfl⟩, ?_⟩
    rintro ⟨c, hc, hne⟩
    exact absurd (hall c hc) hne

/-- The witness of C1: two children, both ACTIVE, WRITE_ACK moves to ACTIVE. -/
theorem write_barrier_witness :
    (osmo_fsm_inst_dispatch sample_tn
      (sample_sys SMSCB_S_WAIT_WRITE_ACK 1 (some 15) (some 7)
        [⟨1, SMSCB_S_ACTIVE⟩, ⟨2, SMSCB_S_ACTIVE⟩]) SMSCB_MSG_E_WRITE_ACK none).map
      (fun r => (r.2.cbcmsg.fi.state, r.2.cbcmsg.it_op, r.2.calls)) =
      some (SMSCB_S_ACTIVE, none,
        [ext_call.set_http_result (some 7) 201 "Created", ext_call.complete (some 7)]) := by
  obtain ⟨s1, h1, h2, h3, _⟩ := write_barrier sample_tn
    (sample_sys SMSCB_S_WAIT_WRITE_ACK 1 (some 15) (some 7)
      [⟨1, SMSCB_S_ACTIVE⟩, ⟨2, SMSCB_S_ACTIVE⟩]) 7 SMSCB_MSG_E_WRITE_ACK none rfl rfl (Or.inl rfl)
  have hall : ∀ c ∈ (sample_sys SMSCB_S_WAIT_WRITE_ACK 1 (some 15) (some 7)
      [⟨1, SMSCB_S_ACTIVE⟩, ⟨2, SMSCB_S_ACTIVE⟩]).cbcmsg.fi.children,
      c.state = SMSCB_S_ACTIVE := by decide
  rw [h1]
  simp [h2.2 hall, (h3 hall).1, (h3 hall).2, sample_sys]

/-- C2 (delete barrier). In WAIT_DELETE_ACK with a handle attached, DELETE_ACK
or DELETE_NACK is accepted; the message moves to DELETED exactly when every
child is in state DELETED; when it moves the handle gets set_result(200, "OK")
and then complete(), and is detached; when some child is not DELETED nothing at
all changes (state, handle, timer, both lists, trace). -/
theorem delete_barrier (tn : smscb_timer_numbers) (s : Sys) (h : Nat)
    (event : smscb_message_fsm_event) (data : Option Nat)
    (hstate : s.cbcmsg.fi.state = SMSCB_S_WAIT_DELETE_ACK)
    (hop : s.cbcmsg.it_op = some h)
    (hev : event = SMSCB_MSG_E_DELETE_ACK ∨ event = SMSCB_MSG_E_DELETE_NACK) :
    ∃ s1, osmo_fsm_inst_dispatch tn s event data = some (0, s1) ∧
      (s1.cbcmsg.fi.state = SMSCB_S_DELETED ↔
        ∀ c ∈ s.cbcmsg.fi.children, c.state = SMSCB_S_DELETED) ∧
      ((∀ c ∈ s.cbcmsg.fi.children, c.state = SMSCB_S_DELETED) →
        s1.cbcmsg.it_op = none ∧
        s1.calls = s.calls ++ [ext_call.set_http_result (some h) 200 "OK",
          ext_call.complete (some h)]) ∧
      ((∃ c ∈ s.cbcmsg.fi.children, c.state ≠ SMSCB_S_DELETED) → s1 = s) := by
  refine ⟨_, dispatch_wait_delete_ack tn s event data hstate hev, ?_⟩
  by_cases hb : s.cbcmsg.fi.children.any (fun peer_fi => decide (peer_fi.state ≠ SMSCB_S_DELETED))
      = true
  · have hex : ∃ c ∈ s.cbcmsg.fi.children, c.state ≠ SMSCB_S_DELETED := by
      simpa using hb
    have hnall : ¬ ∀ c ∈ s.cbcmsg.fi.children, c.state = SMSCB_S_DELETED := by
      rintro hall
      obtain ⟨c, hc, hne⟩ := hex
      exact hne (hall c hc)
    rw [if_pos hb]
    refine ⟨?_, fun hall => absurd hall hnall, fun _ => rfl⟩
    rw [hstate]
    exact ⟨fun hcontra => absurd hcontra (by decide), fun hall => absurd hall hnall⟩
  · have hall : ∀ c ∈ s.cbcmsg.fi.children, c.state = SMSCB_S_DELETED := by
      simpa using hb
    rw [if_neg hb,
      state_chg_wait_deleted _ (by simpa [rest_it_op_set_http_result] using hstate)]
    refine ⟨⟨fun _ => hall, fun _ => rfl⟩, fun _ => ⟨rfl, ?_⟩, ?_⟩
    · simp [rest_it_op_set_http_result, hop]
    · rintro ⟨c, hc, hne⟩
      exact absurd (hall c hc) hne

/-- The witness of C2: one child still ACTIVE, DELETE_NACK changes nothing. -/
theorem delete_barrier_witness :
    osmo_fsm_inst_dispatch sample_tn
      (sample_sys SMSCB_S_WAIT_DELETE_ACK 4 (some 15) (some 7)
        [⟨1, SMSCB_S_DELETED⟩, ⟨2, SMSCB_S_ACTIVE⟩]) SMSCB_MSG_E_DELETE_NACK none =
      some (0, sample_sys SMSCB_S_WAIT_DELETE_ACK 4 (some 15) (some 7)
        [⟨1, SMSCB_S_DELETED⟩, ⟨2, SMSCB_S_ACTIVE⟩]) := by
  obtain ⟨s1, h1, _, _, h4⟩ := delete_barrier sample_tn
    (sample_sys SMSCB_S_WAIT_DELETE_ACK 4 (some 15) (some 7)
      [⟨1, SMSCB_S_DELETED⟩, ⟨2, SMSCB_S_ACTIVE⟩]) 7 SMSCB_MSG_E_DELETE_NACK none rfl rfl
    (Or.inr rfl)
  rw [h1, h4 ⟨⟨2, SMSCB_S_ACTIVE⟩, by decide, by decide⟩]

/-- Expiry of the matching timer in a wait state, spelled out. -/
theorem fsm_tmr_cb_wait_eq (tn : smscb_timer_numbers) (hd : tn.distinct) (s : Sys)
    (hw : is_wait_state s.cbcmsg.fi.state = true)
    (hT : s.cbcmsg.fi.T = wait_timer tn s.cbcmsg.fi.state) :
    fsm_tmr_cb tn s = some
      (if s.cbcmsg.fi.state = SMSCB_S_WAIT_DELETE_ACK then
        { s with
          g_cbc := moved_to_expired s.g_cbc s.ptr,
          calls := if s.cbcmsg.it_op.isSome then s.calls ++ [ext_call.complete s.cbcmsg.it_op]
            else s.calls,
          cbcmsg := { s.cbcmsg with
            it_op := none,
            time_expired := s.time_now,
            fi := { s.cbcmsg.fi with state := SMSCB_S_DELETED, T := 0, timer := none } } }
      else
        { s with
          calls := s.calls ++ [ext_call.complete s.cbcmsg.it_op],
          cbcmsg := { s.cbcmsg with
            it_op := none,
            fi := { s.cbcmsg.fi with state := SMSCB_S_ACTIVE, T := 0, timer := none } } }) := by
  rw [fsm_tmr_cb_wait tn hd s hw hT]
  cases hst : s.cbcmsg.fi.state <;> rw [hst] at hw <;> simp [is_wait_state] at hw
  · have h0 : (osmo_timer_del s).cbcmsg.fi.state = SMSCB_S_WAIT_WRITE_ACK := hst
    simp only [wait_target]
    rw [state_chg_wait_active _ (Or.inl h0)]
    simp [osmo_timer_del]
  · have h0 : (osmo_timer_del s).cbcmsg.fi.state = SMSCB_S_WAIT_REPLACE_ACK := hst
    simp only [wait_target]
    rw [state_chg_wait_active _ (Or.inr (Or.inl h0))]
    simp [osmo_timer_del]
  · have h0 : (osmo_timer_del s).cbcmsg.fi.state = SMSCB_S_WAIT_STATUS_ACK := hst
    simp only [wait_target]
    rw [state_chg_wait_active _ (Or.inr (Or.inr h0))]
    simp [osmo_timer_del]
  · have h0 : (osmo_timer_del s).cbcmsg.fi.state = SMSCB_S_WAIT_DELETE_ACK := hst
    simp only [wait_target]
    rw [state_chg_wait_deleted _ h0]
    simp [osmo_timer_del]

/-- An ACK or NACK in a wait state whose scan finds nothing to wait for, spelled out. -/
theorem dispatch_barrier_open_eq (tn : smscb_timer_numbers) (s : Sys)
    (event : smscb_message_fsm_event) (data : Option Nat)
    (hw : is_wait_state s.cbcmsg.fi.state = true)
    (hb : barrier_defers s = false)
    (hev : event ∈ (smscb_fsm_states s.cbcmsg.fi.state).in_event_mask) :
    osmo_fsm_inst_dispatch tn s event data = some (0,
      if s.cbcmsg.fi.state = SMSCB_S_WAIT_DELETE_ACK then
        { s with
          g_cbc := moved_to_expired s.g_cbc s.ptr,
          calls := s.calls ++ [ext_call.set_http_result s.cbcmsg.it_op 200 "OK"] ++
            (if s.cbcmsg.it_op.isSome then [ext_call.complete s.cbcmsg.it_op] else []),
          cbcmsg := { s.cbcmsg with
            it_op := none,
            time_expired := s.time_now,
            fi := { s.cbcmsg.fi with state := SMSCB_S_DELETED, T := 0, timer := none } } }
      else
        { s with
          calls := s.calls ++ [ext_call.set_http_result s.cbcmsg.it_op
              (if s.cbcmsg.fi.state = SMSCB_S_WAIT_WRITE_ACK then 201 else 200)
              (if s.cbcmsg.fi.state = SMSCB_S_WAIT_WRITE_ACK then "Created" else "OK"),
            ext_call.complete s.cbcmsg.it_op],
          cbcmsg := { s.cbcmsg with
            it_op := none,
            fi := { s.cbcmsg.fi with
              state := SMSCB_S_ACTIVE,
              T := if s.cbcmsg.warning_period_sec ≠ 0xffffffff then tn.T_ACTIVE_EXPIRY else 0,
              timer := if s.cbcmsg.warning_period_sec ≠ 0xffffffff
                then some (c_int s.cbcmsg.warning_period_sec) else none } } }) := by
  cases hst : s.cbcmsg.fi.state <;> rw [hst] at hw <;> simp [is_wait_state] at hw <;>
    rw [hst] at hev <;> simp only [barrier_defers, hst] at hb
  · rw [dispatch_wait_write_ack tn s event data hst (by simpa [smscb_fsm_states] using hev),
      if_neg (by rw [hb]; decide), barrier_to_active_eq tn s _ _ (Or.inl hst)]
    simp
  · rw [dispatch_wait_replace_ack tn s event data hst (by simpa [smscb_fsm_states] using hev),
      if_neg (by rw [hb]; decide), barrier_to_active_eq tn s _ _ (Or.inr (Or.inl hst))]
    simp
  · rw [dispatch_wait_status_ack tn s event data hst (by simpa [smscb_fsm_states] using hev),
      if_neg (by rw [hb]; decide), barrier_to_active_eq tn s _ _ (Or.inr (Or.inr hst))]
    simp
  · rw [dispatch_wait_delete_ack tn s event data hst (by simpa [smscb_fsm_states] using hev),
      if_neg (by rw [hb]; decide),
      state_chg_wait_deleted _ (by simpa [rest_it_op_set_http_result] using hst)]
    cases hop : s.cbcmsg.it_op <;> simp [rest_it_op_set_http_result, hop]

theorem wait_target_ne (st : smscb_state) (hw : is_wait_state st = true) :
    wait_target st ≠ st := by
  cases st <;> simp [is_wait_state] at hw <;> simp [wait_target]

/-- C3 (exactly-once completion). In a wait state with handle `h` attached:
whatever step changes the state (any dispatched event, or expiry of the
timer) adds exactly one complete() call, on `h`, and leaves no handle
attached; the matching timer does leave the state; and so does the state's ACK
or NACK once the scan of the children finds nothing to wait for. This covers
WAIT_DELETE_ACK to DELETED, where the on-leave and on-enter hooks run one after
the other. -/
theorem exactly_once_completion (tn : smscb_timer_numbers) (s : Sys) (h : Nat)
    (hw : is_wait_state s.cbcmsg.fi.state = true) (hop : s.cbcmsg.it_op = some h) :
    (∀ s1, ((∃ event data rc, osmo_fsm_inst_dispatch tn s event data = some (rc, s1)) ∨
          fsm_tmr_cb tn s = some s1) →
        s1.cbcmsg.fi.state ≠ s.cbcmsg.fi.state →
        completions s1.calls = completions s.calls ++ [some h] ∧ s1.cbcmsg.it_op = none) ∧
    (tn.distinct → s.cbcmsg.fi.T = wait_timer tn s.cbcmsg.fi.state →
        ∃ s1, fsm_tmr_cb tn s = some s1 ∧ s1.cbcmsg.fi.state ≠ s.cbcmsg.fi.state) ∧
    (barrier_defers s = false →
        ∀ event ∈ (smscb_fsm_states s.cbcmsg.fi.state).in_event_mask, ∀ data,
          ∃ s1, osmo_fsm_inst_dispatch tn s event data = some (0, s1) ∧
            s1.cbcmsg.fi.state ≠ s.cbcmsg.fi.state) := by
  refine ⟨?_, ?_, ?_⟩
  · rintro s1 (⟨event, data, rc, hr⟩ | hr) hne
    · rcases wait_dispatch_shape tn s h event data (rc, s1) hw hop hr with hsame | hleft
      · exact absurd (by rw [show s1 = s from hsame]) hne
      · exact hleft.2
    · rcases wait_timer_shape tn s s1 h hw hop hr with hsame | hleft
      · exact absurd (by rw [hsame]; rfl) hne
      · exact hleft.2
  · intro hd hT
    refine ⟨_, fsm_tmr_cb_wait_eq tn hd s hw hT, ?_⟩
    have hne := wait_target_ne _ hw
    cases hst : s.cbcmsg.fi.state <;> rw [hst] at hw <;> simp [is_wait_state] at hw <;> simp
  · intro hb event hev data
    refine ⟨_, dispatch_barrier_open_eq tn s event data hw hb hev, ?_⟩
    cases hst : s.cbcmsg.fi.state <;> rw [hst] at hw <;> simp [is_wait_state] at hw <;> simp

/-- The witness of C3: DELETE_ACK with every child DELETED leaves
WAIT_DELETE_ACK for DELETED and completes handle 7 once. -/
theorem exactly_once_completion_witness :
    (osmo_fsm_inst_dispatch sample_tn
      (sample_sys SMSCB_S_WAIT_DELETE_ACK 4 (some 15) (some 7) [⟨1, SMSCB_S_DELETED⟩])
      SMSCB_MSG_E_DELETE_ACK none).map
        (fun r => (r.2.cbcmsg.fi.state, completions r.2.calls, r.2.cbcmsg.it_op)) =
      some (SMSCB_S_DELETED, [some 7], none) ∧
    (fsm_tmr_cb sample_tn
      (sample_sys SMSCB_S_WAIT_DELETE_ACK 4 (some 15) (some 7) [⟨1, SMSCB_S_ACTIVE⟩])).map
        (fun s1 => (s1.cbcmsg.fi.state, completions s1.calls, s1.cbcmsg.it_op)) =
      some (SMSCB_S_DELETED, [some 7], none) := by
  have key := exactly_once_completion sample_tn
    (sample_sys SMSCB_S_WAIT_DELETE_ACK 4 (some 15) (some 7) [⟨1, SMSCB_S_DELETED⟩]) 7 rfl rfl
  have key2 := exactly_once_completion sample_tn
    (sample_sys SMSCB_S_WAIT_DELETE_ACK 4 (some 15) (some 7) [⟨1, SMSCB_S_ACTIVE⟩]) 7 rfl rfl
  constructor
  · have h1 : osmo_fsm_inst_dispatch sample_tn
        (sample_sys SMSCB_S_WAIT_DELETE_ACK 4 (some 15) (some 7) [⟨1, SMSCB_S_DELETED⟩])
        SMSCB_MSG_E_DELETE_ACK none = some (0,
          (osmo_fsm_inst_state_chg (rest_it_op_set_http_result
            (sample_sys SMSCB_S_WAIT_DELETE_ACK 4 (some 15) (some 7) [⟨1, SMSCB_S_DELETED⟩])
            (some 7) 200 "OK") SMSCB_S_DELETED 0 0).2) := by decide
    have h2 := key.1 _ (Or.inl ⟨_, _, _, h1⟩) (by decide)
    rw [h1]
    simp only [Option.map_some', h2.1, h2.2]
    decide
  · have h1 : fsm_tmr_cb sample_tn
        (sample_sys SMSCB_S_WAIT_DELETE_ACK 4 (some 15) (some 7) [⟨1, SMSCB_S_ACTIVE⟩]) = some
          (osmo_fsm_inst_state_chg (osmo_timer_del
            (sample_sys SMSCB_S_WAIT_DELETE_ACK 4 (some 15) (some 7) [⟨1, SMSCB_S_ACTIVE⟩]))
            SMSCB_S_DELETED 0 0).2 := by decide
    have h2 := key2.1 _ (Or.inr h1) (by decide)
    rw [h1]
    simp only [Option.map_some', h2.1, h2.2]
    decide

/-! ## Timer expiry -/

/-- C4 (timer expiry forces progress). With pairwise different timer numbers:
when the timer of a wait state fires, the message moves to ACTIVE (from
WAIT_WRITE_ACK, WAIT_REPLACE_ACK, WAIT_STATUS_ACK) or to DELETED (from
WAIT_DELETE_ACK), and the outcome does not depend on the children: with any
other list of children the same thing happens. When the active expiry timer
fires in ACTIVE the outcome is the one of dispatching EXPIRE (with any data):
state EXPIRED, the message unlinked from the live list and linked at the tail
of the expired list. -/
theorem timer_expiry_forces_progress (tn : smscb_timer_numbers) (hd : tn.distinct) (s : Sys) :
    (is_wait_state s.cbcmsg.fi.state = true →
      s.cbcmsg.fi.T = wait_timer tn s.cbcmsg.fi.state →
      (∃ s1, fsm_tmr_cb tn s = some s1 ∧
        s1.cbcmsg.fi.state =
          (if s.cbcmsg.fi.state = SMSCB_S_WAIT_DELETE_ACK then SMSCB_S_DELETED
            else SMSCB_S_ACTIVE)) ∧
      (∀ children, fsm_tmr_cb tn (with_children s children) =
        (fsm_tmr_cb tn s).map (fun s1 => with_children s1 children))) ∧
    (s.cbcmsg.fi.state = SMSCB_S_ACTIVE → s.cbcmsg.fi.T = tn.T_ACTIVE_EXPIRY →
      ∃ s1, fsm_tmr_cb tn s = some s1 ∧
        (∀ data, osmo_fsm_inst_dispatch tn s SMSCB_MSG_E_EXPIRE data = some (0, s1)) ∧
        s1.cbcmsg.fi.state = SMSCB_S_EXPIRED ∧
        s1.g_cbc.messages = s.g_cbc.messages.filter (fun q => decide (q ≠ s.ptr)) ∧
        s1.g_cbc.expired_messages =
          s.g_cbc.expired_messages.filter (fun q => decide (q ≠ s.ptr)) ++ [s.ptr]) := by
  constructor
  · intro hw hT
    constructor
    · refine ⟨_, fsm_tmr_cb_wait_eq tn hd s hw hT, ?_⟩
      split <;> rfl
    · intro children
      rw [fsm_tmr_cb_wait_eq tn hd s hw hT,
        fsm_tmr_cb_wait_eq tn hd (with_children s children) hw hT]
      simp only [Option.map_some', with_children]
      split <;> rfl
  · intro hstate hT
    have h0 : (osmo_timer_del s).cbcmsg.fi.state = SMSCB_S_ACTIVE := hstate
    refine ⟨{ s with
        g_cbc := moved_to_expired s.g_cbc s.ptr,
        calls := if s.cbcmsg.it_op.isSome then s.calls ++ [ext_call.complete s.cbcmsg.it_op]
          else s.calls,
        cbcmsg := { s.cbcmsg with
          it_op := none,
          fi := { s.cbcmsg.fi with state := SMSCB_S_EXPIRED, T := 0, timer := none } } },
      ?_, ?_, rfl, rfl, rfl⟩
    · rw [fsm_tmr_cb_active_expiry tn hd s hT, dispatch_active_expire tn _ none h0]
      simp [osmo_timer_del]
    · intro data
      rw [dispatch_active_expire tn s data hstate]

/-- The witness of C4: the delete timer fires while the only child is still
ACTIVE; the active expiry timer fires in ACTIVE. -/
theorem timer_expiry_forces_progress_witness :
    (fsm_tmr_cb sample_tn
      (sample_sys SMSCB_S_WAIT_DELETE_ACK 4 (some 15) (some 7) [⟨1, SMSCB_S_ACTIVE⟩])).map
        (fun s1 => s1.cbcmsg.fi.state) = some SMSCB_S_DELETED ∧
    (fsm_tmr_cb sample_tn (sample_sys SMSCB_S_ACTIVE 5 (some 30) none [⟨1, SMSCB_S_ACTIVE⟩])).map
        (fun s1 => (s1.cbcmsg.fi.state, s1.g_cbc)) =
      some (SMSCB_S_EXPIRED, { messages := [], expired_messages := [0] }) := by
  have key1 := (timer_expiry_forces_progress sample_tn (by decide)
    (sample_sys SMSCB_S_WAIT_DELETE_ACK 4 (some 15) (some 7) [⟨1, SMSCB_S_ACTIVE⟩])).1 rfl rfl
  have key2 := (timer_expiry_forces_progress sample_tn (by decide)
    (sample_sys SMSCB_S_ACTIVE 5 (some 30) none [⟨1, SMSCB_S_ACTIVE⟩])).2 rfl rfl
  obtain ⟨⟨s1, h1, h2⟩, _⟩ := key1
  obtain ⟨s2, h3, _, h4, h5, h6⟩ := key2
  constructor
  · rw [h1]
    simpa using h2
  · rw [h3]
    have hg : s2.g_cbc = { messages := [], expired_messages := [0] } := by
      cases hgc : s2.g_cbc with
      | mk ms es =>
        rw [hgc] at h5 h6
        simp only at h5 h6
        rw [h5, h6]
        decide
    simp [h4, hg]

/-- C5, as stated, fails: in WAIT_WRITE_ACK with handle 7, the only child
ACTIVE and a warning period of 30 s, expiry of the 15 s timer sets no result
on the handle and leaves no timer pending, while WRITE_ACK sets (201,
"Created") and arms the active expiry timer for 30 s. -/
theorem timeout_equals_ack_counterexample :
    fsm_tmr_cb sample_tn
        (sample_sys SMSCB_S_WAIT_WRITE_ACK 1 (some 15) (some 7) [⟨1, SMSCB_S_ACTIVE⟩]) ≠
      (osmo_fsm_inst_dispatch sample_tn
        (sample_sys SMSCB_S_WAIT_WRITE_ACK 1 (some 15) (some 7) [⟨1, SMSCB_S_ACTIVE⟩])
        SMSCB_MSG_E_WRITE_ACK none).map (fun r => r.2) ∧
    (fsm_tmr_cb sample_tn
        (sample_sys SMSCB_S_WAIT_WRITE_ACK 1 (some 15) (some 7) [⟨1, SMSCB_S_ACTIVE⟩])).map
      (fun s1 => (s1.cbcmsg.fi.state, results s1.calls, s1.cbcmsg.fi.timer)) =
      some (SMSCB_S_ACTIVE, [], none) ∧
    (osmo_fsm_inst_dispatch sample_tn
        (sample_sys SMSCB_S_WAIT_WRITE_ACK 1 (some 15) (some 7) [⟨1, SMSCB_S_ACTIVE⟩])
        SMSCB_MSG_E_WRITE_ACK none).map
      (fun r => (r.2.cbcmsg.fi.state, results r.2.calls, r.2.cbcmsg.fi.timer)) =
      some (SMSCB_S_ACTIVE, [(some 7, 201, "Created")], some 30) := by
  refine ⟨by decide, rfl, rfl⟩

/-- C5, amended. With pairwise different timer numbers, in a wait state with
handle `h` attached whose scan of the children finds nothing to wait for:
expiry of the state's timer and the state's ACK (or NACK) both succeed, reach
the same next state, detach the handle and complete it exactly once, and leave
the same process state apart from the trace and the timer; the ACK branch
sets its result on the handle before completing it, expiry sets none. -/
theorem timeout_versus_ack (tn : smscb_timer_numbers) (hd : tn.distinct) (s : Sys) (h : Nat)
    (event : smscb_message_fsm_event) (data : Option Nat)
    (hw : is_wait_state s.cbcmsg.fi.state = true) (hop : s.cbcmsg.it_op = some h)
    (hT : s.cbcmsg.fi.T = wait_timer tn s.cbcmsg.fi.state)
    (hb : barrier_defers s = false)
    (hev : event ∈ (smscb_fsm_states s.cbcmsg.fi.state).in_event_mask) :
    ∃ s_timeout s_ack,
      fsm_tmr_cb tn s = some s_timeout ∧
      osmo_fsm_inst_dispatch tn s event data = some (0, s_ack) ∧
      s_timeout.cbcmsg.fi.state = wait_target s.cbcmsg.fi.state ∧
      s_ack.cbcmsg.fi.state = wait_target s.cbcmsg.fi.state ∧
      s_timeout.cbcmsg.it_op = none ∧ s_ack.cbcmsg.it_op = none ∧
      s_timeout.calls = s.calls ++ [ext_call.complete (some h)] ∧
      s_ack.calls = s.calls ++
        [ext_call.set_http_result (some h) (ack_result s.cbcmsg.fi.state).1
          (ack_result s.cbcmsg.fi.state).2, ext_call.complete (some h)] ∧
      erase_calls_timer s_timeout = erase_calls_timer s_ack := by
  refine ⟨_, _, fsm_tmr_cb_wait_eq tn hd s hw hT,
    dispatch_barrier_open_eq tn s event data hw hb hev, ?_⟩
  cases hst : s.cbcmsg.fi.state <;> rw [hst] at hw <;> simp [is_wait_state] at hw <;>
    simp [wait_target, ack_result, hop, erase_calls_timer]

/-- The witness of C5 amended: WAIT_REPLACE_ACK, handle 7, the only child back in ACTIVE. -/
theorem timeout_versus_ack_witness :
    ∃ s_timeout s_ack,
      fsm_tmr_cb sample_tn
        (sample_sys SMSCB_S_WAIT_REPLACE_ACK 2 (some 15) (some 7) [⟨1, SMSCB_S_ACTIVE⟩])
        = some s_timeout ∧
      osmo_fsm_inst_dispatch sample_tn
        (sample_sys SMSCB_S_WAIT_REPLACE_ACK 2 (some 15) (some 7) [⟨1, SMSCB_S_ACTIVE⟩])
        SMSCB_MSG_E_REPLACE_NACK none = some (0, s_ack) ∧
      s_timeout.calls = [ext_call.complete (some 7)] ∧
      s_ack.calls = [ext_call.set_http_result (some 7) 200 "OK", ext_call.complete (some 7)] ∧
      erase_calls_timer s_timeout = erase_calls_timer s_ack := by
  obtain ⟨s_timeout, s_ack, h1, h2, _, _, _, _, h7, h8, h9⟩ :=
    timeout_versus_ack sample_tn (by decide)
      (sample_sys SMSCB_S_WAIT_REPLACE_ACK 2 (some 15) (some 7) [⟨1, SMSCB_S_ACTIVE⟩]) 7
      SMSCB_MSG_E_REPLACE_NACK none rfl rfl rfl (by decide) (by decide)
  exact ⟨s_timeout, s_ack, h1, h2, h7, h8, h9⟩

/-! ## Allocation -/

theorem cbc_message_by_id_isSome (w : World) (message_id : Nat) :
    (cbc_message_by_id w message_id).isSome = true ↔
      ∃ q ∈ w.g_cbc.messages, ∃ m, w.msg q = some m ∧ m.message_id = message_id := by
  unfold cbc_message_by_id
  rw [List.find?_isSome]
  constructor
  · rintro ⟨q, hq, hp⟩
    cases hm : w.msg q with
    | none => simp [hm] at hp
    | some m =>
      simp [hm] at hp
      exact ⟨q, hq, m, hm, hp⟩
  · rintro ⟨q, hq, m, hm, hid⟩
    exact ⟨q, hq, by simp [hm, hid]⟩

theorem World.msg_append_lt (w : World) (x : Option cbc_message) (q : Nat)
    (hq : q ≠ w.heap.length) :
    (match (w.heap ++ [x])[q]? with
      | some (some m) => some m
      | _ => none) = w.msg q := by
  unfold World.msg
  rcases Nat.lt_or_gt_of_ne hq with hlt | hgt
  · rw [List.getElem?_append_left hlt]
  · rw [List.getElem?_eq_none (by simp; omega), List.getElem?_eq_none (by omega)]

/-- C6 (cbc_message_alloc rejects duplicates). If some message on the live
list has the identifier of `orig_msg`, the call returns NULL and the process
state (objects, both lists, trace) is unchanged. If none has, and both
allocations succeed, a new message object comes into being at a fresh
address: state INIT, no handle, no peers, no children, no pending timer, the
identifier and warning period of `orig_msg`; it is linked at the tail of the
live list, the expired list is unchanged, and every other object is
unchanged. -/
theorem cbc_message_alloc_rejects_duplicates (w : World) (orig_msg : cbc_message)
    (fi_mem smscb_mem : Bool) :
    ((∃ q ∈ w.g_cbc.messages, ∃ m, w.msg q = some m ∧ m.message_id = orig_msg.message_id) →
      cbc_message_alloc w orig_msg fi_mem smscb_mem = some (none, w)) ∧
    ((∀ q ∈ w.g_cbc.messages, ∀ m, w.msg q = some m → m.message_id ≠ orig_msg.message_id) →
      fi_mem = true → smscb_mem = true →
      ∃ w1 m, cbc_message_alloc w orig_msg fi_mem smscb_mem = some (some w.heap.length, w1) ∧
        w.msg w.heap.length = none ∧
        w1.msg w.heap.length = some m ∧
        m.fi.state = SMSCB_S_INIT ∧ m.it_op = none ∧ m.peers = [] ∧ m.fi.children = [] ∧
        m.fi.timer = none ∧
        m.message_id = orig_msg.message_id ∧
        m.warning_period_sec = orig_msg.warning_period_sec ∧
        w1.g_cbc.messages = w.g_cbc.messages ++ [w.heap.length] ∧
        w1.g_cbc.expired_messages = w.g_cbc.expired_messages ∧
        w1.heap = w.heap ++ [some m] ∧
        (∀ q, q ≠ w.heap.length → w1.msg q = w.msg q)) := by
  constructor
  · intro hdup
    have hsome := (cbc_message_by_id_isSome w orig_msg.message_id).2 hdup
    unfold cbc_message_alloc
    rw [if_pos hsome]
  · intro hnew hfi hsmscb
    have hnone : ¬ (cbc_message_by_id w orig_msg.message_id).isSome = true := by
      rw [cbc_message_by_id_isSome]
      rintro ⟨q, hq, m, hm, hid⟩
      exact hnew q hq m hm hid
    subst hfi hsmscb
    unfold cbc_message_alloc
    rw [if_neg hnone]
    refine ⟨_, { orig_msg with
        peers := [],
        fi := { state := SMSCB_S_INIT, T := 0, timer := none, children := [] },
        it_op := none,
        time_created := w.time_now },
      rfl, ?_, ?_, rfl, rfl, rfl, rfl, rfl, rfl, rfl, rfl, rfl, rfl, ?_⟩
    · simp [World.msg]
    · simp [World.msg]
    · intro q hq
      exact World.msg_append_lt w _ q hq

/-- The witness of C6: with message 42 live, a second 42 is refused, and 43
is created at address 1. -/
theorem cbc_message_alloc_rejects_duplicates_witness :
    cbc_message_alloc (sample_world SMSCB_S_ACTIVE) (sample_orig 42) true true =
      some (none, sample_world SMSCB_S_ACTIVE) ∧
    (cbc_message_alloc (sample_world SMSCB_S_ACTIVE) (sample_orig 43) true true).map
      (fun r => (r.1, r.2.g_cbc)) =
      some (some 1, { messages := [0, 1], expired_messages := [] }) := by
  constructor
  · exact (cbc_message_alloc_rejects_duplicates (sample_world SMSCB_S_ACTIVE) (sample_orig 42)
      true true).1 ⟨0, by decide, _, rfl, rfl⟩
  · obtain ⟨w1, m, h1, _, _, _, _, _, _, _, _, _, h2, h3, _⟩ :=
      (cbc_message_alloc_rejects_duplicates (sample_world SMSCB_S_ACTIVE) (sample_orig 43)
        true true).2 (by decide) rfl rfl
    rw [h1]
    cases hg : w1.g_cbc with
    | mk ms es =>
      rw [hg] at h2 h3
      simp only at h2 h3
      simp only [Option.map_some', hg, h2, h3]
      rfl

/-! ## Requests -/

/-- A request that passes the assertion: handle attached, state changed with a
15 s timer, event broadcast to the children. -/
theorem dispatch_request (tn : smscb_timer_numbers) (s : Sys) (data : Option Nat)
    (hop : s.cbcmsg.it_op = none) :
    (s.cbcmsg.fi.state = SMSCB_S_INIT →
      osmo_fsm_inst_dispatch tn s SMSCB_MSG_E_CREATE data = some (0, { s with
        calls := s.calls ++ s.cbcmsg.fi.children.map
          (fun child => ext_call.peer_dispatch child.id SMSCB_PEER_E_CREATE none),
        cbcmsg := { s.cbcmsg with
          it_op := data,
          fi := { s.cbcmsg.fi with
            state := SMSCB_S_WAIT_WRITE_ACK, T := tn.T_WAIT_WRITE_ACK, timer := some 15 } } })) ∧
    (s.cbcmsg.fi.state = SMSCB_S_ACTIVE →
      osmo_fsm_inst_dispatch tn s SMSCB_MSG_E_REPLACE data = some (0, { s with
        calls := s.calls ++ s.cbcmsg.fi.children.map
          (fun child => ext_call.peer_dispatch child.id SMSCB_PEER_E_REPLACE data),
        cbcmsg := { s.cbcmsg with
          it_op := data,
          fi := { s.cbcmsg.fi with
            state := SMSCB_S_WAIT_REPLACE_ACK, T := tn.T_WAIT_REPLACE_ACK,
            timer := some 15 } } })) ∧
    (s.cbcmsg.fi.state = SMSCB_S_ACTIVE →
      osmo_fsm_inst_dispatch tn s SMSCB_MSG_E_STATUS data = some (0, { s with
        calls := s.calls ++ s.cbcmsg.fi.children.map
          (fun child => ext_call.peer_dispatch child.id SMSCB_PEER_E_STATUS data),
        cbcmsg := { s.cbcmsg with
          it_op := data,
          fi := { s.cbcmsg.fi with
            state := SMSCB_S_WAIT_STATUS_ACK, T := tn.T_WAIT_STATUS_ACK, timer := some 15 } } })) ∧
    (s.cbcmsg.fi.state = SMSCB_S_ACTIVE →
      osmo_fsm_inst_dispatch tn s SMSCB_MSG_E_DELETE data = some (0, { s with
        calls := s.calls ++ s.cbcmsg.fi.children.map
          (fun child => ext_call.peer_dispatch child.id SMSCB_PEER_E_DELETE data),
        cbcmsg := { s.cbcmsg with
          it_op := data,
          fi := { s.cbcmsg.fi with
            state := SMSCB_S_WAIT_DELETE_ACK, T := tn.T_WAIT_DELETE_ACK,
            timer := some 15 } } })) := by
  refine ⟨?_, ?_, ?_, ?_⟩ <;> intro hstate <;>
  · unfold osmo_fsm_inst_dispatch
    rw [hstate, if_neg (by decide), if_pos (by decide)]
    simp [smscb_fsm_action, smscb_fsm_init, smscb_fsm_active, osmo_fsm_inst_state_chg, hstate, hop,
      smscb_fsm_states, osmo_timer_del, set_it_op, set_state, set_T, osmo_timer_schedule,
      osmo_fsm_inst_broadcast_children, c_int_fifteen]

/-- A request while a handle is attached trips the assertion. -/
theorem dispatch_request_abort (tn : smscb_timer_numbers) (s : Sys) (data : Option Nat)
    (hop : s.cbcmsg.it_op.isSome = true) :
    (s.cbcmsg.fi.state = SMSCB_S_INIT →
      osmo_fsm_inst_dispatch tn s SMSCB_MSG_E_CREATE data = none) ∧
    (s.cbcmsg.fi.state = SMSCB_S_ACTIVE →
      osmo_fsm_inst_dispatch tn s SMSCB_MSG_E_REPLACE data = none ∧
      osmo_fsm_inst_dispatch tn s SMSCB_MSG_E_STATUS data = none ∧
      osmo_fsm_inst_dispatch tn s SMSCB_MSG_E_DELETE data = none) := by
  refine ⟨?_, fun hstate => ⟨?_, ?_, ?_⟩⟩
  · intro hstate
    unfold osmo_fsm_inst_dispatch
    rw [hstate, if_neg (by decide), if_pos (by decide)]
    simp [smscb_fsm_action, smscb_fsm_init, hop]
  all_goals
    unfold osmo_fsm_inst_dispatch
    rw [hstate, if_neg (by decide), if_pos (by decide)]
    simp [smscb_fsm_action, smscb_fsm_active, hop]

/-- C10 (request transitions). With no handle attached and any children:
CREATE in INIT is accepted and enters WAIT_WRITE_ACK; REPLACE, STATUS and
DELETE in ACTIVE are accepted and enter WAIT_REPLACE_ACK, WAIT_STATUS_ACK and
WAIT_DELETE_ACK. Each time the handle of the event is attached, the timer is
pending for 15 s under the number of the entered state whatever was pending
before, the peer event is sent once to each child, and both lists are
unchanged. -/
theorem request_transitions (tn : smscb_timer_numbers) (s : Sys) (data : Option Nat)
    (hop : s.cbcmsg.it_op = none) :
    (s.cbcmsg.fi.state = SMSCB_S_INIT →
      ∃ s1, osmo_fsm_inst_dispatch tn s SMSCB_MSG_E_CREATE data = some (0, s1) ∧
        enters_wait s s1 SMSCB_S_WAIT_WRITE_ACK tn.T_WAIT_WRITE_ACK data
          SMSCB_PEER_E_CREATE none) ∧
    (s.cbcmsg.fi.state = SMSCB_S_ACTIVE →
      (∃ s1, osmo_fsm_inst_dispatch tn s SMSCB_MSG_E_REPLACE data = some (0, s1) ∧
        enters_wait s s1 SMSCB_S_WAIT_REPLACE_ACK tn.T_WAIT_REPLACE_ACK data
          SMSCB_PEER_E_REPLACE data) ∧
      (∃ s1, osmo_fsm_inst_dispatch tn s SMSCB_MSG_E_STATUS data = some (0, s1) ∧
        enters_wait s s1 SMSCB_S_WAIT_STATUS_ACK tn.T_WAIT_STATUS_ACK data
          SMSCB_PEER_E_STATUS data) ∧
      (∃ s1, osmo_fsm_inst_dispatch tn s SMSCB_MSG_E_DELETE data = some (0, s1) ∧
        enters_wait s s1 SMSCB_S_WAIT_DELETE_ACK tn.T_WAIT_DELETE_ACK data
          SMSCB_PEER_E_DELETE data)) := by
  obtain ⟨h1, h2, h3, h4⟩ := dispatch_request tn s data hop
  refine ⟨fun hstate => ⟨_, h1 hstate, ?_⟩,
    fun hstate => ⟨⟨_, h2 hstate, ?_⟩, ⟨_, h3 hstate, ?_⟩, ⟨_, h4 hstate, ?_⟩⟩⟩ <;>
  exact ⟨rfl, rfl, rfl, rfl, rfl, rfl⟩

/-- The witness of C10: DELETE with handle 9 in ACTIVE while the active expiry
timer (30 s) is pending, two children. -/
theorem request_transitions_witness :
    osmo_fsm_inst_dispatch sample_tn
      (sample_sys SMSCB_S_ACTIVE 5 (some 30) none [⟨1, SMSCB_S_ACTIVE⟩, ⟨2, SMSCB_S_INIT⟩])
      SMSCB_MSG_E_DELETE (some 9) =
    some (0, { sample_sys SMSCB_S_WAIT_DELETE_ACK 4 (some 15) (some 9)
        [⟨1, SMSCB_S_ACTIVE⟩, ⟨2, SMSCB_S_INIT⟩] with
      calls := [ext_call.peer_dispatch 1 SMSCB_PEER_E_DELETE (some 9),
        ext_call.peer_dispatch 2 SMSCB_PEER_E_DELETE (some 9)] }) := by
  obtain ⟨s1, h1, _⟩ := ((request_transitions sample_tn
    (sample_sys SMSCB_S_ACTIVE 5 (some 30) none [⟨1, SMSCB_S_ACTIVE⟩, ⟨2, SMSCB_S_INIT⟩])
    (some 9) rfl).2 rfl).2.2
  rw [h1]
  have h2 : osmo_fsm_inst_dispatch sample_tn
      (sample_sys SMSCB_S_ACTIVE 5 (some 30) none [⟨1, SMSCB_S_ACTIVE⟩, ⟨2, SMSCB_S_INIT⟩])
      SMSCB_MSG_E_DELETE (some 9) =
    some (0, { sample_sys SMSCB_S_WAIT_DELETE_ACK 4 (some 15) (some 9)
        [⟨1, SMSCB_S_ACTIVE⟩, ⟨2, SMSCB_S_INIT⟩] with
      calls := [ext_call.peer_dispatch 1 SMSCB_PEER_E_DELETE (some 9),
        ext_call.peer_dispatch 2 SMSCB_PEER_E_DELETE (some 9)] }) := by decide
  rw [← h1, h2]

/-! ## What a handler can do to the process -/

theorem step_ok_refl (s : Sys) : step_ok s s :=
  ⟨rfl, rfl, fun h => h, Or.inl ⟨rfl, rfl⟩⟩

theorem step_ok_of_timer_del (s s1 : Sys) (h : step_ok (osmo_timer_del s) s1) : step_ok s s1 := h

theorem dispatch_step_ok (tn : smscb_timer_numbers) (s : Sys)
    (event : smscb_message_fsm_event) (data : Option Nat) (r : Int × Sys)
    (hr : osmo_fsm_inst_dispatch tn s event data = some r) : step_ok s r.2 := by
  have hother : event ∉ (smscb_fsm_states s.cbcmsg.fi.state).in_event_mask → step_ok s r.2 := by
    intro hne
    rw [dispatch_other tn s event data hne] at hr
    injection hr with hr
    subst hr
    exact step_ok_refl s
  cases hst : s.cbcmsg.fi.state
  · -- INIT
    by_cases hev : event = SMSCB_MSG_E_CREATE
    · subst hev
      cases hop : s.cbcmsg.it_op with
      | none =>
        rw [(dispatch_request tn s data hop).1 hst] at hr
        injection hr with hr
        subst hr
        simp [step_ok, is_wait_state, is_terminated_state, hst]
      | some h =>
        rw [(dispatch_request_abort tn s data (by simp [hop])).1 hst] at hr
        cases hr
    · exact hother (by rw [hst]; simpa [smscb_fsm_states] using hev)
  · -- WAIT_WRITE_ACK
    by_cases hev : event = SMSCB_MSG_E_WRITE_ACK ∨ event = SMSCB_MSG_E_WRITE_NACK
    · rw [dispatch_wait_write_ack tn s event data hst hev] at hr
      injection hr with hr
      subst hr
      split
      · exact step_ok_refl s
      · simp [barrier_to_active_eq tn s 201 "Created" (Or.inl hst), step_ok, is_wait_state,
          is_terminated_state, hst]
    · exact hother (by rw [hst]; simpa [smscb_fsm_states] using hev)
  · -- ACTIVE
    by_cases hev : event = SMSCB_MSG_E_REPLACE ∨ event = SMSCB_MSG_E_STATUS ∨
        event = SMSCB_MSG_E_DELETE
    · cases hop : s.cbcmsg.it_op with
      | none =>
        obtain ⟨_, h2, h3, h4⟩ := dispatch_request tn s data hop
        rcases hev with rfl | rfl | rfl
        · rw [h2 hst] at hr
          injection hr with hr
          subst hr
          simp [step_ok, is_wait_state, is_terminated_state, hst]
        · rw [h3 hst] at hr
          injection hr with hr
          subst hr
          simp [step_ok, is_wait_state, is_terminated_state, hst]
        · rw [h4 hst] at hr
          injection hr with hr
          subst hr
          simp [step_ok, is_wait_state, is_terminated_state, hst]
      | some h =>
        obtain ⟨h2, h3, h4⟩ := (dispatch_request_abort tn s data (by simp [hop])).2 hst
        rcases hev with rfl | rfl | rfl
        · rw [h2] at hr; cases hr
        · rw [h3] at hr; cases hr
        · rw [h4] at hr; cases hr
    · by_cases hex : event = SMSCB_MSG_E_EXPIRE
      · subst hex
        rw [dispatch_active_expire tn s data hst] at hr
        injection hr with hr
        subst hr
        simp [step_ok, is_wait_state, is_terminated_state, hst]
      · exact hother (by
          rw [hst]
          simp only [not_or] at hev
          simpa [smscb_fsm_states] using ⟨hev.1, hev.2.1, hev.2.2, hex⟩)
  · -- WAIT_REPLACE_ACK
    by_cases hev : event = SMSCB_MSG_E_REPLACE_ACK ∨ event = SMSCB_MSG_E_REPLACE_NACK
    · rw [dispatch_wait_replace_ack tn s event data hst hev] at hr
      injection hr with hr
      subst hr
      split
      · exact step_ok_refl s
      · simp [barrier_to_active_eq tn s 200 "OK" (Or.inr (Or.inl hst)), step_ok, is_wait_state,
          is_terminated_state, hst]
    · exact hother (by rw [hst]; simpa [smscb_fsm_states] using hev)
  · -- WAIT_STATUS_ACK
    by_cases hev : event = SMSCB_MSG_E_STATUS_ACK ∨ event = SMSCB_MSG_E_STATUS_NACK
    · rw [dispatch_wait_status_ack tn s event data hst hev] at hr
      injection hr with hr
      subst hr
      split
      · exact step_ok_refl s
      · simp [barrier_to_active_eq tn s 200 "OK" (Or.inr (Or.inr hst)), step_ok, is_wait_state,
          is_terminated_state, hst]
    · exact hother (by rw [hst]; simpa [smscb_fsm_states] using hev)
  · -- WAIT_DELETE_ACK
    by_cases hev : event = SMSCB_MSG_E_DELETE_ACK ∨ event = SMSCB_MSG_E_DELETE_NACK
    · rw [dispatch_wait_delete_ack tn s event data hst hev] at hr
      injection hr with hr
      subst hr
      split
      · exact step_ok_refl s
      · rw [state_chg_wait_deleted _ (by simpa [rest_it_op_set_http_result] using hst)]
        simp [rest_it_op_set_http_result, step_ok, is_wait_state, is_terminated_state, hst]
    · exact hother (by rw [hst]; simpa [smscb_fsm_states] using hev)
  · exact hother (by rw [hst]; simp [smscb_fsm_states])
  · exact hother (by rw [hst]; simp [smscb_fsm_states])

theorem state_chg_step_ok (s : Sys) (target : smscb_state)
    (ht : target = SMSCB_S_ACTIVE ∨ target = SMSCB_S_DELETED) :
    step_ok s (osmo_fsm_inst_state_chg s target 0 0).2 := by
  cases hst : s.cbcmsg.fi.state <;> rcases ht with rfl | rfl
  case SMSCB_S_WAIT_WRITE_ACK.inl =>
    simp [state_chg_wait_active s (Or.inl hst), step_ok, is_wait_state, is_terminated_state, hst]
  case SMSCB_S_WAIT_REPLACE_ACK.inl =>
    simp [state_chg_wait_active s (Or.inr (Or.inl hst)), step_ok, is_wait_state,
      is_terminated_state, hst]
  case SMSCB_S_WAIT_STATUS_ACK.inl =>
    simp [state_chg_wait_active s (Or.inr (Or.inr hst)), step_ok, is_wait_state,
      is_terminated_state, hst]
  case SMSCB_S_WAIT_DELETE_ACK.inr =>
    simp [state_chg_wait_deleted s hst, step_ok, is_wait_state, is_terminated_state, hst]
  case SMSCB_S_ACTIVE.inl =>
    simp [osmo_fsm_inst_state_chg, hst, smscb_fsm_states, osmo_timer_del, set_state, set_T,
      step_ok, is_wait_state, is_terminated_state]
  all_goals
    rw [state_chg_refused s _ _ _ (by rw [hst]; decide)]
    exact step_ok_refl s

theorem fsm_tmr_cb_step_ok (tn : smscb_timer_numbers) (s s1 : Sys)
    (hr : fsm_tmr_cb tn s = some s1) : step_ok s s1 := by
  apply step_ok_of_timer_del
  unfold fsm_tmr_cb smscb_fsm_timer_cb at hr
  split_ifs at hr
  · injection hr with hr; subst hr; exact state_chg_step_ok _ _ (Or.inl rfl)
  · injection hr with hr; subst hr; exact state_chg_step_ok _ _ (Or.inl rfl)
  · injection hr with hr; subst hr; exact state_chg_step_ok _ _ (Or.inl rfl)
  · injection hr with hr; subst hr; exact state_chg_step_ok _ _ (Or.inr rfl)
  · cases hd : osmo_fsm_inst_dispatch tn (osmo_timer_del s) SMSCB_MSG_E_EXPIRE none with
    | none => rw [hd] at hr; cases hr
    | some r =>
      rw [hd] at hr
      injection hr with hr
      subst hr
      exact dispatch_step_ok tn _ _ _ r hd

/-! ## Objects and lists under a step -/

theorem World.msg_lt (w : World) (p : Nat) (m : cbc_message) (h : w.msg p = some m) :
    p < w.heap.length := by
  by_contra hge
  have hnone : w.heap[p]? = none := List.getElem?_eq_none (by omega)
  simp [World.msg, hnone] at h

theorem World.msg_set (w : World) (g : cbc) (c : List ext_call) (t : Nat) (p : Nat)
    (x : Option cbc_message) (hp : p < w.heap.length) (q : Nat) :
    World.msg { g_cbc := g, heap := w.heap.set p x, calls := c, time_now := t } q =
      if q = p then x else w.msg q := by
  unfold World.msg
  by_cases hq : q = p
  · subst hq
    simp only [List.getElem?_set_self hp, if_true]
    cases x <;> rfl
  · simp only [List.getElem?_set_ne (Ne.symm hq), if_neg hq]

theorem World.sys_some (w : World) (p : Nat) (s : Sys) (hs : w.sys p = some s) :
    s.ptr = p ∧ s.g_cbc = w.g_cbc ∧ w.msg p = some s.cbcmsg := by
  unfold World.sys at hs
  cases hm : w.msg p with
  | none => simp [hm] at hs
  | some m =>
    simp [hm] at hs
    subst hs
    exact ⟨rfl, rfl, rfl⟩

theorem count_filter_ne (l : List Nat) (p x : Nat) :
    (l.filter (fun q => decide (q ≠ p))).count x = if x = p then 0 else l.count x := by
  by_cases hx : x = p
  · subst hx
    simp [List.count_eq_zero]
  · rw [if_neg hx, List.count_filter (by simpa using hx)]

theorem count_moved (g : cbc) (p x : Nat) :
    ((moved_to_expired g p).messages ++ (moved_to_expired g p).expired_messages).count x =
      if x = p then 1 else (g.messages ++ g.expired_messages).count x := by
  simp only [moved_to_expired, List.count_append, count_filter_ne]
  by_cases hx : x = p
  · subst hx
    simp
  · simp [hx, List.count_singleton]

theorem mem_moved_expired (g : cbc) (p x : Nat) :
    x ∈ (moved_to_expired g p).expired_messages ↔ x = p ∨ x ∈ g.expired_messages := by
  simp only [moved_to_expired, List.mem_append, List.mem_filter, List.mem_singleton]
  by_cases hx : x = p <;> simp [hx]

theorem mem_moved (g : cbc) (p x : Nat)
    (hx : x ∈ (moved_to_expired g p).messages ++ (moved_to_expired g p).expired_messages) :
    x = p ∨ x ∈ g.messages ++ g.expired_messages := by
  simp only [moved_to_expired, List.mem_append, List.mem_filter, List.mem_singleton] at hx
  simp only [List.mem_append]
  tauto

/-! ## The invariants are kept by every step -/

theorem put_preserves_inv (w : World) (p : Nat) (s s1 : Sys)
    (hs : w.sys p = some s) (hok : step_ok s s1) (hinv : w.inv) : (w.put s1).inv := by
  obtain ⟨hptr, hg, hm⟩ := World.sys_some w p s hs
  obtain ⟨hp1, hid, hhandle, hlists⟩ := hok
  obtain ⟨hH, ⟨hR1, hR2⟩, hU⟩ := hinv
  have hlt := World.msg_lt w p _ hm
  have hp1' : s1.ptr = p := hp1.trans hptr
  have hmsg : ∀ q, (w.put s1).msg q = if q = p then some s1.cbcmsg else w.msg q := by
    intro q
    unfold World.put
    rw [hp1']
    exact World.msg_set w _ _ _ p _ hlt q
  have hgc : (w.put s1).g_cbc = s1.g_cbc := rfl
  have hidof : ∀ q m, (w.put s1).msg q = some m →
      ∃ m0, w.msg q = some m0 ∧ m0.message_id = m.message_id := by
    intro q m hq
    rw [hmsg] at hq
    by_cases hqp : q = p
    · rw [if_pos hqp] at hq
      injection hq with hq
      subst hq
      exact ⟨s.cbcmsg, by rw [hqp]; exact hm, hid.symm⟩
    · rw [if_neg hqp] at hq
      exact ⟨m, hq, rfl⟩
  rw [hg, hptr] at hlists
  refine ⟨?_, ⟨?_, ?_⟩, ?_⟩
  · intro q m hq hsome
    rw [hmsg] at hq
    by_cases hqp : q = p
    · rw [if_pos hqp] at hq
      injection hq with hq
      subst hq
      exact hhandle (hH p _ hm) hsome
    · rw [if_neg hqp] at hq
      exact hH q m hq hsome
  · intro q hq
    rw [hmsg]
    by_cases hqp : q = p
    · rw [if_pos hqp]; rfl
    · rw [if_neg hqp]
      rw [hgc] at hq
      rcases hlists with ⟨hgs, _⟩ | ⟨hgs, _, _⟩
      · rw [hgs] at hq
        exact hR1 q hq
      · rw [hgs] at hq
        rcases mem_moved _ _ _ hq with h1 | h1
        · exact absurd h1 hqp
        · exact hR1 q h1
  · intro q m hq
    rw [hmsg] at hq
    rw [hgc]
    by_cases hqp : q = p
    · rw [if_pos hqp] at hq
      injection hq with hq
      subst hq
      subst hqp
      obtain ⟨hc, hmem⟩ := hR2 q s.cbcmsg hm
      rcases hlists with ⟨hgs, hterm⟩ | ⟨hgs, ht1, _⟩
      · rw [hgs, hterm]
        exact ⟨hc, hmem⟩
      · rw [hgs, count_moved, mem_moved_expired]
        simp [ht1]
    · rw [if_neg hqp] at hq
      obtain ⟨hc, hmem⟩ := hR2 q m hq
      rcases hlists with ⟨hgs, _⟩ | ⟨hgs, _, _⟩
      · rw [hgs]
        exact ⟨hc, hmem⟩
      · rw [hgs, count_moved, mem_moved_expired, if_neg hqp]
        refine ⟨hc, ?_⟩
        rw [← hmem]
        simp [hqp]
  · unfold World.unique_ids
    rw [hgc]
    have hsub : List.Sublist s1.g_cbc.messages w.g_cbc.messages := by
      rcases hlists with ⟨hgs, _⟩ | ⟨hgs, _, _⟩
      · rw [hgs]
      · rw [hgs]
        exact List.filter_sublist _
    refine (List.Pairwise.sublist hsub hU).imp ?_
    intro a b hab ma mb hma hmb
    obtain ⟨ma0, hma0, hida⟩ := hidof a ma hma
    obtain ⟨mb0, hmb0, hidb⟩ := hidof b mb hmb
    rw [← hida, ← hidb]
    exact hab ma0 mb0 hma0 hmb0

theorem World.msg_length (w : World) : w.msg w.heap.length = none := by
  cases h : w.msg w.heap.length with
  | none => rfl
  | some m => exact absurd (World.msg_lt w _ m h) (lt_irrefl _)

theorem alloc_preserves_inv (w : World) (orig_msg : cbc_message) (fi_mem smscb_mem : Bool)
    (r : Option Nat × World)
    (hr : cbc_message_alloc w orig_msg fi_mem smscb_mem = some r) (hinv : w.inv) : r.2.inv := by
  unfold cbc_message_alloc at hr
  split_ifs at hr with hdup hfi hsm
  · injection hr with hr; subst hr; exact hinv
  · injection hr with hr; subst hr; exact hinv
  · injection hr with hr
    subst hr
    obtain ⟨hH, ⟨hR1, hR2⟩, hU⟩ := hinv
    have hnew := World.msg_length w
    have hnotin : w.heap.length ∉ w.g_cbc.messages ++ w.g_cbc.expired_messages := by
      intro hin
      have := hR1 _ hin
      rw [hnew] at this
      cases this
    have hmsg : ∀ q (x : Option cbc_message) g c t,
        World.msg { g_cbc := g, heap := w.heap ++ [x], calls := c, time_now := t } q =
          if q = w.heap.length then x else w.msg q := by
      intro q x g c t
      by_cases hq : q = w.heap.length
      · subst hq
        rw [if_pos rfl]
        cases x <;> simp [World.msg]
      · rw [if_neg hq]
        exact World.msg_append_lt w x q hq
    simp only [List.mem_append, not_or] at hnotin
    refine ⟨?_, ⟨?_, ?_⟩, ?_⟩
    · intro q m hq hsome
      rw [hmsg] at hq
      by_cases hqp : q = w.heap.length
      · rw [if_pos hqp] at hq
        injection hq with hq
        subst hq
        simp at hsome
      · rw [if_neg hqp] at hq
        exact hH q m hq hsome
    · intro q hq
      rw [hmsg]
      by_cases hqp : q = w.heap.length
      · rw [if_pos hqp]; rfl
      · rw [if_neg hqp]
        apply hR1
        simp only [List.mem_append, List.mem_singleton] at hq ⊢
        tauto
    · intro q m hq
      rw [hmsg] at hq
      by_cases hqp : q = w.heap.length
      · rw [if_pos hqp] at hq
        injection hq with hq
        subst hq
        subst hqp
        simp only [List.count_append, List.count_singleton]
        rw [List.count_eq_zero.2 hnotin.1, List.count_eq_zero.2 hnotin.2]
        simp [is_terminated_state, hnotin.2]
      · rw [if_neg hqp] at hq
        obtain ⟨hc, hmem⟩ := hR2 q m hq
        simp only [List.count_append, List.count_singleton] at hc ⊢
        refine ⟨?_, hmem⟩
        have : (w.heap.length == q) = false := by simpa using Ne.symm hqp
        simp [this, hc]
    · unfold World.unique_ids
      simp only [List.pairwise_append, List.pairwise_singleton, List.mem_singleton, true_and]
      refine ⟨?_, ?_⟩
      · refine hU.imp_of_mem ?_
        intro a b ha hb hab ma mb hma hmb
        have hane : a ≠ w.heap.length := fun h => hnotin.1 (h ▸ ha)
        have hbne : b ≠ w.heap.length := fun h => hnotin.1 (h ▸ hb)
        rw [hmsg, if_neg hane] at hma
        rw [hmsg, if_neg hbne] at hmb
        exact hab ma mb hma hmb
      · intro a ha b hb ma mb hma hmb
        subst hb
        have hane : a ≠ w.heap.length := fun h => hnotin.1 (h ▸ ha)
        rw [hmsg, if_neg hane] at hma
        rw [hmsg, if_pos rfl] at hmb
        injection hmb with hmb
        subst hmb
        intro heq
        apply hdup
        rw [cbc_message_by_id_isSome]
        exact ⟨a, ha, ma, hma, heq⟩

theorem free_preserves_inv (w w1 : World) (p : Nat)
    (hr : cbc_message_free w p = some w1) (hinv : w.inv) : w1.inv := by
  unfold cbc_message_free at hr
  cases hs : w.sys p with
  | none => simp [hs] at hr
  | some s =>
    obtain ⟨hptr, hg, hm⟩ := World.sys_some w p s hs
    have hlt := World.msg_lt w p _ hm
    simp only [hs, smscb_fsm_cleanup] at hr
    split_ifs at hr
    swap
    · simp at hr
    simp only [Option.map_some', Option.some.injEq] at hr
    subst hr
    obtain ⟨hH, ⟨hR1, hR2⟩, hU⟩ := hinv
    rw [hg, hptr]
    have hmsg := fun g q => World.msg_set w g s.calls s.time_now p none hlt q
    refine ⟨?_, ⟨?_, ?_⟩, ?_⟩
    · intro q m hq hsome
      rw [hmsg] at hq
      by_cases hqp : q = p
      · rw [if_pos hqp] at hq; cases hq
      · rw [if_neg hqp] at hq
        exact hH q m hq hsome
    · intro q hq
      simp only [llist_del, List.mem_append, List.mem_filter, decide_eq_true_eq] at hq
      have hqp : q ≠ p := by tauto
      rw [hmsg, if_neg hqp]
      apply hR1
      simp only [List.mem_append]
      tauto
    · intro q m hq
      rw [hmsg] at hq
      by_cases hqp : q = p
      · rw [if_pos hqp] at hq; cases hq
      · rw [if_neg hqp] at hq
        obtain ⟨hc, hmem⟩ := hR2 q m hq
        simp only [llist_del, List.count_append, count_filter_ne, if_neg hqp, List.mem_filter,
          decide_eq_true_eq]
        rw [List.count_append] at hc
        refine ⟨hc, ?_⟩
        rw [← hmem]
        simp [hqp]
    · unfold World.unique_ids
      simp only [llist_del]
      refine (List.Pairwise.sublist (List.filter_sublist _) hU).imp_of_mem ?_
      intro a b ha hb hab ma mb hma hmb
      simp only [List.mem_filter, decide_eq_true_eq] at ha hb
      rw [hmsg, if_neg ha.2] at hma
      rw [hmsg, if_neg hb.2] at hmb
      exact hab ma mb hma hmb

theorem boot_inv : World.boot.inv := by
  refine ⟨?_, ⟨?_, ?_⟩, ?_⟩
  · intro p m hp
    simp [World.msg, World.boot] at hp
  · intro q hq
    simp [World.boot] at hq
  · intro p m hp
    simp [World.msg, World.boot] at hp
  · simp [World.unique_ids, World.boot]

theorem step_preserves_inv (tn : smscb_timer_numbers) (w w1 : World) (a : Action)
    (hstep : w.step tn a = some w1) (hinv : w.inv) : w1.inv := by
  cases a with
  | alloc orig_msg fi_mem smscb_mem =>
    simp only [World.step] at hstep
    cases hr : cbc_message_alloc w orig_msg fi_mem smscb_mem with
    | none => simp [hr] at hstep
    | some r =>
      simp only [hr, Option.map_some', Option.some.injEq] at hstep
      subst hstep
      exact alloc_preserves_inv w orig_msg fi_mem smscb_mem r hr hinv
  | dispatch p event data =>
    simp only [World.step] at hstep
    cases hs : w.sys p with
    | none => simp [hs] at hstep
    | some s =>
      simp only [hs] at hstep
      cases hr : osmo_fsm_inst_dispatch tn s event data with
      | none => simp [hr] at hstep
      | some r =>
        simp only [hr, Option.map_some', Option.some.injEq] at hstep
        subst hstep
        exact put_preserves_inv w p s r.2 hs (dispatch_step_ok tn s event data r hr) hinv
  | timer_expiry p =>
    simp only [World.step] at hstep
    cases hs : w.sys p with
    | none => simp [hs] at hstep
    | some s =>
      simp only [hs] at hstep
      split_ifs at hstep
      cases hr : fsm_tmr_cb tn s with
      | none => simp [hr] at hstep
      | some s1 =>
        simp only [hr, Option.map_some', Option.some.injEq] at hstep
        subst hstep
        exact put_preserves_inv w p s s1 hs (fsm_tmr_cb_step_ok tn s s1 hr) hinv
  | free p => exact free_preserves_inv w w1 p hstep hinv
  | peers_change p children peers =>
    simp only [World.step] at hstep
    cases hs : w.sys p with
    | none => simp [hs] at hstep
    | some s =>
      simp only [hs, Option.some.injEq] at hstep
      subst hstep
      exact put_preserves_inv w p s _ hs ⟨rfl, rfl, fun h => h, Or.inl ⟨rfl, rfl⟩⟩ hinv
  | clock t =>
    simp only [World.step, Option.some.injEq] at hstep
    subst hstep
    exact hinv

theorem run_preserves_inv (tn : smscb_timer_numbers) (acts : List Action) :
    ∀ w w1 : World, World.run tn w acts = some w1 → w.inv → w1.inv := by
  induction acts with
  | nil =>
    intro w w1 hrun hinv
    simp only [World.run, Option.some.injEq] at hrun
    subst hrun
    exact hinv
  | cons a rest ih =>
    intro w w1 hrun hinv
    simp only [World.run] at hrun
    cases hstep : w.step tn a with
    | none => simp [hstep] at hrun
    | some w2 =>
      simp only [hstep] at hrun
      exact ih w2 w1 hrun (step_preserves_inv tn w w2 a hstep hinv)

/-! ## Invariants of the reachable process states -/

/-- While a handle is attached only in wait states, no dispatch trips an assertion. -/
theorem dispatch_total (tn : smscb_timer_numbers) (s : Sys)
    (event : smscb_message_fsm_event) (data : Option Nat)
    (hinv : s.cbcmsg.it_op.isSome = true → is_wait_state s.cbcmsg.fi.state = true) :
    ∃ r, osmo_fsm_inst_dispatch tn s event data = some r := by
  have hother : event ∉ (smscb_fsm_states s.cbcmsg.fi.state).in_event_mask →
      ∃ r, osmo_fsm_inst_dispatch tn s event data = some r :=
    fun hne => ⟨_, dispatch_other tn s event data hne⟩
  cases hst : s.cbcmsg.fi.state
  · have hop : s.cbcmsg.it_op = none := by
      cases h : s.cbcmsg.it_op with
      | none => rfl
      | some x => simp [h, hst, is_wait_state] at hinv
    by_cases hev : event = SMSCB_MSG_E_CREATE
    · subst hev
      exact ⟨_, (dispatch_request tn s data hop).1 hst⟩
    · exact hother (by rw [hst]; simpa [smscb_fsm_states] using hev)
  · by_cases hev : event = SMSCB_MSG_E_WRITE_ACK ∨ event = SMSCB_MSG_E_WRITE_NACK
    · exact ⟨_, dispatch_wait_write_ack tn s event data hst hev⟩
    · exact hother (by rw [hst]; simpa [smscb_fsm_states] using hev)
  · have hop : s.cbcmsg.it_op = none := by
      cases h : s.cbcmsg.it_op with
      | none => rfl
      | some x => simp [h, hst, is_wait_state] at hinv
    obtain ⟨_, h2, h3, h4⟩ := dispatch_request tn s data hop
    by_cases hev : event = SMSCB_MSG_E_REPLACE ∨ event = SMSCB_MSG_E_STATUS ∨
        event = SMSCB_MSG_E_DELETE ∨ event = SMSCB_MSG_E_EXPIRE
    · rcases hev with rfl | rfl | rfl | rfl
      · exact ⟨_, h2 hst⟩
      · exact ⟨_, h3 hst⟩
      · exact ⟨_, h4 hst⟩
      · exact ⟨_, dispatch_active_expire tn s data hst⟩
    · exact hother (by rw [hst]; simpa [smscb_fsm_states] using hev)
  · by_cases hev : event = SMSCB_MSG_E_REPLACE_ACK ∨ event = SMSCB_MSG_E_REPLACE_NACK
    · exact ⟨_, dispatch_wait_replace_ack tn s event data hst hev⟩
    · exact hother (by rw [hst]; simpa [smscb_fsm_states] using hev)
  · by_cases hev : event = SMSCB_MSG_E_STATUS_ACK ∨ event = SMSCB_MSG_E_STATUS_NACK
    · exact ⟨_, dispatch_wait_status_ack tn s event data hst hev⟩
    · exact hother (by rw [hst]; simpa [smscb_fsm_states] using hev)
  · by_cases hev : event = SMSCB_MSG_E_DELETE_ACK ∨ event = SMSCB_MSG_E_DELETE_NACK
    · exact ⟨_, dispatch_wait_delete_ack tn s event data hst hev⟩
    · exact hother (by rw [hst]; simpa [smscb_fsm_states] using hev)
  · exact hother (by rw [hst]; simp [smscb_fsm_states])
  · exact hother (by rw [hst]; simp [smscb_fsm_states])

/-- C7 (handle exclusivity). In every process state reached from start-up by
any sequence of allocations, dispatched events (with any data), timer
expiries, frees and changes of the children, for every existing message: a
handle is attached only in one of the four wait states; so in INIT and in
ACTIVE none is attached, no dispatched event trips the assertion before the
handle is attached, and a dispatched event leaves an attached handle attached
or detaches it, never replaces it. -/
theorem handle_exclusivity (tn : smscb_timer_numbers) (acts : List Action) (w : World)
    (hrun : World.run tn World.boot acts = some w) (p : Nat) (s : Sys)
    (hs : w.sys p = some s) :
    (s.cbcmsg.it_op.isSome = true →
      s.cbcmsg.fi.state = SMSCB_S_WAIT_WRITE_ACK ∨ s.cbcmsg.fi.state = SMSCB_S_WAIT_REPLACE_ACK ∨
      s.cbcmsg.fi.state = SMSCB_S_WAIT_STATUS_ACK ∨ s.cbcmsg.fi.state = SMSCB_S_WAIT_DELETE_ACK) ∧
    (s.cbcmsg.fi.state = SMSCB_S_INIT ∨ s.cbcmsg.fi.state = SMSCB_S_ACTIVE →
      s.cbcmsg.it_op = none) ∧
    (∀ event data, osmo_fsm_inst_dispatch tn s event data ≠ none) ∧
    (∀ h event data r, s.cbcmsg.it_op = some h →
      osmo_fsm_inst_dispatch tn s event data = some r →
      r.2.cbcmsg.it_op = some h ∨ r.2.cbcmsg.it_op = none) := by
  have hinv := (run_preserves_inv tn acts World.boot w hrun boot_inv).1
  obtain ⟨_, _, hm⟩ := World.sys_some w p s hs
  have hwait : s.cbcmsg.it_op.isSome = true → is_wait_state s.cbcmsg.fi.state = true :=
    hinv p s.cbcmsg hm
  refine ⟨?_, ?_, ?_, ?_⟩
  · intro hsome
    have := hwait hsome
    revert this
    cases s.cbcmsg.fi.state <;> simp [is_wait_state]
  · intro hstate
    cases hop : s.cbcmsg.it_op with
    | none => rfl
    | some x =>
      have := hwait (by simp [hop])
      rcases hstate with h | h <;> simp [h, is_wait_state] at this
  · intro event data hnone
    obtain ⟨r, hr⟩ := dispatch_total tn s event data hwait
    rw [hr] at hnone
    cases hnone
  · intro h event data r hop hr
    rcases wait_dispatch_shape tn s h event data r (hwait (by simp [hop])) hop hr with hsame | hleft
    · left
      rw [hsame, hop]
    · right
      exact hleft.2.2

/-- The witness of C7: after message 42 is created and its CREATE (handle 7)
dispatched, the handle is attached in WAIT_WRITE_ACK and a REPLACE with handle
8 is refused without touching it. -/
theorem handle_exclusivity_witness :
    World.run sample_tn World.boot (sample_acts.take 2) = some (sample_after 2) ∧
    (sample_after 2).sys 0 =
      some { sample_sys SMSCB_S_WAIT_WRITE_ACK 1 (some 15) (some 7) [] with time_now := 0 } ∧
    osmo_fsm_inst_dispatch sample_tn
      { sample_sys SMSCB_S_WAIT_WRITE_ACK 1 (some 15) (some 7) [] with time_now := 0 }
      SMSCB_MSG_E_REPLACE (some 8) ≠ none := by
  have hrun : World.run sample_tn World.boot (sample_acts.take 2) = some (sample_after 2) := by
    decide
  have hs : (sample_after 2).sys 0 =
      some { sample_sys SMSCB_S_WAIT_WRITE_ACK 1 (some 15) (some 7) [] with time_now := 0 } := by
    decide
  exact ⟨hrun, hs,
    (handle_exclusivity sample_tn _ _ hrun 0 _ hs).2.2.1 SMSCB_MSG_E_REPLACE (some 8)⟩

/-- C8 (registry exclusivity). In every process state reached from start-up by
any sequence of allocations, dispatched events, timer expiries (and frees and
changes of the children), every existing message is linked exactly once on the
two lists taken together; it is on the expired list exactly when its state is
DELETED or EXPIRED, and on the live list exactly when it is not. -/
theorem registry_exclusivity (tn : smscb_timer_numbers) (acts : List Action) (w : World)
    (hrun : World.run tn World.boot acts = some w) (p : Nat) (m : cbc_message)
    (hm : w.msg p = some m) :
    w.g_cbc.messages.count p + w.g_cbc.expired_messages.count p = 1 ∧
    (p ∈ w.g_cbc.expired_messages ↔
      m.fi.state = SMSCB_S_DELETED ∨ m.fi.state = SMSCB_S_EXPIRED) ∧
    (p ∈ w.g_cbc.messages ↔
      ¬ (m.fi.state = SMSCB_S_DELETED ∨ m.fi.state = SMSCB_S_EXPIRED)) := by
  obtain ⟨hc, hmem⟩ := (run_preserves_inv tn acts World.boot w hrun boot_inv).2.1.2 p m hm
  rw [List.count_append] at hc
  have hterm : is_terminated_state m.fi.state = true ↔
      m.fi.state = SMSCB_S_DELETED ∨ m.fi.state = SMSCB_S_EXPIRED := by
    cases m.fi.state <;> simp [is_terminated_state]
  rw [hterm] at hmem
  refine ⟨hc, hmem, ?_⟩
  rw [← hmem]
  constructor
  · intro hlive hexp
    have h1 := List.count_pos_iff.2 hlive
    have h2 := List.count_pos_iff.2 hexp
    omega
  · intro hnexp
    have h2 := List.count_eq_zero.2 hnexp
    apply List.count_pos_iff.1
    omega

/-- The witness of C8: after message 42 has expired it is on the expired list
only, once. -/
theorem registry_exclusivity_witness :
    World.run sample_tn World.boot (sample_acts.take 4) = some (sample_after 4) ∧
    ((sample_after 4).msg 0).map (fun m => m.fi.state) = some SMSCB_S_EXPIRED ∧
    (sample_after 4).g_cbc.messages.count 0 + (sample_after 4).g_cbc.expired_messages.count 0 = 1 ∧
    0 ∈ (sample_after 4).g_cbc.expired_messages := by
  have hrun : World.run sample_tn World.boot (sample_acts.take 4) = some (sample_after 4) := by
    decide
  have hm : (sample_after 4).msg 0 =
      some { (sample_sys SMSCB_S_EXPIRED 0 none none []).cbcmsg with time_created := 0 } := by
    decide
  have key := registry_exclusivity sample_tn _ _ hrun 0 _ hm
  exact ⟨hrun, by rw [hm]; rfl, key.1, key.2.1.2 (Or.inr rfl)⟩

/-- C9, as stated, fails: after message 42 has expired it stays on the expired
list, and a second message 42 can be created. Both exist, at addresses 0
(expired list) and 1 (live list), with the same identifier. -/
theorem identifier_uniqueness_counterexample :
    World.run sample_tn World.boot sample_acts = some (sample_after 5) ∧
    (sample_after 5).g_cbc = { messages := [1], expired_messages := [0] } ∧
    ((sample_after 5).msg 0).map (fun m => m.message_id) = some 42 ∧
    ((sample_after 5).msg 1).map (fun m => m.message_id) = some 42 := by
  refine ⟨by decide, by decide, by decide, by decide⟩

/-- C9, amended. In every process state reached from start-up by any sequence
of allocations, dispatched events, timer expiries and frees (and changes of
the children), the live list has no entry twice and no two messages on the
live list have the same identifier. -/
theorem live_identifier_uniqueness (tn : smscb_timer_numbers) (acts : List Action) (w : World)
    (hrun : World.run tn World.boot acts = some w) :
    w.g_cbc.messages.Nodup ∧
    ∀ p q mp mq, p ∈ w.g_cbc.messages → q ∈ w.g_cbc.messages →
      w.msg p = some mp → w.msg q = some mq → mp.message_id = mq.message_id → p = q := by
  obtain ⟨_, ⟨hR1, hR2⟩, hU⟩ := run_preserves_inv tn acts World.boot w hrun boot_inv
  constructor
  · rw [List.nodup_iff_count_le_one]
    intro a
    by_cases ha : a ∈ w.g_cbc.messages
    · have hex := hR1 a (List.mem_append_left _ ha)
      cases hma : w.msg a with
      | none => rw [hma] at hex; cases hex
      | some ma =>
        have hc := (hR2 a ma hma).1
        rw [List.count_append] at hc
        omega
    · rw [List.count_eq_zero.2 ha]
      omega
  · intro p q mp mq hp hq hmp hmq hid
    by_contra hne
    have hsymm : Symmetric (fun p q : Nat =>
        ∀ mp mq, w.msg p = some mp → w.msg q = some mq → mp.message_id ≠ mq.message_id) := by
      intro a b hab mb ma hmb hma heq
      exact hab ma mb hma hmb heq.symm
    exact List.Pairwise.forall hsymm hU hp hq hne mp mq hmp hmq hid

/-- The witness of C9 amended: at the end of the sample run the live list
holds the second message 42 only. -/
theorem live_identifier_uniqueness_witness :
    World.run sample_tn World.boot sample_acts = some (sample_after 5) ∧
    (sample_after 5).g_cbc.messages = [1] ∧
    (sample_after 5).g_cbc.messages.Nodup := by
  have hrun : World.run sample_tn World.boot sample_acts = some (sample_after 5) := by decide
  exact ⟨hrun, by decide, (live_identifier_uniqueness sample_tn _ _ hrun).1⟩

/-! ## The shape of every step -/

/-- A dispatched event leaves the process as it was, or follows an edge of the
graph; then a pending timer carries the number of the new state, and the
effects of entering DELETED are there if DELETED was entered. -/
theorem dispatch_shape (tn : smscb_timer_numbers) (s : Sys)
    (event : smscb_message_fsm_event) (data : Option Nat) (r : Int × Sys)
    (hr : osmo_fsm_inst_dispatch tn s event data = some r) :
    r.2 = s ∨
      (smscb_edge s.cbcmsg.fi.state r.2.cbcmsg.fi.state = true ∧
        (r.2.cbcmsg.fi.timer.isSome = true → timer_matches tn r.2.cbcmsg.fi) ∧
        (r.2.cbcmsg.fi.state = SMSCB_S_DELETED → deleted_effects s r.2)) := by
  have hother : event ∉ (smscb_fsm_states s.cbcmsg.fi.state).in_event_mask → r.2 = s := by
    intro hne
    rw [dispatch_other tn s event data hne] at hr
    injection hr with hr
    subst hr
    rfl
  cases hst : s.cbcmsg.fi.state
  · by_cases hev : event = SMSCB_MSG_E_CREATE
    · subst hev
      cases hop : s.cbcmsg.it_op with
      | none =>
        rw [(dispatch_request tn s data hop).1 hst] at hr
        injection hr with hr
        subst hr
        right
        simp [smscb_edge, timer_matches, is_wait_state, wait_timer]
      | some h =>
        rw [(dispatch_request_abort tn s data (by simp [hop])).1 hst] at hr
        cases hr
    · exact Or.inl (hother (by rw [hst]; simpa [smscb_fsm_states] using hev))
  · by_cases hev : event = SMSCB_MSG_E_WRITE_ACK ∨ event = SMSCB_MSG_E_WRITE_NACK
    · rw [dispatch_wait_write_ack tn s event data hst hev] at hr
      injection hr with hr
      subst hr
      split
      · exact Or.inl rfl
      · right
        simp [barrier_to_active_eq tn s 201 "Created" (Or.inl hst), smscb_edge, timer_matches,
          is_wait_state]
        exact fun h1 h2 => absurd h2 h1
    · exact Or.inl (hother (by rw [hst]; simpa [smscb_fsm_states] using hev))
  · by_cases hev : event = SMSCB_MSG_E_REPLACE ∨ event = SMSCB_MSG_E_STATUS ∨
        event = SMSCB_MSG_E_DELETE
    · cases hop : s.cbcmsg.it_op with
      | none =>
        obtain ⟨_, h2, h3, h4⟩ := dispatch_request tn s data hop
        right
        rcases hev with rfl | rfl | rfl
        · rw [h2 hst] at hr
          injection hr with hr
          subst hr
          simp [smscb_edge, timer_matches, is_wait_state, wait_timer]
        · rw [h3 hst] at hr
          injection hr with hr
          subst hr
          simp [smscb_edge, timer_matches, is_wait_state, wait_timer]
        · rw [h4 hst] at hr
          injection hr with hr
          subst hr
          simp [smscb_edge, timer_matches, is_wait_state, wait_timer]
      | some h =>
        obtain ⟨h2, h3, h4⟩ := (dispatch_request_abort tn s data (by simp [hop])).2 hst
        rcases hev with rfl | rfl | rfl
        · rw [h2] at hr; cases hr
        · rw [h3] at hr; cases hr
        · rw [h4] at hr; cases hr
    · by_cases hex : event = SMSCB_MSG_E_EXPIRE
      · subst hex
        rw [dispatch_active_expire tn s data hst] at hr
        injection hr with hr
        subst hr
        right
        simp [smscb_edge]
      · exact Or.inl (hother (by
          rw [hst]
          simp only [not_or] at hev
          simpa [smscb_fsm_states] using ⟨hev.1, hev.2.1, hev.2.2, hex⟩))
  · by_cases hev : event = SMSCB_MSG_E_REPLACE_ACK ∨ event = SMSCB_MSG_E_REPLACE_NACK
    · rw [dispatch_wait_replace_ack tn s event data hst hev] at hr
      injection hr with hr
      subst hr
      split
      · exact Or.inl rfl
      · right
        simp [barrier_to_active_eq tn s 200 "OK" (Or.inr (Or.inl hst)), smscb_edge,
          timer_matches, is_wait_state]
        exact fun h1 h2 => absurd h2 h1
    · exact Or.inl (hother (by rw [hst]; simpa [smscb_fsm_states] using hev))
  · by_cases hev : event = SMSCB_MSG_E_STATUS_ACK ∨ event = SMSCB_MSG_E_STATUS_NACK
    · rw [dispatch_wait_status_ack tn s event data hst hev] at hr
      injection hr with hr
      subst hr
      split
      · exact Or.inl rfl
      · right
        simp [barrier_to_active_eq tn s 200 "OK" (Or.inr (Or.inr hst)), smscb_edge,
          timer_matches, is_wait_state]
        exact fun h1 h2 => absurd h2 h1
    · exact Or.inl (hother (by rw [hst]; simpa [smscb_fsm_states] using hev))
  · by_cases hev : event = SMSCB_MSG_E_DELETE_ACK ∨ event = SMSCB_MSG_E_DELETE_NACK
    · rw [dispatch_wait_delete_ack tn s event data hst hev] at hr
      injection hr with hr
      subst hr
      split
      · exact Or.inl rfl
      · right
        rw [state_chg_wait_deleted _ (by simpa [rest_it_op_set_http_result] using hst)]
        simp [rest_it_op_set_http_result, smscb_edge, deleted_effects, moved_to_expired]
    · exact Or.inl (hother (by rw [hst]; simpa [smscb_fsm_states] using hev))
  · exact Or.inl (hother (by rw [hst]; simp [smscb_fsm_states]))
  · exact Or.inl (hother (by rw [hst]; simp [smscb_fsm_states]))

/-- The state change a timer callback asks for is refused (only the timer is
gone), or keeps ACTIVE, or follows an edge of the graph; no timer is pending
afterwards. -/
theorem state_chg_shape (s : Sys) (target : smscb_state)
    (ht : target = SMSCB_S_ACTIVE ∨ target = SMSCB_S_DELETED)
    (htimer : s.cbcmsg.fi.timer = none) :
    (osmo_fsm_inst_state_chg s target 0 0).2.cbcmsg.fi.timer = none ∧
    ((osmo_fsm_inst_state_chg s target 0 0).2.cbcmsg.fi.state = s.cbcmsg.fi.state ∨
      (smscb_edge s.cbcmsg.fi.state (osmo_fsm_inst_state_chg s target 0 0).2.cbcmsg.fi.state = true ∧
        ((osmo_fsm_inst_state_chg s target 0 0).2.cbcmsg.fi.state = SMSCB_S_DELETED →
          deleted_effects s (osmo_fsm_inst_state_chg s target 0 0).2))) := by
  cases hst : s.cbcmsg.fi.state <;> rcases ht with rfl | rfl
  case SMSCB_S_WAIT_WRITE_ACK.inl =>
    simp [state_chg_wait_active s (Or.inl hst), smscb_edge]
  case SMSCB_S_WAIT_REPLACE_ACK.inl =>
    simp [state_chg_wait_active s (Or.inr (Or.inl hst)), smscb_edge]
  case SMSCB_S_WAIT_STATUS_ACK.inl =>
    simp [state_chg_wait_active s (Or.inr (Or.inr hst)), smscb_edge]
  case SMSCB_S_WAIT_DELETE_ACK.inr =>
    simp [state_chg_wait_deleted s hst, smscb_edge, deleted_effects, moved_to_expired]
  case SMSCB_S_ACTIVE.inl =>
    simp [osmo_fsm_inst_state_chg, hst, smscb_fsm_states, osmo_timer_del, set_state, set_T]
  all_goals
    rw [state_chg_refused s _ _ _ (by rw [hst]; decide)]
    exact ⟨htimer, Or.inl hst⟩

theorem fsm_tmr_cb_shape (tn : smscb_timer_numbers) (s s1 : Sys)
    (hr : fsm_tmr_cb tn s = some s1) :
    s1.cbcmsg.fi.timer = none ∧
    (s1.cbcmsg.fi.state = s.cbcmsg.fi.state ∨
      (smscb_edge s.cbcmsg.fi.state s1.cbcmsg.fi.state = true ∧
        (s1.cbcmsg.fi.state = SMSCB_S_DELETED → deleted_effects s s1))) := by
  have h0 : (osmo_timer_del s).cbcmsg.fi.timer = none := rfl
  have key := fun target ht => state_chg_shape (osmo_timer_del s) target ht h0
  unfold fsm_tmr_cb smscb_fsm_timer_cb at hr
  split_ifs at hr
  · injection hr with hr; subst hr; exact key _ (Or.inl rfl)
  · injection hr with hr; subst hr; exact key _ (Or.inl rfl)
  · injection hr with hr; subst hr; exact key _ (Or.inl rfl)
  · injection hr with hr; subst hr; exact key _ (Or.inr rfl)
  · cases hd : osmo_fsm_inst_dispatch tn (osmo_timer_del s) SMSCB_MSG_E_EXPIRE none with
    | none => rw [hd] at hr; cases hr
    | some r =>
      rw [hd] at hr
      injection hr with hr
      subst hr
      have hst0 : (osmo_timer_del s).cbcmsg.fi.state = s.cbcmsg.fi.state := rfl
      by_cases hst : s.cbcmsg.fi.state = SMSCB_S_ACTIVE
      · rw [dispatch_active_expire tn _ none (hst0.trans hst)] at hd
        injection hd with hd
        subst hd
        simp [smscb_edge, hst, osmo_timer_del]
      · rw [dispatch_other tn _ _ _ (by
          rw [hst0]
          revert hst
          cases s.cbcmsg.fi.state <;> simp [smscb_fsm_states])] at hd
        injection hd with hd
        subst hd
        exact ⟨rfl, Or.inl rfl⟩

/-! ## Refused and ignored events -/

/-- C11 (out-of-state requests). A request (CREATE, REPLACE, STATUS, DELETE,
with any handle) dispatched in a wait state, or CREATE in a state other than
INIT, or REPLACE, STATUS, DELETE in a state other than ACTIVE, is refused:
dispatch returns -1 and the whole process state is as before (lifecycle state,
attached handle, timer, both lists, and no call on any handle). -/
theorem out_of_state_requests_rejected (tn : smscb_timer_numbers) (s : Sys)
    (event : smscb_message_fsm_event) (data : Option Nat)
    (hreq : is_request event = true)
    (hout : is_wait_state s.cbcmsg.fi.state = true ∨
      (event = SMSCB_MSG_E_CREATE ∧ s.cbcmsg.fi.state ≠ SMSCB_S_INIT) ∨
      (event ≠ SMSCB_MSG_E_CREATE ∧ s.cbcmsg.fi.state ≠ SMSCB_S_ACTIVE)) :
    osmo_fsm_inst_dispatch tn s event data = some (-1, s) := by
  have hne : event ∉ (smscb_fsm_states s.cbcmsg.fi.state).in_event_mask := by
    revert hout
    cases s.cbcmsg.fi.state <;> cases event <;>
      simp [is_request] at hreq <;> simp [is_wait_state, smscb_fsm_states]
  have hd : event ≠ SMSCB_MSG_E_CHILD_DIED := by
    rintro rfl
    simp [is_request] at hreq
  rw [dispatch_other tn s event data hne, if_neg hd]

/-- The witness of C11: REPLACE with handle 8 while handle 7 waits in WAIT_DELETE_ACK. -/
theorem out_of_state_requests_rejected_witness :
    osmo_fsm_inst_dispatch sample_tn
      (sample_sys SMSCB_S_WAIT_DELETE_ACK 4 (some 15) (some 7) [⟨1, SMSCB_S_ACTIVE⟩])
      SMSCB_MSG_E_REPLACE (some 8) =
    some (-1, sample_sys SMSCB_S_WAIT_DELETE_ACK 4 (some 15) (some 7) [⟨1, SMSCB_S_ACTIVE⟩]) :=
  out_of_state_requests_rejected sample_tn
    (sample_sys SMSCB_S_WAIT_DELETE_ACK 4 (some 15) (some 7) [⟨1, SMSCB_S_ACTIVE⟩])
    SMSCB_MSG_E_REPLACE (some 8) rfl (Or.inl rfl)

/-- What the barrier of a write, replace or status operation leaves of the
timer when it completes: the message is in ACTIVE; if the warning period is
not 0xffffffff the timer is pending under the active expiry number, scheduled
with the warning period converted to `int`, which is the warning period itself
as long as that is below 2^31; if the warning period is 0xffffffff no timer is
pending. -/
theorem barrier_arms_active_expiry (tn : smscb_timer_numbers) (s : Sys)
    (event : smscb_message_fsm_event) (data : Option Nat)
    (hstate : s.cbcmsg.fi.state = SMSCB_S_WAIT_WRITE_ACK ∨
      s.cbcmsg.fi.state = SMSCB_S_WAIT_REPLACE_ACK ∨ s.cbcmsg.fi.state = SMSCB_S_WAIT_STATUS_ACK)
    (hb : barrier_defers s = false)
    (hev : event ∈ (smscb_fsm_states s.cbcmsg.fi.state).in_event_mask) :
    ∃ s1, osmo_fsm_inst_dispatch tn s event data = some (0, s1) ∧
      s1.cbcmsg.fi.state = SMSCB_S_ACTIVE ∧
      (s.cbcmsg.warning_period_sec ≠ 0xffffffff →
        s1.cbcmsg.fi.timer = some (c_int s.cbcmsg.warning_period_sec) ∧
        s1.cbcmsg.fi.T = tn.T_ACTIVE_EXPIRY) ∧
      (s.cbcmsg.warning_period_sec < 2 ^ 31 →
        s1.cbcmsg.fi.timer = some (s.cbcmsg.warning_period_sec : Int) ∧
        s1.cbcmsg.fi.T = tn.T_ACTIVE_EXPIRY) ∧
      (s.cbcmsg.warning_period_sec = 0xffffffff → s1.cbcmsg.fi.timer = none) := by
  have hw : is_wait_state s.cbcmsg.fi.state = true := by
    rcases hstate with h | h | h <;> rw [h] <;> rfl
  have hnd : s.cbcmsg.fi.state ≠ SMSCB_S_WAIT_DELETE_ACK := by
    rcases hstate with h | h | h <;> rw [h] <;> decide
  refine ⟨_, dispatch_barrier_open_eq tn s event data hw hb hev, ?_⟩
  rw [if_neg hnd]
  refine ⟨rfl, fun hne => ?_, fun hlt => ?_, fun heq => ?_⟩
  · simp [hne]
  · have hne : s.cbcmsg.warning_period_sec ≠ 4294967295 := by omega
    simp [hne, c_int_of_lt _ hlt]
  · simp [heq]

/-- C12 (active expiry timer arming) fails on the code at a warning period of
0x80000000 seconds: when WRITE_ACK completes the barrier (handle 7, the only
child ACTIVE) the message moves to ACTIVE and the timer is pending under the
active expiry number, but it is scheduled with -2147483648 seconds, the
`uint32_t` warning period converted to the `int` parameter of
`osmo_timer_schedule`: it is due at once, not after 2147483648 seconds. With a
warning period of 30 seconds the same step schedules it with 30. -/
theorem active_expiry_timer_overflow :
    (osmo_fsm_inst_dispatch sample_tn
      (with_warning_period
        (sample_sys SMSCB_S_WAIT_WRITE_ACK 1 (some 15) (some 7) [⟨1, SMSCB_S_ACTIVE⟩])
        0x80000000)
      SMSCB_MSG_E_WRITE_ACK none).map
        (fun r => (r.2.cbcmsg.fi.state, r.2.cbcmsg.fi.timer, r.2.cbcmsg.fi.T)) =
      some (SMSCB_S_ACTIVE, some (-2147483648), 5) ∧
    (osmo_fsm_inst_dispatch sample_tn
      (sample_sys SMSCB_S_WAIT_WRITE_ACK 1 (some 15) (some 7) [⟨1, SMSCB_S_ACTIVE⟩])
      SMSCB_MSG_E_WRITE_ACK none).map
        (fun r => (r.2.cbcmsg.fi.state, r.2.cbcmsg.fi.timer, r.2.cbcmsg.fi.T)) =
      some (SMSCB_S_ACTIVE, some 30, 5) := by
  refine ⟨?_, ?_⟩
  · obtain ⟨s1, h1, h2, h3, _⟩ := barrier_arms_active_expiry sample_tn
      (with_warning_period
        (sample_sys SMSCB_S_WAIT_WRITE_ACK 1 (some 15) (some 7) [⟨1, SMSCB_S_ACTIVE⟩])
        0x80000000)
      SMSCB_MSG_E_WRITE_ACK none (Or.inl rfl) (by decide) (by decide)
    have h4 := h3 (by decide)
    rw [h1]
    simp only [Option.map_some', h2, h4.1, h4.2]
    rw [show (with_warning_period
        (sample_sys SMSCB_S_WAIT_WRITE_ACK 1 (some 15) (some 7) [⟨1, SMSCB_S_ACTIVE⟩])
        0x80000000).cbcmsg.warning_period_sec = 2147483648 from rfl,
      c_int_of_ge 2147483648 (by norm_num) (by norm_num)]
    rfl
  · obtain ⟨s1, h1, h2, _, h3, _⟩ := barrier_arms_active_expiry sample_tn
      (sample_sys SMSCB_S_WAIT_WRITE_ACK 1 (some 15) (some 7) [⟨1, SMSCB_S_ACTIVE⟩])
      SMSCB_MSG_E_WRITE_ACK none (Or.inl rfl) (by decide) (by decide)
    have h4 := h3 (by decide)
    rw [h1]
    simp only [Option.map_some', h2, h4.1, h4.2]
    rfl

/-- An ACK and its NACK come out the same. -/
theorem ack_nack_same (tn : smscb_timer_numbers) (s : Sys) (data : Option Nat)
    (ack nack : smscb_message_fsm_event) (st : smscb_state)
    (hne1 : ack ≠ SMSCB_MSG_E_CHILD_DIED) (hne2 : nack ≠ SMSCB_MSG_E_CHILD_DIED)
    (hin : ∀ st1, (ack ∈ (smscb_fsm_states st1).in_event_mask ↔ st1 = st) ∧
      (nack ∈ (smscb_fsm_states st1).in_event_mask ↔ st1 = st))
    (hst : s.cbcmsg.fi.state = st →
      osmo_fsm_inst_dispatch tn s nack data = osmo_fsm_inst_dispatch tn s ack data) :
    osmo_fsm_inst_dispatch tn s nack data = osmo_fsm_inst_dispatch tn s ack data := by
  by_cases h : s.cbcmsg.fi.state = st
  · exact hst h
  · rw [dispatch_other tn s nack data (fun hmem => h ((hin _).2.1 hmem)),
      dispatch_other tn s ack data (fun hmem => h ((hin _).1.1 hmem)), if_neg hne1, if_neg hne2]

/-- C14 (NACK is aggregated like ACK). For each of WRITE, REPLACE, STATUS and
DELETE, in every process state (any lifecycle state, any children), the NACK
event gives exactly what the ACK event gives: the same return code and the
same process state afterwards, the trace of calls on the handle included. -/
theorem nack_equals_ack (tn : smscb_timer_numbers) (s : Sys) (data : Option Nat) :
    osmo_fsm_inst_dispatch tn s SMSCB_MSG_E_WRITE_NACK data =
      osmo_fsm_inst_dispatch tn s SMSCB_MSG_E_WRITE_ACK data ∧
    osmo_fsm_inst_dispatch tn s SMSCB_MSG_E_REPLACE_NACK data =
      osmo_fsm_inst_dispatch tn s SMSCB_MSG_E_REPLACE_ACK data ∧
    osmo_fsm_inst_dispatch tn s SMSCB_MSG_E_STATUS_NACK data =
      osmo_fsm_inst_dispatch tn s SMSCB_MSG_E_STATUS_ACK data ∧
    osmo_fsm_inst_dispatch tn s SMSCB_MSG_E_DELETE_NACK data =
      osmo_fsm_inst_dispatch tn s SMSCB_MSG_E_DELETE_ACK data := by
  refine ⟨?_, ?_, ?_, ?_⟩
  · refine ack_nack_same tn s data _ _ SMSCB_S_WAIT_WRITE_ACK (by decide) (by decide)
      (fun st1 => by cases st1 <;> simp [smscb_fsm_states]) (fun hst => ?_)
    rw [dispatch_wait_write_ack tn s _ data hst (Or.inr rfl),
      dispatch_wait_write_ack tn s _ data hst (Or.inl rfl)]
  · refine ack_nack_same tn s data _ _ SMSCB_S_WAIT_REPLACE_ACK (by decide) (by decide)
      (fun st1 => by cases st1 <;> simp [smscb_fsm_states]) (fun hst => ?_)
    rw [dispatch_wait_replace_ack tn s _ data hst (Or.inr rfl),
      dispatch_wait_replace_ack tn s _ data hst (Or.inl rfl)]
  · refine ack_nack_same tn s data _ _ SMSCB_S_WAIT_STATUS_ACK (by decide) (by decide)
      (fun st1 => by cases st1 <;> simp [smscb_fsm_states]) (fun hst => ?_)
    rw [dispatch_wait_status_ack tn s _ data hst (Or.inr rfl),
      dispatch_wait_status_ack tn s _ data hst (Or.inl rfl)]
  · refine ack_nack_same tn s data _ _ SMSCB_S_WAIT_DELETE_ACK (by decide) (by decide)
      (fun st1 => by cases st1 <;> simp [smscb_fsm_states]) (fun hst => ?_)
    rw [dispatch_wait_delete_ack tn s _ data hst (Or.inr rfl),
      dispatch_wait_delete_ack tn s _ data hst (Or.inl rfl)]

/-- C15 (CHILD_DIED is an accepted no-op). In every process state (any of the
eight lifecycle states, any children, any data) CHILD_DIED is accepted,
dispatch returns 0, and the whole process state is as before: lifecycle
state, handle, timer, both lists, and the trace (no call on the handle, no scan
of the children). -/
theorem child_died_is_noop (tn : smscb_timer_numbers) (s : Sys) (data : Option Nat) :
    osmo_fsm_inst_dispatch tn s SMSCB_MSG_E_CHILD_DIED data = some (0, s) := by
  unfold osmo_fsm_inst_dispatch
  rw [if_pos (by decide)]
  rfl

/-! ## The transition graph -/

/-- C16 (terminal states and transition graph). Whatever a dispatched event
(any event, any data) or an expiry of the timer (with any timer number) does
to the lifecycle state, it keeps it or follows one of the edges INIT to
WAIT_WRITE_ACK, WAIT_WRITE_ACK to ACTIVE, ACTIVE to WAIT_REPLACE_ACK,
WAIT_STATUS_ACK, WAIT_DELETE_ACK or EXPIRED, WAIT_REPLACE_ACK to ACTIVE,
WAIT_STATUS_ACK to ACTIVE, WAIT_DELETE_ACK to DELETED. So a message in DELETED
or EXPIRED keeps its state, and EXPIRED is entered from ACTIVE only. -/
theorem transition_graph (tn : smscb_timer_numbers) (s s1 : Sys)
    (hstep : (∃ event data rc, osmo_fsm_inst_dispatch tn s event data = some (rc, s1)) ∨
      fsm_tmr_cb tn s = some s1) :
    (s1.cbcmsg.fi.state ≠ s.cbcmsg.fi.state →
      (s.cbcmsg.fi.state, s1.cbcmsg.fi.state) ∈
        [(SMSCB_S_INIT, SMSCB_S_WAIT_WRITE_ACK),
         (SMSCB_S_WAIT_WRITE_ACK, SMSCB_S_ACTIVE),
         (SMSCB_S_ACTIVE, SMSCB_S_WAIT_REPLACE_ACK),
         (SMSCB_S_ACTIVE, SMSCB_S_WAIT_STATUS_ACK),
         (SMSCB_S_ACTIVE, SMSCB_S_WAIT_DELETE_ACK),
         (SMSCB_S_ACTIVE, SMSCB_S_EXPIRED),
         (SMSCB_S_WAIT_REPLACE_ACK, SMSCB_S_ACTIVE),
         (SMSCB_S_WAIT_STATUS_ACK, SMSCB_S_ACTIVE),
         (SMSCB_S_WAIT_DELETE_ACK, SMSCB_S_DELETED)]) ∧
    (s.cbcmsg.fi.state = SMSCB_S_DELETED ∨ s.cbcmsg.fi.state = SMSCB_S_EXPIRED →
      s1.cbcmsg.fi.state = s.cbcmsg.fi.state) ∧
    (s1.cbcmsg.fi.state = SMSCB_S_EXPIRED →
      s.cbcmsg.fi.state = SMSCB_S_ACTIVE ∨ s.cbcmsg.fi.state = SMSCB_S_EXPIRED) := by
  have key : s1.cbcmsg.fi.state = s.cbcmsg.fi.state ∨
      smscb_edge s.cbcmsg.fi.state s1.cbcmsg.fi.state = true := by
    rcases hstep with ⟨event, data, rc, hr⟩ | hr
    · rcases dispatch_shape tn s event data (rc, s1) hr with h | h
      · exact Or.inl (by rw [show s1 = s from h])
      · exact Or.inr h.1
    · rcases (fsm_tmr_cb_shape tn s s1 hr).2 with h | h
      · exact Or.inl h
      · exact Or.inr h.1
  revert key
  cases s.cbcmsg.fi.state <;> cases s1.cbcmsg.fi.state <;> simp [smscb_edge]

/-- The witness of C16: the delete timer takes WAIT_DELETE_ACK to DELETED, and
a DELETE request in DELETED changes nothing. -/
theorem transition_graph_witness :
    (fsm_tmr_cb sample_tn
      (sample_sys SMSCB_S_WAIT_DELETE_ACK 4 (some 15) (some 7) [])).map
        (fun s1 => s1.cbcmsg.fi.state) = some SMSCB_S_DELETED ∧
    (osmo_fsm_inst_dispatch sample_tn (sample_sys SMSCB_S_DELETED 0 none none [])
      SMSCB_MSG_E_DELETE (some 9)).map (fun r => r.2.cbcmsg.fi.state) = some SMSCB_S_DELETED := by
  constructor
  · rfl
  · cases hr : osmo_fsm_inst_dispatch sample_tn (sample_sys SMSCB_S_DELETED 0 none none [])
        SMSCB_MSG_E_DELETE (some 9) with
    | none => exact absurd hr (by decide)
    | some r =>
      have key := (transition_graph sample_tn (sample_sys SMSCB_S_DELETED 0 none none []) r.2
        (Or.inl ⟨_, _, r.1, hr⟩)).2.1 (Or.inl rfl)
      simp only [Option.map_some', key]
      rfl

/-! ## Entering DELETED -/

/-- C17 (effects of entering DELETED). Whenever a dispatched event or an
expiry of the timer takes a message into DELETED, it comes from
WAIT_DELETE_ACK, and afterwards: no timer is pending, no handle is attached,
the live list is the old one without the message, the expired list is the old
one (without the message) with the message linked at its tail, so the other
entries of both lists are as they were and in their order, and the expiry time
of the message is the current time. -/
theorem entering_deleted (tn : smscb_timer_numbers) (s s1 : Sys)
    (hstep : (∃ event data rc, osmo_fsm_inst_dispatch tn s event data = some (rc, s1)) ∨
      fsm_tmr_cb tn s = some s1)
    (hfrom : s.cbcmsg.fi.state ≠ SMSCB_S_DELETED)
    (hto : s1.cbcmsg.fi.state = SMSCB_S_DELETED) :
    s.cbcmsg.fi.state = SMSCB_S_WAIT_DELETE_ACK ∧
    s1.cbcmsg.fi.timer = none ∧
    s1.cbcmsg.it_op = none ∧
    s1.g_cbc.messages = s.g_cbc.messages.filter (fun q => decide (q ≠ s.ptr)) ∧
    s1.g_cbc.expired_messages =
      s.g_cbc.expired_messages.filter (fun q => decide (q ≠ s.ptr)) ++ [s.ptr] ∧
    s1.cbcmsg.time_expired = s.time_now ∧
    s.ptr ∉ s1.g_cbc.messages ∧
    (s.ptr ∉ s.g_cbc.expired_messages →
      s1.g_cbc.expired_messages = s.g_cbc.expired_messages ++ [s.ptr]) ∧
    (∀ q, q ≠ s.ptr →
      s1.g_cbc.messages.count q = s.g_cbc.messages.count q ∧
      s1.g_cbc.expired_messages.count q = s.g_cbc.expired_messages.count q) := by
  have key : smscb_edge s.cbcmsg.fi.state s1.cbcmsg.fi.state = true ∧ deleted_effects s s1 := by
    rcases hstep with ⟨event, data, rc, hr⟩ | hr
    · rcases dispatch_shape tn s event data (rc, s1) hr with h | h
      · exact absurd (by rw [← show s1 = s from h]; exact hto) hfrom
      · exact ⟨h.1, h.2.2 hto⟩
    · rcases (fsm_tmr_cb_shape tn s s1 hr).2 with h | h
      · exact absurd (h ▸ hto) hfrom
      · exact ⟨h.1, h.2 hto⟩
  obtain ⟨hedge, h1, h2, h3, h4, h5⟩ := key
  refine ⟨?_, h1, h2, h3, h4, h5, ?_, ?_, ?_⟩
  · rw [hto] at hedge
    revert hedge
    cases s.cbcmsg.fi.state <;> simp [smscb_edge]
  · rw [h3]
    simp
  · intro hnot
    rw [h4, List.filter_eq_self.2]
    intro a ha
    have hne : a ≠ s.ptr := fun h => hnot (h ▸ ha)
    simpa using hne
  · intro q hq
    rw [h3, h4, List.count_append, count_filter_ne, count_filter_ne, if_neg hq,
      List.count_singleton]
    have : (s.ptr == q) = false := by simpa using Ne.symm hq
    simp [this, hq]

/-- The witness of C17: DELETE_ACK with the only child DELETED, message 0
alone on the live list, at time 100. -/
theorem entering_deleted_witness :
    (osmo_fsm_inst_dispatch sample_tn
      (sample_sys SMSCB_S_WAIT_DELETE_ACK 4 (some 15) (some 7) [⟨1, SMSCB_S_DELETED⟩])
      SMSCB_MSG_E_DELETE_ACK none).map
        (fun r => (r.2.cbcmsg.fi.state, r.2.cbcmsg.fi.timer, r.2.cbcmsg.it_op, r.2.g_cbc,
          r.2.cbcmsg.time_expired)) =
      some (SMSCB_S_DELETED, none, none, { messages := [], expired_messages := [0] }, 100) := by
  cases hr : osmo_fsm_inst_dispatch sample_tn
      (sample_sys SMSCB_S_WAIT_DELETE_ACK 4 (some 15) (some 7) [⟨1, SMSCB_S_DELETED⟩])
      SMSCB_MSG_E_DELETE_ACK none with
  | none => exact absurd hr (by decide)
  | some r =>
    have hto : r.2.cbcmsg.fi.state = SMSCB_S_DELETED := by
      have : (osmo_fsm_inst_dispatch sample_tn
          (sample_sys SMSCB_S_WAIT_DELETE_ACK 4 (some 15) (some 7) [⟨1, SMSCB_S_DELETED⟩])
          SMSCB_MSG_E_DELETE_ACK none).map (fun r => r.2.cbcmsg.fi.state) =
          some SMSCB_S_DELETED := rfl
      rw [hr] at this
      exact Option.some.inj this
    obtain ⟨_, h1, h2, h3, h4, h5, _⟩ := entering_deleted sample_tn
      (sample_sys SMSCB_S_WAIT_DELETE_ACK 4 (some 15) (some 7) [⟨1, SMSCB_S_DELETED⟩]) r.2
      (Or.inl ⟨_, _, r.1, hr⟩) (by decide) hto
    have hg : r.2.g_cbc = { messages := [], expired_messages := [0] } := by
      cases hgc : r.2.g_cbc with
      | mk ms es =>
        rw [hgc] at h3 h4
        simp only at h3 h4
        rw [h3, h4]
        rfl
    simp only [Option.map_some', hto, h1, h2, hg, h5]
    rfl

/-! ## Teardown -/

/-- The scan of the replace or status handler finds a child still waiting: nothing changes. -/
theorem replace_status_barrier_waits_aux (tn : smscb_timer_numbers) (s : Sys)
    (event : smscb_message_fsm_event) (data : Option Nat)
    (hcase : (s.cbcmsg.fi.state = SMSCB_S_WAIT_REPLACE_ACK ∧
        (event = SMSCB_MSG_E_REPLACE_ACK ∨ event = SMSCB_MSG_E_REPLACE_NACK)) ∨
      (s.cbcmsg.fi.state = SMSCB_S_WAIT_STATUS_ACK ∧
        (event = SMSCB_MSG_E_STATUS_ACK ∨ event = SMSCB_MSG_E_STATUS_NACK)))
    (hchild : ∃ c ∈ s.cbcmsg.fi.children, c.state = s.cbcmsg.fi.state) :
    osmo_fsm_inst_dispatch tn s event data = some (0, s) := by
  rcases hcase with ⟨hst, hev⟩ | ⟨hst, hev⟩
  · rw [hst] at hchild
    rw [dispatch_wait_replace_ack tn s event data hst hev, if_pos (by simpa using hchild)]
  · rw [hst] at hchild
    rw [dispatch_wait_status_ack tn s event data hst hev, if_pos (by simpa using hchild)]

/-- C19 (replace and status barriers). In WAIT_REPLACE_ACK with a handle
attached, REPLACE_ACK or REPLACE_NACK is accepted; the message moves to ACTIVE
exactly when no child is in state WAIT_REPLACE_ACK; when it moves the handle
gets set_result(200, "OK") and then complete(), and is detached; when some
child is in WAIT_REPLACE_ACK nothing at all changes. The same in
WAIT_STATUS_ACK with STATUS_ACK, STATUS_NACK and children in state
WAIT_STATUS_ACK. -/
theorem replace_status_barrier (tn : smscb_timer_numbers) (s : Sys) (h : Nat)
    (event : smscb_message_fsm_event) (data : Option Nat)
    (hcase : (s.cbcmsg.fi.state = SMSCB_S_WAIT_REPLACE_ACK ∧
        (event = SMSCB_MSG_E_REPLACE_ACK ∨ event = SMSCB_MSG_E_REPLACE_NACK)) ∨
      (s.cbcmsg.fi.state = SMSCB_S_WAIT_STATUS_ACK ∧
        (event = SMSCB_MSG_E_STATUS_ACK ∨ event = SMSCB_MSG_E_STATUS_NACK)))
    (hop : s.cbcmsg.it_op = some h) :
    ∃ s1, osmo_fsm_inst_dispatch tn s event data = some (0, s1) ∧
      (s1.cbcmsg.fi.state = SMSCB_S_ACTIVE ↔
        ∀ c ∈ s.cbcmsg.fi.children, c.state ≠ s.cbcmsg.fi.state) ∧
      ((∀ c ∈ s.cbcmsg.fi.children, c.state ≠ s.cbcmsg.fi.state) →
        s1.cbcmsg.it_op = none ∧
        s1.calls = s.calls ++ [ext_call.set_http_result (some h) 200 "OK",
          ext_call.complete (some h)]) ∧
      ((∃ c ∈ s.cbcmsg.fi.children, c.state = s.cbcmsg.fi.state) → s1 = s) := by
  have hw : is_wait_state s.cbcmsg.fi.state = true := by
    rcases hcase with ⟨hst, _⟩ | ⟨hst, _⟩ <;> rw [hst] <;> rfl
  have hev : event ∈ (smscb_fsm_states s.cbcmsg.fi.state).in_event_mask := by
    rcases hcase with ⟨hst, hev⟩ | ⟨hst, hev⟩ <;> rw [hst] <;>
      simpa [smscb_fsm_states] using hev
  have hnd : s.cbcmsg.fi.state ≠ SMSCB_S_WAIT_DELETE_ACK := by
    rcases hcase with ⟨hst, _⟩ | ⟨hst, _⟩ <;> rw [hst] <;> decide
  have hnw : s.cbcmsg.fi.state ≠ SMSCB_S_WAIT_WRITE_ACK := by
    rcases hcase with ⟨hst, _⟩ | ⟨hst, _⟩ <;> rw [hst] <;> decide
  have hna : s.cbcmsg.fi.state ≠ SMSCB_S_ACTIVE := by
    rcases hcase with ⟨hst, _⟩ | ⟨hst, _⟩ <;> rw [hst] <;> decide
  have hscan : barrier_defers s = true ↔ ∃ c ∈ s.cbcmsg.fi.children, c.state = s.cbcmsg.fi.state := by
    rcases hcase with ⟨hst, _⟩ | ⟨hst, _⟩ <;> simp [barrier_defers, hst]
  by_cases hb : barrier_defers s = true
  · have hex := hscan.1 hb
    have hnall : ¬ ∀ c ∈ s.cbcmsg.fi.children, c.state ≠ s.cbcmsg.fi.state := by
      intro hall
      obtain ⟨c, hc, heq⟩ := hex
      exact hall c hc heq
    refine ⟨s, replace_status_barrier_waits_aux tn s event data hcase hex, ?_, ?_, fun _ => rfl⟩
    · exact ⟨fun hact => absurd hact hna, fun hall => absurd hall hnall⟩
    · exact fun hall => absurd hall hnall
  · have hbf : barrier_defers s = false := by simpa using hb
    have hall : ∀ c ∈ s.cbcmsg.fi.children, c.state ≠ s.cbcmsg.fi.state := by
      intro c hc heq
      exact hb (hscan.2 ⟨c, hc, heq⟩)
    refine ⟨_, dispatch_barrier_open_eq tn s event data hw hbf hev, ?_⟩
    rw [if_neg hnd]
    refine ⟨⟨fun _ => hall, fun _ => rfl⟩, fun _ => ⟨rfl, ?_⟩, ?_⟩
    · simp [hop, hnw]
    · rintro ⟨c, hc, heq⟩
      exact absurd heq (hall c hc)

/-- The witness of C19: REPLACE_NACK while the only child is in DELETED, which
is not WAIT_REPLACE_ACK. -/
theorem replace_status_barrier_witness :
    (osmo_fsm_inst_dispatch sample_tn
      (sample_sys SMSCB_S_WAIT_REPLACE_ACK 2 (some 15) (some 7) [⟨1, SMSCB_S_DELETED⟩])
      SMSCB_MSG_E_REPLACE_NACK none).map
      (fun r => (r.2.cbcmsg.fi.state, r.2.cbcmsg.it_op, r.2.calls)) =
      some (SMSCB_S_ACTIVE, none,
        [ext_call.set_http_result (some 7) 200 "OK", ext_call.complete (some 7)]) := by
  obtain ⟨s1, h1, h2, h3, _⟩ := replace_status_barrier sample_tn
    (sample_sys SMSCB_S_WAIT_REPLACE_ACK 2 (some 15) (some 7) [⟨1, SMSCB_S_DELETED⟩]) 7
    SMSCB_MSG_E_REPLACE_NACK none (Or.inl ⟨rfl, Or.inr rfl⟩) rfl
  have hall : ∀ c ∈ (sample_sys SMSCB_S_WAIT_REPLACE_ACK 2 (some 15) (some 7)
      [⟨1, SMSCB_S_DELETED⟩]).cbcmsg.fi.children,
      c.state ≠ (sample_sys SMSCB_S_WAIT_REPLACE_ACK 2 (some 15) (some 7)
        [⟨1, SMSCB_S_DELETED⟩]).cbcmsg.fi.state := by decide
  rw [h1]
  simp [h2.2 hall, (h3 hall).1, (h3 hall).2, sample_sys]

/-! ## No assertion is reached -/

theorem put_preserves_timer_inv (tn : smscb_timer_numbers) (w : World) (p : Nat) (s s1 : Sys)
    (hs : w.sys p = some s) (hptr1 : s1.ptr = s.ptr)
    (hm1 : s1.cbcmsg.fi.timer.isSome = true → timer_matches tn s1.cbcmsg.fi)
    (hinv : w.timer_inv tn) : (w.put s1).timer_inv tn := by
  obtain ⟨hptr, _, hm⟩ := World.sys_some w p s hs
  have hlt := World.msg_lt w p _ hm
  intro q m hq hsome
  have hmsg : (w.put s1).msg q = if q = p then some s1.cbcmsg else w.msg q := by
    unfold World.put
    rw [hptr1.trans hptr]
    exact World.msg_set w _ _ _ p _ hlt q
  rw [hmsg] at hq
  by_cases hqp : q = p
  · rw [if_pos hqp] at hq
    injection hq with hq
    subst hq
    exact hm1 hsome
  · rw [if_neg hqp] at hq
    exact hinv q m hq hsome

theorem step_preserves_timer_inv (tn : smscb_timer_numbers) (w w1 : World) (a : Action)
    (hstep : w.step tn a = some w1) (hinv : w.timer_inv tn) : w1.timer_inv tn := by
  cases a with
  | alloc orig_msg fi_mem smscb_mem =>
    simp only [World.step] at hstep
    cases hr : cbc_message_alloc w orig_msg fi_mem smscb_mem with
    | none => simp [hr] at hstep
    | some r =>
      simp only [hr, Option.map_some', Option.some.injEq] at hstep
      subst hstep
      unfold cbc_message_alloc at hr
      split_ifs at hr
      · injection hr with hr; subst hr; exact hinv
      · injection hr with hr; subst hr; exact hinv
      · injection hr with hr
        subst hr
        intro q m hq hsome
        by_cases hqp : q = w.heap.length
        · subst hqp
          simp [World.msg] at hq
          subst hq
          simp at hsome
        · have := World.msg_append_lt w (some { orig_msg with
            peers := [],
            fi := { state := SMSCB_S_INIT, T := 0, timer := none, children := [] },
            it_op := none,
            time_created := w.time_now }) q hqp
          exact hinv q m (this ▸ hq) hsome
  | dispatch p event data =>
    simp only [World.step] at hstep
    cases hs : w.sys p with
    | none => simp [hs] at hstep
    | some s =>
      simp only [hs] at hstep
      cases hr : osmo_fsm_inst_dispatch tn s event data with
      | none => simp [hr] at hstep
      | some r =>
        simp only [hr, Option.map_some', Option.some.injEq] at hstep
        subst hstep
        refine put_preserves_timer_inv tn w p s r.2 hs (dispatch_step_ok tn s event data r hr).1
          ?_ hinv
        rcases dispatch_shape tn s event data r hr with h | h
        · rw [h]
          exact hinv p s.cbcmsg (World.sys_some w p s hs).2.2
        · exact h.2.1
  | timer_expiry p =>
    simp only [World.step] at hstep
    cases hs : w.sys p with
    | none => simp [hs] at hstep
    | some s =>
      simp only [hs] at hstep
      split_ifs at hstep
      cases hr : fsm_tmr_cb tn s with
      | none => simp [hr] at hstep
      | some s1 =>
        simp only [hr, Option.map_some', Option.some.injEq] at hstep
        subst hstep
        refine put_preserves_timer_inv tn w p s s1 hs (fsm_tmr_cb_step_ok tn s s1 hr).1 ?_ hinv
        intro hsome
        rw [(fsm_tmr_cb_shape tn s s1 hr).1] at hsome
        cases hsome
  | free p =>
    simp only [World.step] at hstep
    unfold cbc_message_free at hstep
    cases hs : w.sys p with
    | none => simp [hs] at hstep
    | some s =>
      obtain ⟨_, _, hm⟩ := World.sys_some w p s hs
      have hlt := World.msg_lt w p _ hm
      simp only [hs] at hstep
      cases hc : smscb_fsm_cleanup s with
      | none => simp [hc] at hstep
      | some s1 =>
        simp only [hc, Option.map_some', Option.some.injEq] at hstep
        subst hstep
        intro q m hq hsome
        rw [World.msg_set w _ _ _ p none hlt q] at hq
        by_cases hqp : q = p
        · rw [if_pos hqp] at hq; cases hq
        · rw [if_neg hqp] at hq
          exact hinv q m hq hsome
  | peers_change p children peers =>
    simp only [World.step] at hstep
    cases hs : w.sys p with
    | none => simp [hs] at hstep
    | some s =>
      simp only [hs, Option.some.injEq] at hstep
      subst hstep
      refine put_preserves_timer_inv tn w p s _ hs rfl ?_ hinv
      exact hinv p s.cbcmsg (World.sys_some w p s hs).2.2
  | clock t =>
    simp only [World.step, Option.some.injEq] at hstep
    subst hstep
    exact hinv

theorem run_preserves_timer_inv (tn : smscb_timer_numbers) (acts : List Action) :
    ∀ w w1 : World, World.run tn w acts = some w1 → w.timer_inv tn → w1.timer_inv tn := by
  induction acts with
  | nil =>
    intro w w1 hrun hinv
    simp only [World.run, Option.some.injEq] at hrun
    subst hrun
    exact hinv
  | cons a rest ih =>
    intro w w1 hrun hinv
    simp only [World.run] at hrun
    cases hstep : w.step tn a with
    | none => simp [hstep] at hrun
    | some w2 =>
      simp only [hstep] at hrun
      exact ih w2 w1 hrun (step_preserves_timer_inv tn w w2 a hstep hinv)

theorem boot_timer_inv (tn : smscb_timer_numbers) : World.boot.timer_inv tn := by
  intro p m hp
  simp [World.msg, World.boot] at hp

theorem requested_state_none (s : Sys) (event : smscb_message_fsm_event)
    (hne : event ∉ (smscb_fsm_states s.cbcmsg.fi.state).in_event_mask) :
    requested_state s event = none := by
  unfold requested_state
  revert hne
  cases s.cbcmsg.fi.state <;> cases event <;> simp [smscb_fsm_states]

theorem requested_state_permitted (s : Sys) (event : smscb_message_fsm_event)
    (st : smscb_state) (h : requested_state s event = some st) :
    st ∈ (smscb_fsm_states s.cbcmsg.fi.state).out_state_mask ∧ st ≠ s.cbcmsg.fi.state := by
  unfold requested_state at h
  revert h
  cases s.cbcmsg.fi.state <;> cases event <;> simp [smscb_fsm_states] <;>
    (intros; subst_vars; simp)

theorem dispatch_barrier_deferred (tn : smscb_timer_numbers) (s : Sys)
    (event : smscb_message_fsm_event) (data : Option Nat)
    (hw : is_wait_state s.cbcmsg.fi.state = true)
    (hb : barrier_defers s = true)
    (hev : event ∈ (smscb_fsm_states s.cbcmsg.fi.state).in_event_mask) :
    osmo_fsm_inst_dispatch tn s event data = some (0, s) := by
  cases hst : s.cbcmsg.fi.state <;> rw [hst] at hw <;> simp [is_wait_state] at hw <;>
    rw [hst] at hev <;> simp only [barrier_defers, hst] at hb
  · rw [dispatch_wait_write_ack tn s event data hst (by simpa [smscb_fsm_states] using hev),
      if_pos hb]
  · rw [dispatch_wait_replace_ack tn s event data hst (by simpa [smscb_fsm_states] using hev),
      if_pos hb]
  · rw [dispatch_wait_status_ack tn s event data hst (by simpa [smscb_fsm_states] using hev),
      if_pos hb]
  · rw [dispatch_wait_delete_ack tn s event data hst (by simpa [smscb_fsm_states] using hev),
      if_pos hb]

/-- While a handle is attached only in wait states: an admitted event is
handled (return code 0) and the state its action asks for is the state
afterwards; any other event is refused with -1; none aborts. -/
theorem dispatch_requested (tn : smscb_timer_numbers) (s : Sys)
    (event : smscb_message_fsm_event) (data : Option Nat)
    (hinv : s.cbcmsg.it_op.isSome = true → is_wait_state s.cbcmsg.fi.state = true) :
    ∃ s1, osmo_fsm_inst_dispatch tn s event data =
        some (if event ∈ allstate_event_mask ∨
          event ∈ (smscb_fsm_states s.cbcmsg.fi.state).in_event_mask then 0 else -1, s1) ∧
      s1.cbcmsg.fi.state = (requested_state s event).getD s.cbcmsg.fi.state := by
  by_cases hmem : event ∈ (smscb_fsm_states s.cbcmsg.fi.state).in_event_mask
  swap
  · refine ⟨s, ?_, ?_⟩
    · rw [dispatch_other tn s event data hmem]
      by_cases hd : event = SMSCB_MSG_E_CHILD_DIED
      · subst hd
        simp [allstate_event_mask]
      · simp [allstate_event_mask, hd, hmem]
    · rw [requested_state_none s event hmem]
      rfl
  rw [if_pos (Or.inr hmem)]
  have hop : is_wait_state s.cbcmsg.fi.state = false → s.cbcmsg.it_op = none := by
    intro hnw
    cases h : s.cbcmsg.it_op with
    | none => rfl
    | some x =>
      have := hinv (by simp [h])
      rw [hnw] at this
      cases this
  by_cases hw : is_wait_state s.cbcmsg.fi.state = true
  · by_cases hb : barrier_defers s = true
    · refine ⟨s, dispatch_barrier_deferred tn s event data hw hb hmem, ?_⟩
      have : requested_state s event = none := by
        unfold requested_state
        revert hmem hw
        cases s.cbcmsg.fi.state <;> cases event <;>
          simp [smscb_fsm_states, is_wait_state, hb]
      rw [this]
      rfl
    · have hbf : barrier_defers s = false := by simpa using hb
      refine ⟨_, dispatch_barrier_open_eq tn s event data hw hbf hmem, ?_⟩
      unfold requested_state
      revert hmem hw
      cases hst : s.cbcmsg.fi.state <;> cases event <;>
        simp [smscb_fsm_states, is_wait_state, hbf]
  · have hnw : is_wait_state s.cbcmsg.fi.state = false := by simpa using hw
    have hnone := hop hnw
    obtain ⟨h1, h2, h3, h4⟩ := dispatch_request tn s data hnone
    cases hst : s.cbcmsg.fi.state <;> rw [hst] at hnw hmem <;>
      simp [is_wait_state] at hnw <;> simp [smscb_fsm_states] at hmem
    · subst hmem
      exact ⟨_, h1 hst, by simp [requested_state, hst]⟩
    · rcases hmem with rfl | rfl | rfl | rfl
      · exact ⟨_, h2 hst, by simp [requested_state, hst]⟩
      · exact ⟨_, h3 hst, by simp [requested_state, hst]⟩
      · exact ⟨_, h4 hst, by simp [requested_state, hst]⟩
      · exact ⟨_, dispatch_active_expire tn s data hst, by simp [requested_state, hst]⟩

/-- C20 (no fatal assertion through event intake). With pairwise different
timer numbers, in every process state reached from start-up by any sequence of
allocations, dispatched events (any event, any data), timer expiries, frees
and changes of the children, for every existing message: every dispatched
event returns, with 0 when it is admitted (all-state mask or the state's
in_event_mask) and with -1 otherwise, so no default branch of an action or of
the all-state action is run; the state an action asks for is in the state's
out_state_mask and is the state afterwards; and when the timer is pending its
number is one of the five known ones and the one of the current state, the
timer callback returns, and the state it asks for is in the out_state_mask and
is the state afterwards. -/
theorem no_fatal_assertion (tn : smscb_timer_numbers) (hd : tn.distinct) (acts : List Action)
    (w : World) (hrun : World.run tn World.boot acts = some w) (p : Nat) (s : Sys)
    (hs : w.sys p = some s) :
    (∀ event data, ∃ s1,
      osmo_fsm_inst_dispatch tn s event data =
        some (if event ∈ allstate_event_mask ∨
          event ∈ (smscb_fsm_states s.cbcmsg.fi.state).in_event_mask then 0 else -1, s1) ∧
      (∀ st, requested_state s event = some st →
        st ∈ (smscb_fsm_states s.cbcmsg.fi.state).out_state_mask ∧ s1.cbcmsg.fi.state = st) ∧
      (requested_state s event = none → s1.cbcmsg.fi.state = s.cbcmsg.fi.state)) ∧
    (s.cbcmsg.fi.timer.isSome = true →
      s.cbcmsg.fi.T ∈ [tn.T_WAIT_WRITE_ACK, tn.T_WAIT_REPLACE_ACK, tn.T_WAIT_STATUS_ACK,
        tn.T_WAIT_DELETE_ACK, tn.T_ACTIVE_EXPIRY] ∧
      timer_matches tn s.cbcmsg.fi ∧
      ∃ s1, fsm_tmr_cb tn s = some s1 ∧
        s1.cbcmsg.fi.state ∈ (smscb_fsm_states s.cbcmsg.fi.state).out_state_mask ∧
        s1.cbcmsg.fi.state =
          (if s.cbcmsg.fi.state = SMSCB_S_ACTIVE then SMSCB_S_EXPIRED
            else wait_target s.cbcmsg.fi.state)) := by
  obtain ⟨_, _, hm⟩ := World.sys_some w p s hs
  have hwait : s.cbcmsg.it_op.isSome = true → is_wait_state s.cbcmsg.fi.state = true :=
    (run_preserves_inv tn acts World.boot w hrun boot_inv).1 p s.cbcmsg hm
  have htimer := run_preserves_timer_inv tn acts World.boot w hrun (boot_timer_inv tn) p s.cbcmsg hm
  constructor
  · intro event data
    obtain ⟨s1, h1, h2⟩ := dispatch_requested tn s event data hwait
    refine ⟨s1, h1, ?_, ?_⟩
    · intro st hst
      rw [hst] at h2
      exact ⟨(requested_state_permitted s event st hst).1, h2⟩
    · intro hnone
      rw [hnone] at h2
      exact h2
  · intro hsome
    have hmatch := htimer hsome
    refine ⟨?_, hmatch, ?_⟩
    · rcases hmatch with ⟨hw, hT⟩ | ⟨_, hT⟩
      · rw [hT]
        revert hw
        cases s.cbcmsg.fi.state <;> simp [is_wait_state, wait_timer]
      · rw [hT]
        simp
    · rcases hmatch with ⟨hw, hT⟩ | ⟨hst, hT⟩
      · refine ⟨_, fsm_tmr_cb_wait_eq tn hd s hw hT, ?_⟩
        revert hw
        cases hst : s.cbcmsg.fi.state <;>
          simp [is_wait_state, wait_target, smscb_fsm_states]
      · have h0 : (osmo_timer_del s).cbcmsg.fi.state = SMSCB_S_ACTIVE := hst
        have hcb : fsm_tmr_cb tn s = some
            (osmo_fsm_inst_state_chg
              { osmo_timer_del s with
                g_cbc := moved_to_expired (osmo_timer_del s).g_cbc s.ptr } SMSCB_S_EXPIRED 0 0).2 := by
          rw [fsm_tmr_cb_active_expiry tn hd s hT]
          unfold osmo_fsm_inst_dispatch
          rw [h0, if_neg (by decide), if_pos (by decide)]
          rfl
        refine ⟨_, hcb, ?_⟩
        cases hop : s.cbcmsg.it_op <;>
          simp [osmo_fsm_inst_state_chg, osmo_timer_del, hst, hop, smscb_fsm_states,
            smscb_fsm_expired_onenter, set_it_op, rest_it_op_complete, set_state, set_T]

/-- The witness of C20: after CREATE the 15 s timer of message 42 is pending
with the number of WAIT_WRITE_ACK; its expiry takes the message to ACTIVE. -/
theorem no_fatal_assertion_witness :
    World.run sample_tn World.boot (sample_acts.take 2) = some (sample_after 2) ∧
    (sample_after 2).sys 0 =
      some { sample_sys SMSCB_S_WAIT_WRITE_ACK 1 (some 15) (some 7) [] with time_now := 0 } ∧
    (fsm_tmr_cb sample_tn
      { sample_sys SMSCB_S_WAIT_WRITE_ACK 1 (some 15) (some 7) [] with time_now := 0 }).map
        (fun s1 => s1.cbcmsg.fi.state) = some SMSCB_S_ACTIVE := by
  have hrun : World.run sample_tn World.boot (sample_acts.take 2) = some (sample_after 2) := by
    decide
  have hs : (sample_after 2).sys 0 =
      some { sample_sys SMSCB_S_WAIT_WRITE_ACK 1 (some 15) (some 7) [] with time_now := 0 } := by
    decide
  obtain ⟨_, _, s1, h1, _, h3⟩ :=
    (no_fatal_assertion sample_tn (by decide) _ _ hrun 0 _ hs).2 rfl
  refine ⟨hrun, hs, ?_⟩
  rw [h1]
  simp only [Option.map_some', h3]
  rfl

end SmscbFsm
